import Mathlib

/-!
# Health kiosk: the sensor link (src/src/main.cpp, src/src/sensors.h, src/src/sensors.cpp)

A shallow embedding of the kiosk's serial frame decoder (`processUART`,
`parseUARTPacket`), of its command encoder and of the start / capture
callbacks of the sensor screens, followed by theorems about them.

Conventions of the embedding.
* A `uint8_t` is a `Nat` below 256, a `uint32_t` a `Nat` below `2 ^ 32`; where the
  source increments such a variable the model reduces modulo the width.
* A `float` is held as its IEEE-754 binary32 bit pattern, a `Nat` below `2 ^ 32`
  (`memcpy` of four little-endian bytes into a `float` is then exact).
* The arrays `uartBuffer`, `streamBuffer` and `measurements_done` are maps from the
  index to the cell; only cells inside the C array are ever read. A store through an
  index beyond the array, which C leaves undefined and which needs a state that the
  program never reaches, is kept as a store to a further cell.
* `millis()` is an input: the decoder step takes the value it returns as `now`.
* Calls that only draw on the screen or print to the debug console
  (`lv_*`, `Serial.printf`, `switch_scr`) have no effect on the modelled state and are
  left out.
* The label code of the decoder (`updateLiveLabel`) and of the CAPTURE callback writes
  no modelled variable either, but it renders a float with `dtostrf` into a
  `char buf[32]` and is not defined for every value. `processByte`, `processUART` and
  `captureButtonClicked` are the stores alone; `processByteUB`, `processUARTUB` and
  `captureButtonClickedUB` are the same code with the label code, with the result `none`
  for an execution whose behaviour is undefined. Where the latter are defined they agree
  with the former (`processUARTUB_eq_some`, `captureButtonClickedUB_eq_some`).
-/

namespace HealthKiosk

/-! ## Data model -/

/-- The record `HealthData` of sensors.h; the four `float` fields hold bit patterns. -/
structure HealthData where
  timestamp : String
  name : String
  age : String
  gender : String
  address : String
  weight : Nat
  height : Nat
  temperature : Nat
  bmi : Nat
  heart_rate : Int
  bp_sys : Int
  bp_dia : Int
  height_measured : Bool
  weight_measured : Bool
  temp_measured : Bool
  hr_measured : Bool
  bp_measured : Bool
deriving DecidableEq, Repr

/-- The size of the packed struct `SensorData`:
four floats, a `uint16_t`, two floats, a `uint8_t` and a `uint32_t`. -/
def sizeofSensorData : Nat := 4 + 4 + 4 + 4 + 2 + 4 + 4 + 1 + 4

/-- The global variables of main.cpp that the sensor link reads or writes.
`sensorData` is the packed struct as its `sizeofSensorData` raw bytes;
`tx` collects the bytes written to `SerialUART`, oldest first. -/
structure State where
  sensorData : List Nat
  dataReceived : Bool
  lastDataTime : Nat
  packetCount : Nat
  uartBuffer : Nat → Nat
  bufferIndex : Nat
  receivingPacket : Bool
  healthData : HealthData
  measurements_done : Nat → Bool
  receivingStream : Bool
  streamBuffer : Nat → Nat
  streamIndex : Nat
  latestStreamValue : Nat
  currentStreamSensor : Int
  tx : List Nat

/-- The array store `a[i] = v`. -/
def store {α : Type} (a : Nat → α) (i : Nat) (v : α) : Nat → α :=
  fun j => if j = i then v else a j

/-- Two bytes read as a little-endian `uint16_t`. -/
def le16 (b0 b1 : Nat) : Nat := b0 + 256 * b1

/-- Four bytes read as a little-endian 32-bit word (`uint32_t`, or the bits of a `float`). -/
def le32 (b0 b1 b2 b3 : Nat) : Nat := b0 + 256 * b1 + 65536 * b2 + 16777216 * b3

/-- The byte of a packed struct at offset `i`. -/
def byteAt (d : List Nat) (i : Nat) : Nat := d.getD i 0

/-! The fields of `SensorData`, at their offsets in the packed layout. -/

def SensorData_distance_cm (d : List Nat) : Nat :=
  le32 (byteAt d 0) (byteAt d 1) (byteAt d 2) (byteAt d 3)

def SensorData_height_cm (d : List Nat) : Nat :=
  le32 (byteAt d 4) (byteAt d 5) (byteAt d 6) (byteAt d 7)

def SensorData_temperature_c (d : List Nat) : Nat :=
  le32 (byteAt d 8) (byteAt d 9) (byteAt d 10) (byteAt d 11)

def SensorData_ambient_temp_c (d : List Nat) : Nat :=
  le32 (byteAt d 12) (byteAt d 13) (byteAt d 14) (byteAt d 15)

def SensorData_heart_rate (d : List Nat) : Nat :=
  le16 (byteAt d 16) (byteAt d 17)

def SensorData_weight_kg (d : List Nat) : Nat :=
  le32 (byteAt d 18) (byteAt d 19) (byteAt d 20) (byteAt d 21)

def SensorData_bmi (d : List Nat) : Nat :=
  le32 (byteAt d 22) (byteAt d 23) (byteAt d 24) (byteAt d 25)

def SensorData_sensor_status (d : List Nat) : Nat := byteAt d 26

def SensorData_timestamp (d : List Nat) : Nat :=
  le32 (byteAt d 27) (byteAt d 28) (byteAt d 29) (byteAt d 30)

/-! ## Single-precision floats

A `float` is its binary32 bit pattern: sign bit 31, exponent field bits 30..23,
fraction bits 22..0. The operations below are the IEEE-754 ones (round to nearest,
ties to even) that the source applies to floats. -/

def f32_sign (x : Nat) : Nat := (x / 2 ^ 31) % 2

def f32_exp (x : Nat) : Nat := (x / 2 ^ 23) % 256

def f32_frac (x : Nat) : Nat := x % 2 ^ 23

def f32_isNaN (x : Nat) : Bool := f32_exp x == 255 && f32_frac x != 0

def f32_isInf (x : Nat) : Bool := f32_exp x == 255 && f32_frac x == 0

def f32_isZero (x : Nat) : Bool := f32_exp x == 0 && f32_frac x == 0

/-- The comparison `x > 0` of a float with the constant zero. -/
def f32_gt_zero (x : Nat) : Bool := !f32_isNaN x && f32_sign x == 0 && !f32_isZero x

/-- The comparison `x <= 0` of a float with the constant zero. -/
def f32_le_zero (x : Nat) : Bool := !f32_isNaN x && (f32_sign x == 1 || f32_isZero x)

/-- The integer significand of a finite float: its magnitude is
`f32_sig x * 2 ^ (f32_qexp x)` with `f32_qexp x = f32_eexp x - 150`. -/
def f32_sig (x : Nat) : Nat := if f32_exp x = 0 then f32_frac x else 2 ^ 23 + f32_frac x

/-- The exponent field of a finite float, a subnormal counting as exponent field 1. -/
def f32_eexp (x : Nat) : Nat := if f32_exp x = 0 then 1 else f32_exp x

/-- The magnitude of a finite float rounded toward zero to a natural number. -/
def f32_truncMag (x : Nat) : Nat := f32_sig x * 2 ^ (f32_eexp x - 150) / 2 ^ (150 - f32_eexp x)

/-- The mathematical value of a float rounded toward zero, for a finite float. -/
def f32_trunc (x : Nat) : Int :=
  if f32_sign x = 1 then -(f32_truncMag x : Int) else (f32_truncMag x : Int)

/-- The conversion `(int)x` of a float. C++ defines it when the truncated value fits an
`int` (32 bits); otherwise (also for an infinity or a NaN) the behaviour is undefined
and the model returns `ovf x`, the value the platform happens to produce. -/
def f32_toInt (ovf : Nat → Int) (x : Nat) : Int :=
  if f32_exp x ≠ 255 ∧ -(2 ^ 31 : Int) ≤ f32_trunc x ∧ f32_trunc x < 2 ^ 31 then f32_trunc x
  else ovf x

/-- Whether C++ defines the conversion `(int)x`: the truncated value fits an `int`. -/
def f32_toInt_defined (x : Nat) : Bool :=
  decide (f32_exp x ≠ 255 ∧ -(2 ^ 31 : Int) ≤ f32_trunc x ∧ f32_trunc x < 2 ^ 31)

/-- The halving loop behind `floorLog2`; `fuel` bounds the number of halvings. -/
def floorLog2Aux : Nat → Nat → Nat
  | 0, _ => 0
  | fuel + 1, n => if 2 ≤ n then floorLog2Aux fuel (n / 2) + 1 else 0

/-- The position of the leading one bit of `n`, that is the integer part of its binary
logarithm (zero for `n = 0`). It is `Nat.log2`, written by structural recursion so that
it evaluates inside proofs. -/
def floorLog2 (n : Nat) : Nat := floorLog2Aux n n

/-- The positive rational `n / d` rounded to nearest, ties to even, to a multiple of
a quantum `2 ^ q`: the result is the pair `(m, q)` standing for `m * 2 ^ q`. The quantum
is the one of a format with `p` significand bits whose smallest quantum is `2 ^ qmin`. -/
def roundNearestEven (p : Nat) (qmin : Int) (n d : Nat) : Nat × Int :=
  let e0 : Int := (floorLog2 n : Int) - (floorLog2 d : Int)
  let e : Int := if d * 2 ^ e0.toNat ≤ n * 2 ^ (-e0).toNat then e0 else e0 - 1
  let q : Int := max (e - ((p : Int) - 1)) qmin
  let num := n * 2 ^ (-q).toNat
  let den := d * 2 ^ q.toNat
  let m := num / den
  let r := num % den
  if den < 2 * r ∨ (2 * r = den ∧ m % 2 = 1) then (m + 1, q) else (m, q)

/-- The bits of the float nearest to the positive rational `n / d` (an infinity when the
rounded value exceeds the largest finite float), with the given sign bit. -/
def f32_ofRat (sign n d : Nat) : Nat :=
  if n = 0 then sign * 2 ^ 31
  else
    let r := roundNearestEven 24 (-149) n d
    let bits := (r.2 + 149).toNat * 2 ^ 23 + r.1
    sign * 2 ^ 31 + (if bits ≥ 0x7F800000 then 0x7F800000 else bits)

/-- The quiet NaN that the model takes as the result of an invalid operation or of an
operation on a NaN. The sign and the payload of such a result depend on the platform and
are not modelled: no theorem of this file depends on the bits of a NaN result. -/
def f32_qNaN : Nat := 0x7FC00000

/-- Numerator and denominator of the magnitude of a finite float. -/
def f32_num (x : Nat) : Nat := f32_sig x * 2 ^ (f32_eexp x - 150)

def f32_den (x : Nat) : Nat := 2 ^ (150 - f32_eexp x)

/-- The float product `a * b`. -/
def f32_mul (a b : Nat) : Nat :=
  let s := (f32_sign a + f32_sign b) % 2
  if f32_isNaN a || f32_isNaN b then f32_qNaN
  else if f32_isInf a || f32_isInf b then
    if f32_isZero a || f32_isZero b then f32_qNaN else s * 2 ^ 31 + 0x7F800000
  else f32_ofRat s (f32_num a * f32_num b) (f32_den a * f32_den b)

/-- The float quotient `a / b`. -/
def f32_div (a b : Nat) : Nat :=
  let s := (f32_sign a + f32_sign b) % 2
  if f32_isNaN a || f32_isNaN b then f32_qNaN
  else if f32_isInf a then
    if f32_isInf b then f32_qNaN else s * 2 ^ 31 + 0x7F800000
  else if f32_isInf b then s * 2 ^ 31
  else if f32_isZero b then
    if f32_isZero a then f32_qNaN else s * 2 ^ 31 + 0x7F800000
  else f32_ofRat s (f32_num a * f32_den b) (f32_den a * f32_num b)

/-- The expression `x / 100.0` assigned to a `float`: `x` is widened to `double`, divided
by the double constant 100.0 (rounded to 53 significand bits; the quotient of a float by
100 is always in the normal range of a double) and the quotient is rounded to a float. -/
def f32_div100_via_double (x : Nat) : Nat :=
  if f32_isNaN x then f32_qNaN
  else if f32_isInf x then x
  else if f32_isZero x then x
  else
    let r := roundNearestEven 53 (-1074) (f32_num x) (f32_den x * 100)
    f32_ofRat (f32_sign x) (r.1 * 2 ^ r.2.toNat) (2 ^ (-r.2).toNat)

/-- The function `calculateBMI` of sensors.cpp. -/
def calculateBMI (weight height : Nat) : Nat :=
  let heightM := f32_div100_via_double height
  f32_div weight (f32_mul heightM heightM)

/-! ## Frame decoder -/

/-- The XOR of the cells `buf[from] .. buf[from + len - 1]`, as the checksum loops compute it. -/
def xorRange (buf : Nat → Nat) (start len : Nat) : Nat :=
  (List.range' start len).foldl (fun c i => c ^^^ buf i) 0

/-- The function `parseUARTPacket`: the outcome and the state it leaves. -/
def parseUARTPacket (st : State) : Bool × State :=
  if st.uartBuffer 0 ≠ 0xAA ∨ st.uartBuffer (sizeofSensorData + 2) ≠ 0x55 then (false, st)
  else
    let checksum := xorRange st.uartBuffer 1 sizeofSensorData
    if checksum ≠ st.uartBuffer (sizeofSensorData + 1) then (false, st)
    else
      (true, { st with sensorData := (List.range' 1 sizeofSensorData).map st.uartBuffer })

/-- The body of the `while` loop of `processUART` for one received byte: its stores to
the global variables; `now` is what `millis()` returns. The call of `updateLiveLabel` on
an accepted stream frame writes no global variable but is not defined for every value:
`processByteUB` is this body with that call. -/
def processByte (now : Nat) (st : State) (byte : Nat) : State :=
  if byte = 0xAA then
    { st with
      receivingPacket := true
      uartBuffer := store st.uartBuffer 0 byte
      bufferIndex := 1 }
  else if st.receivingPacket then
    let st1 : State :=
      { st with
        uartBuffer := store st.uartBuffer st.bufferIndex byte
        bufferIndex := (st.bufferIndex + 1) % 256 }
    if st1.bufferIndex ≥ sizeofSensorData + 3 then
      let st2 : State := { st1 with receivingPacket := false }
      let r := parseUARTPacket st2
      if r.1 then
        let st3 := r.2
        let d := st3.sensorData
        { st3 with
          dataReceived := true
          lastDataTime := now
          packetCount := (st3.packetCount + 1) % 2 ^ 32
          healthData :=
            { st3.healthData with
              height := SensorData_height_cm d
              temperature := SensorData_temperature_c d
              heart_rate := (SensorData_heart_rate d : Int)
              weight := SensorData_weight_kg d
              bmi := SensorData_bmi d
              height_measured := decide (SensorData_sensor_status d &&& 0x01 ≠ 0)
              temp_measured := decide (SensorData_sensor_status d &&& 0x02 ≠ 0)
              hr_measured := decide (SensorData_sensor_status d &&& 0x04 ≠ 0)
              weight_measured := decide (SensorData_sensor_status d &&& 0x08 ≠ 0) } }
      else r.2
    else st1
  else if byte = 0xCC then
    { st with
      receivingStream := true
      streamBuffer := store st.streamBuffer 0 byte
      streamIndex := 1 }
  else if st.receivingStream then
    let st1 : State :=
      { st with
        streamBuffer := store st.streamBuffer st.streamIndex byte
        streamIndex := (st.streamIndex + 1) % 256 }
    if st1.streamIndex ≥ 12 then
      let st2 : State := { st1 with receivingStream := false }
      let checksum := xorRange st2.streamBuffer 1 9
      if checksum = st2.streamBuffer 10 ∧ st2.streamBuffer 11 = 0x55 then
        let sensorType := st2.streamBuffer 1
        let val := le32 (st2.streamBuffer 2) (st2.streamBuffer 3)
                        (st2.streamBuffer 4) (st2.streamBuffer 5)
        { st2 with
          latestStreamValue := val
          currentStreamSensor := (sensorType : Int) }
      else st2
    else st1
  else st

/-- The function `processUART`, run on the bytes that the serial port has available. -/
def processUART (now : Nat) (st : State) (bytes : List Nat) : State :=
  bytes.foldl (processByte now) st

/-! ## Command encoder -/

/-- The function `sendMeasureCommand`: one byte `CMD_MEASURE`. -/
def sendMeasureCommand (st : State) : State :=
  { st with tx := st.tx ++ [0x01] }

/-- The function `sendStartStreamCommand`: `CMD_START_STREAM` and `(uint8_t)sensorType`. -/
def sendStartStreamCommand (sensorType : Int) (st : State) : State :=
  { st with tx := st.tx ++ [0x05, (sensorType % 256).toNat] }

/-- The function `sendStopStreamCommand`: one byte `CMD_STOP_STREAM`. -/
def sendStopStreamCommand (st : State) : State :=
  { st with tx := st.tx ++ [0x06] }

/-! ## Measurement sessions

`create_sensor_scr` builds one screen per sensor type (1 height, 2 weight,
3 temperature, 4 pulse) and gives its two buttons the callbacks below; the flag of the
session is `measurements_done[sensorType]` (`sensorType` is an `int`; the four screens
are built with 1, 2, 3 and 4, so the index is a natural number). -/

/-- The callback of the START button (`begin()` in the specification). When the session
is already measured it only moves to the next screen. -/
def startButtonClicked (sensorType : Int) (st : State) : State :=
  if st.measurements_done sensorType.toNat then st
  else sendStartStreamCommand sensorType st

/-- The value that the CAPTURE callback stores: `latestStreamValue`, or zero when that
is not above zero. -/
def capturedValue (st : State) : Nat :=
  if f32_le_zero st.latestStreamValue then 0 else st.latestStreamValue

/-- The callback of the CAPTURE button (`capture()` in the specification): its stores
to the global variables; `ovf` is the result of an out-of-range conversion
`(int)captured`, see `f32_toInt`. The code that renders a captured value above zero on
the result label writes no global variable but is not defined for every value:
`captureButtonClickedUB` is this callback with that code. -/
def captureButtonClicked (ovf : Nat → Int) (sensorType : Int) (st : State) : State :=
  let st1 := sendStopStreamCommand st
  let captured := capturedValue st1
  let hd := st1.healthData
  let hd1 : HealthData :=
    if sensorType = 1 then { hd with height := captured, height_measured := true }
    else if sensorType = 2 then
      let hw : HealthData := { hd with weight := captured, weight_measured := true }
      if f32_gt_zero hw.height then { hw with bmi := calculateBMI hw.weight hw.height }
      else hw
    else if sensorType = 3 then { hd with temperature := captured, temp_measured := true }
    else if sensorType = 4 then
      { hd with heart_rate := f32_toInt ovf captured, hr_measured := true }
    else hd
  { st1 with
    healthData := hd1
    measurements_done := store st1.measurements_done sensorType.toNat true }

/-! ## Health record -/

/-- The method `HealthData::resetMeasurements` of sensors.h. -/
def resetMeasurements (hd : HealthData) : HealthData :=
  { hd with
    height := 0
    weight := 0
    temperature := 0
    heart_rate := 0
    bp_sys := 0
    bp_dia := 0
    bmi := 0
    height_measured := false
    weight_measured := false
    temp_measured := false
    hr_measured := false
    bp_measured := false }

/-- The method `HealthData::toCSV` of sensors.h. The conversions `String(float)` and
`String(int)` belong to the Arduino core, which is not part of the repository: they
are the parameters `fmtF` (from the bits of the float) and `fmtI`. -/
def toCSV (fmtF : Nat → String) (fmtI : Int → String) (hd : HealthData) : String :=
  hd.timestamp ++ "," ++
  hd.name ++ "," ++
  hd.age ++ "," ++
  hd.gender ++ "," ++
  hd.address ++ "," ++
  fmtF hd.weight ++ "," ++
  fmtF hd.height ++ "," ++
  fmtF hd.temperature ++ "," ++
  fmtF hd.bmi ++ "," ++
  fmtI hd.heart_rate ++ "," ++
  fmtI hd.bp_sys ++ "," ++
  fmtI hd.bp_dia

/-! ## Patient information screen -/

/-- The options of the gender drop-down of `create_info_screen`. -/
def genderOptions : List String := ["Male", "Female", "Other", "Prefer not to say"]

/-- The callback of the NEXT button of `create_info_screen`. `name`, `age` and `address`
are the texts of the three text areas, `selected` is the selected option of the gender
drop-down, which `lv_dropdown_get_selected_str` copies into a buffer of 20 bytes (at
most 19 characters and the terminator). -/
def infoNextClicked (name age selected address : String) (st : State) : State :=
  let hd : HealthData :=
    { st.healthData with
      name := name
      age := age
      gender := String.mk (selected.data.take 19)
      address := address }
  { st with
    healthData := resetMeasurements hd
    measurements_done := fun i => if i < 5 then false else st.measurements_done i }

/-! ## Data view

`create_data_view_screen` cuts each line of the data file into the array
`String fields[12]` with the loop modelled below. Strings are lists of characters;
positions count characters. -/

/-- The call `line.substring(start, stop)`. -/
def substring (line : List Char) (start stop : Nat) : List Char :=
  (line.drop start).take (stop - start)

/-- The `for` loop over the characters of `line`, entered at position `i` with the
characters `rest` still to read: on a comma the field from `start` is stored and, once
11 fields are stored, the loop is left. The result is `start`, `fieldIdx` and `fields`
at the exit of the loop. -/
def fieldLoop (line : List Char) :
    List Char → Nat → Nat → Nat → (Nat → List Char) → Nat × Nat × (Nat → List Char)
  | [], _, start, fieldIdx, fields => (start, fieldIdx, fields)
  | c :: rest, i, start, fieldIdx, fields =>
    if c = ',' then
      let fields1 := store fields fieldIdx (substring line start i)
      if fieldIdx + 1 ≥ 11 then (i + 1, fieldIdx + 1, fields1)
      else fieldLoop line rest (i + 1) (i + 1) (fieldIdx + 1) fields1
    else fieldLoop line rest (i + 1) start fieldIdx fields

/-- The twelve fields that the data view shows for a line: the loop, then
`fields[fieldIdx] = line.substring(start)`; the array starts out with empty strings. -/
def splitFields (line : List Char) : Nat → List Char :=
  let r := fieldLoop line line 0 0 0 (fun _ => [])
  store r.2.2 r.2.1 (line.drop r.1)

/-- The `for` loop of `create_data_view_screen` over the characters of `data`, entered
at position `i` with the characters `rest` still to read: on a line feed the line from
`startIdx` is stored in `lines[lineCount++]` and, once 49 lines are stored, the loop is
left. The result is `startIdx`, `lineCount` and `lines` at the exit of the loop. -/
def lineLoop (data : List Char) :
    List Char → Nat → Nat → Nat → (Nat → List Char) → Nat × Nat × (Nat → List Char)
  | [], _, startIdx, lineCount, lines => (startIdx, lineCount, lines)
  | c :: rest, i, startIdx, lineCount, lines =>
    if c = '\n' then
      let lines1 := store lines lineCount (substring data startIdx i)
      if lineCount + 1 ≥ 49 then (i + 1, lineCount + 1, lines1)
      else lineLoop data rest (i + 1) (i + 1) (lineCount + 1) lines1
    else lineLoop data rest (i + 1) startIdx lineCount lines

/-- The fields that `create_data_view_screen` shows in the table row `row` for the text
`data` returned by `readHealthData`: the lines are cut into `String lines[50]`, and the
loop `for (row = 1; row < lineCount && row < 8; row++)` splits `lines[row]` into
`fields`. The result is `none` when the loop does not reach `row`. -/
def dataViewRow (data : List Char) (row : Nat) : Option (Nat → List Char) :=
  if 1 ≤ row ∧ row < (lineLoop data data 0 0 0 (fun _ => [])).2.1 ∧ row < 8 then
    some (splitFields ((lineLoop data data 0 0 0 (fun _ => [])).2.2 row))
  else none

/-! ## Blood-pressure screen -/

/-- The callback of the SAVE button of `create_bp_screen`. `sys_str` and `dia_str` are
the texts of the two text areas; `toInt` is the method `String::toInt` of the Arduino
core, which is not part of the repository. -/
def bpSaveClicked (toInt : String → Int) (sys_str dia_str : String) (st : State) : State :=
  { st with
    healthData :=
      { st.healthData with
        bp_sys := toInt sys_str
        bp_dia := toInt dia_str
        bp_measured := true }
    measurements_done := store st.measurements_done 0 true }

/-! ## Storage

The data file on the SD card is `none` when it does not exist, else its characters;
`canOpen` tells whether `SD.open` returns a valid file. -/

/-- What `file.println(data)` writes: the text, a carriage return and a line feed. -/
def println (data : List Char) : List Char := data ++ ['\r', '\n']

/-- The function `saveHealthData` of storage.cpp: the outcome and the data file it
leaves. Opening with `FILE_APPEND` creates a file that does not exist. -/
def saveHealthData (canOpen : Bool) (file : Option (List Char)) (data : List Char) :
    Bool × Option (List Char) :=
  if !canOpen then (false, file)
  else (true, some (file.getD [] ++ println data))

/-- The call `file.readStringUntil(terminator)` on the unread characters of a file: the
characters read, without the terminator, and the characters left unread. -/
def readStringUntil (terminator : Char) : List Char → List Char × List Char
  | [] => ([], [])
  | c :: rest =>
    if c = terminator then ([], rest)
    else ((c :: (readStringUntil terminator rest).1), (readStringUntil terminator rest).2)

/-- The `while` loop of `readHealthData`, `file.available() && lineCount < 50`; the
first argument is the number of iterations that `lineCount` still allows,
`50 - lineCount`. -/
def readLoop : Nat → List Char → List Char → List Char
  | 0, _, content => content
  | allowed + 1, unread, content =>
    if unread = [] then content
    else
      readLoop allowed (readStringUntil '\n' unread).2
        (content ++ ((readStringUntil '\n' unread).1 ++ ['\n']))

/-- The function `readHealthData` of storage.cpp. -/
def readHealthData (canOpen : Bool) (file : Option (List Char)) : List Char :=
  match file with
  | none => "No health data file found".data
  | some c =>
    if !canOpen then "Error: Could not open file".data
    else readLoop 50 c []

/-! ## Text rendering of floats

`dtostrf(x, width, 1, buf)` belongs to the Arduino core, which is not part of the
repository. It writes "nan" for a NaN and "inf" for an infinity; a finite value is
rounded at the first decimal and written as a minus sign when it is negative, its
integer digits, the point and one decimal, padded with blanks on the left to `width`
characters, and ended with a zero byte. The source always passes a `char buf[32]`. -/

/-- The loop behind `decimalDigits`; `fuel` bounds the number of divisions by ten. -/
def decimalDigitsAux : Nat → Nat → Nat
  | 0, _ => 1
  | fuel + 1, n => if n < 10 then 1 else decimalDigitsAux fuel (n / 10) + 1

/-- The number of decimal digits of `n` (one digit for zero). -/
def decimalDigits (n : Nat) : Nat := decimalDigitsAux n n

/-- The number of bytes that `dtostrf(x, width, 1, buf)` writes into `buf`, the
terminating zero byte included. -/
def dtostrf_size (x width : Nat) : Nat :=
  if f32_isNaN x || f32_isInf x then 4
  else
    let minus : Nat := if f32_sign x = 1 ∧ f32_isZero x = false then 1 else 0
    let rounded := (20 * f32_num x + f32_den x) / (20 * f32_den x)
    max width (minus + decimalDigits rounded + 2) + 1

/-- Whether what `dtostrf(x, width, 1, buf)` writes stays inside `char buf[32]`. -/
def dtostrf_fits (x width : Nat) : Bool := decide (dtostrf_size x width ≤ 32)

/-! ## Body-mass-index categories -/

/-- The function `updateLiveLabel(sensorType, value)` of main.cpp, which writes no
global variable: whether the call is defined. For the sensor types 1, 2 and 3 it
renders the value with `dtostrf(value, 5, 1, buf)`; for the type 4 it shows
`(int)value`, a conversion that C++ defines only for a value that fits an `int`; for
every other type there is no label and it does nothing. -/
def updateLiveLabel_defined (sensorType value : Nat) : Bool :=
  if sensorType = 1 ∨ sensorType = 2 ∨ sensorType = 3 then dtostrf_fits value 5
  else if sensorType = 4 then f32_toInt_defined value
  else true

/-- The body of the `while` loop of `processUART` for one received byte, with the call
of `updateLiveLabel` on an accepted stream frame. -/
def processByteUB (now : Nat) (st : State) (byte : Nat) : Option State :=
  if byte = 0xAA then
    some
      { st with
        receivingPacket := true
        uartBuffer := store st.uartBuffer 0 byte
        bufferIndex := 1 }
  else if st.receivingPacket then
    let st1 : State :=
      { st with
        uartBuffer := store st.uartBuffer st.bufferIndex byte
        bufferIndex := (st.bufferIndex + 1) % 256 }
    if st1.bufferIndex ≥ sizeofSensorData + 3 then
      let st2 : State := { st1 with receivingPacket := false }
      let r := parseUARTPacket st2
      if r.1 then
        let st3 := r.2
        let d := st3.sensorData
        some
          { st3 with
            dataReceived := true
            lastDataTime := now
            packetCount := (st3.packetCount + 1) % 2 ^ 32
            healthData :=
              { st3.healthData with
                height := SensorData_height_cm d
                temperature := SensorData_temperature_c d
                heart_rate := (SensorData_heart_rate d : Int)
                weight := SensorData_weight_kg d
                bmi := SensorData_bmi d
                height_measured := decide (SensorData_sensor_status d &&& 0x01 ≠ 0)
                temp_measured := decide (SensorData_sensor_status d &&& 0x02 ≠ 0)
                hr_measured := decide (SensorData_sensor_status d &&& 0x04 ≠ 0)
                weight_measured := decide (SensorData_sensor_status d &&& 0x08 ≠ 0) } }
      else some r.2
    else some st1
  else if byte = 0xCC then
    some
      { st with
        receivingStream := true
        streamBuffer := store st.streamBuffer 0 byte
        streamIndex := 1 }
  else if st.receivingStream then
    let st1 : State :=
      { st with
        streamBuffer := store st.streamBuffer st.streamIndex byte
        streamIndex := (st.streamIndex + 1) % 256 }
    if st1.streamIndex ≥ 12 then
      let st2 : State := { st1 with receivingStream := false }
      let checksum := xorRange st2.streamBuffer 1 9
      if checksum = st2.streamBuffer 10 ∧ st2.streamBuffer 11 = 0x55 then
        let sensorType := st2.streamBuffer 1
        let val := le32 (st2.streamBuffer 2) (st2.streamBuffer 3)
                        (st2.streamBuffer 4) (st2.streamBuffer 5)
        if updateLiveLabel_defined sensorType val then
          some
            { st2 with
              latestStreamValue := val
              currentStreamSensor := (sensorType : Int) }
        else none
      else some st2
    else some st1
  else some st

/-- The function `processUART` with the label code, run on the bytes that the serial
port has available: `none` as soon as one byte has an undefined effect. -/
def processUARTUB (now : Nat) : State → List Nat → Option State
  | st, [] => some st
  | st, b :: l => (processByteUB now st b).bind (fun st1 => processUARTUB now st1 l)

/-- The callback of the CAPTURE button with its label code. The pulse session stores
`(int)captured`, which C++ defines only for a value that fits an `int`; after the stores
of the record, a captured value above zero is rendered on the result label, with
`dtostrf(captured, 5, 1, buf)` unless the sensor type is 4; only then is the flag of
the session set. -/
def captureButtonClickedUB (sensorType : Int) (st : State) : Option State :=
  let st1 := sendStopStreamCommand st
  let captured := capturedValue st1
  let hd := st1.healthData
  let hd1 : HealthData :=
    if sensorType = 1 then { hd with height := captured, height_measured := true }
    else if sensorType = 2 then
      let hw : HealthData := { hd with weight := captured, weight_measured := true }
      if f32_gt_zero hw.height then { hw with bmi := calculateBMI hw.weight hw.height }
      else hw
    else if sensorType = 3 then { hd with temperature := captured, temp_measured := true }
    else if sensorType = 4 then
      { hd with heart_rate := f32_trunc captured, hr_measured := true }
    else hd
  if sensorType = 4 ∧ f32_toInt_defined captured = false then none
  else if f32_gt_zero captured = true ∧ sensorType ≠ 4 ∧ dtostrf_fits captured 5 = false then
    none
  else
    some
      { st1 with
        healthData := hd1
        measurements_done := store st1.measurements_done sensorType.toNat true }

/-! ## Initial state -/

/-- The record `healthData` at start-up: a global, hence zero-initialised. -/
def initHealthData : HealthData :=
  { timestamp := "", name := "", age := "", gender := "", address := "",
    weight := 0, height := 0, temperature := 0, bmi := 0,
    heart_rate := 0, bp_sys := 0, bp_dia := 0,
    height_measured := false, weight_measured := false, temp_measured := false,
    hr_measured := false, bp_measured := false }

/-- The globals as main.cpp initialises them. -/
def initState : State :=
  { sensorData := List.replicate sizeofSensorData 0
    dataReceived := false
    lastDataTime := 0
    packetCount := 0
    uartBuffer := fun _ => 0
    bufferIndex := 0
    receivingPacket := false
    healthData := initHealthData
    measurements_done := fun _ => false
    receivingStream := false
    streamBuffer := fun _ => 0
    streamIndex := 0
    latestStreamValue := 0
    currentStreamSensor := 0
    tx := [] }

/-! ## Frames and reference states

Wire frames as byte lists, and the states that the theorems compare the decoder with. -/

/-- The XOR of a list of bytes. -/
def xorBytes (l : List Nat) : Nat := l.foldl (fun c b => c ^^^ b) 0

/-- The 34-byte full-packet frame around a payload. -/
def fullFrame (payload : List Nat) : List Nat :=
  0xAA :: (payload ++ [xorBytes payload, 0x55])

/-- The cells `a[i], a[i+1], ...` overwritten with the bytes of a list, one store each. -/
def storeList (a : Nat → Nat) (i : Nat) : List Nat → Nat → Nat
  | [] => a
  | b :: l => storeList (store a i b) (i + 1) l

/-- The state that `processUART` leaves when the 34th byte completes a packet that
`parseUARTPacket` accepts; `buf` is `uartBuffer` with that byte stored. -/
def acceptedState (now : Nat) (st : State) (buf : Nat → Nat) : State :=
  let d := (List.range' 1 sizeofSensorData).map buf
  { st with
    uartBuffer := buf
    bufferIndex := 34
    receivingPacket := false
    sensorData := d
    dataReceived := true
    lastDataTime := now
    packetCount := (st.packetCount + 1) % 2 ^ 32
    healthData :=
      { st.healthData with
        height := SensorData_height_cm d
        temperature := SensorData_temperature_c d
        heart_rate := (SensorData_heart_rate d : Int)
        weight := SensorData_weight_kg d
        bmi := SensorData_bmi d
        height_measured := decide (SensorData_sensor_status d &&& 0x01 ≠ 0)
        temp_measured := decide (SensorData_sensor_status d &&& 0x02 ≠ 0)
        hr_measured := decide (SensorData_sensor_status d &&& 0x04 ≠ 0)
        weight_measured := decide (SensorData_sensor_status d &&& 0x08 ≠ 0) } }

/-- The state that `processUART` leaves when the 34th byte completes a packet that
`parseUARTPacket` rejects. -/
def rejectedState (st : State) (buf : Nat → Nat) : State :=
  { st with
    uartBuffer := buf
    bufferIndex := 34
    receivingPacket := false }

/-- The least number of further bytes after which the decoder can complete a frame. -/
def bytesToEvent (st : State) : Nat :=
  if st.receivingPacket then 34 - st.bufferIndex
  else if st.receivingStream then 12 - st.streamIndex
  else 12

/-- No frame was completed between two states: whatever a FullPacket or a StreamSample
event writes is the same in both. -/
def NoEvent (a b : State) : Prop :=
  b.sensorData = a.sensorData ∧ b.dataReceived = a.dataReceived ∧
  b.lastDataTime = a.lastDataTime ∧ b.packetCount = a.packetCount ∧
  b.healthData = a.healthData ∧ b.latestStreamValue = a.latestStreamValue ∧
  b.currentStreamSensor = a.currentStreamSensor ∧
  b.measurements_done = a.measurements_done ∧ b.tx = a.tx

/-- The content of `uartBuffer` after a start byte and the 33 bytes `p ++ [c, e]`. -/
def frameBuf (st : State) (p : List Nat) (c e : Nat) : Nat → Nat :=
  storeList (store st.uartBuffer 0 0xAA) 1 (p ++ [c, e])

/-- The content of `streamBuffer` after a start byte 0xCC and the bytes of `l`. -/
def streamBuf (st : State) (l : List Nat) : Nat → Nat :=
  storeList (store st.streamBuffer 0 0xCC) 1 l

/-- The state that `processUART` leaves when the 12th byte completes a stream frame
that passes validation; `buf` is `streamBuffer` with that byte stored. -/
def sampleState (st : State) (buf : Nat → Nat) : State :=
  { st with
    streamBuffer := buf
    streamIndex := 12
    receivingStream := false
    latestStreamValue := le32 (buf 2) (buf 3) (buf 4) (buf 5)
    currentStreamSensor := (buf 1 : Int) }

/-- The state that `processUART` leaves when the 12th byte completes a stream frame
that fails validation. -/
def discardedState (st : State) (buf : Nat → Nat) : State :=
  { st with
    streamBuffer := buf
    streamIndex := 12
    receivingStream := false }

/-- The 12-byte stream frame for a sensor type, four value bytes and four reserved bytes. -/
def streamFrame (t v0 v1 v2 v3 r0 r1 r2 r3 : Nat) : List Nat :=
  [0xCC, t, v0, v1, v2, v3, r0, r1, r2, r3,
    xorBytes [t, v0, v1, v2, v3, r0, r1, r2, r3], 0x55]

/-- The 12-byte stream frame around the nine checksummed bytes `body` (sensor type,
four value bytes, four reserved bytes). -/
def streamFrameOf (body : List Nat) : List Nat :=
  0xCC :: (body ++ [xorBytes body, 0x55])

/-- The float value carried by the nine checksummed bytes of a stream frame. -/
def sampleValue (body : List Nat) : Nat :=
  le32 (body.getD 1 0) (body.getD 2 0) (body.getD 3 0) (body.getD 4 0)

/-- The bytes of a sequence of stream frames sent back to back, each frame given by its
nine checksummed bytes. -/
def framesBytes : List (List Nat) → List Nat
  | [] => []
  | body :: rest => streamFrameOf body ++ framesBytes rest

/-- A string split at its commas (a string with n commas gives n + 1 fields). -/
def splitComma : List Char → List (List Char)
  | [] => [[]]
  | c :: cs =>
    if c = ',' then [] :: splitComma cs
    else
      match splitComma cs with
      | [] => [[c]]
      | f :: fs => (c :: f) :: fs

/-- A record whose name holds a comma. -/
def recordWithComma : HealthData :=
  { initHealthData with name := "Doe, John" }

/-- Fields joined with commas, as `toCSV` joins its twelve fields. -/
def joinComma : List (List Char) → List Char
  | [] => []
  | [f] => f
  | f :: g :: fs => f ++ ',' :: joinComma (g :: fs)

/-- The twelve fields of the row of a record, in the order of `toCSV`. -/
def csvFields (fmtF : Nat → String) (fmtI : Int → String) (hd : HealthData) :
    List (List Char) :=
  [hd.timestamp.data, hd.name.data, hd.age.data, hd.gender.data, hd.address.data,
    (fmtF hd.weight).data, (fmtF hd.height).data, (fmtF hd.temperature).data,
    (fmtF hd.bmi).data, (fmtI hd.heart_rate).data, (fmtI hd.bp_sys).data,
    (fmtI hd.bp_dia).data]

/-- The cells `a[i], a[i+1], ...` overwritten with the elements of a list. -/
def storeSeq {α : Type} (a : Nat → α) (i : Nat) : List α → Nat → α
  | [] => a
  | b :: l => storeSeq (store a i b) (i + 1) l

/-- A record without a comma in its strings. -/
def recordAnn : HealthData :=
  { initHealthData with
    timestamp := "2024-05-01 10:30:00"
    name := "Ann Lee"
    age := "41"
    gender := "Female"
    address := "12 Main St" }

/-- Stand-ins for `String(float)` and `String(int)`, used where a theorem on `toCSV` is
applied to an example: every float is rendered as 0.00 and every integer as 0. -/
def fmtFloatStub : Nat → String := fun _ => "0.00"

def fmtIntStub : Int → String := fun _ => "0"

/-- Lines put one after the other, each followed by a line feed. -/
def joinLines : List (List Char) → List Char
  | [] => []
  | l :: ls => l ++ '\n' :: joinLines ls

/-- The header line that `initSDCard` writes into a new data file. -/
def headerLine : List Char :=
  ("Timestamp,Name,Age,Gender,Address,Weight(kg),Height(cm),Temperature(C),BMI," ++
    "HeartRate(BPM),BP_Sys,BP_Dia").data

/-- The data file after the header and the given rows were written with `println`. -/
def fileWithRows (header : List Char) (rows : List (List Char)) : Option (List Char) :=
  rows.foldl (fun f row => (saveHealthData true f row).2) (some (println header))

/-- A platform on which every out-of-range conversion `(int)x` gives zero. -/
def ovfZero : Nat → Int := fun _ => 0

/-- A payload whose heart-rate field is 170 BPM (low byte 0xAA at offset 16), all other
bytes zero. -/
def payloadHeartRate170 : List Nat :=
  List.replicate 16 0 ++ [0xAA] ++ List.replicate 14 0

/-! ## Lemmas on buffers and checksums -/

theorem store_same {α : Type} (a : Nat → α) (i : Nat) (v : α) : store a i v i = v := by
  simp [store]

theorem store_other {α : Type} (a : Nat → α) (i j : Nat) (v : α) (h : j ≠ i) :
    store a i v j = a j := by
  simp [store, h]

theorem storeList_below (l : List Nat) (a : Nat → Nat) (i j : Nat) (h : j < i) :
    storeList a i l j = a j := by
  induction l generalizing a i with
  | nil => rfl
  | cons b l ih =>
    rw [storeList, ih _ _ (by omega), store_other _ _ _ _ (by omega)]

theorem storeList_above (l : List Nat) (a : Nat → Nat) (i j : Nat) (h : i + l.length ≤ j) :
    storeList a i l j = a j := by
  induction l generalizing a i with
  | nil => rfl
  | cons b l ih =>
    simp only [List.length_cons] at h
    rw [storeList, ih _ _ (by omega), store_other _ _ _ _ (by omega)]

theorem storeList_map_range (l : List Nat) (a : Nat → Nat) (i : Nat) :
    (List.range' i l.length).map (storeList a i l) = l := by
  induction l generalizing a i with
  | nil => rfl
  | cons b l ih =>
    simp only [List.length_cons, List.range'_succ, List.map_cons, storeList]
    rw [ih, storeList_below _ _ _ _ (by omega), store_same]

theorem storeList_append (l m : List Nat) (a : Nat → Nat) (i : Nat) :
    storeList a i (l ++ m) = storeList (storeList a i l) (i + l.length) m := by
  induction l generalizing a i with
  | nil => rfl
  | cons b l ih =>
    rw [List.cons_append, storeList, storeList, ih, List.length_cons,
      show i + (l.length + 1) = i + 1 + l.length by omega]

theorem storeList_get (l : List Nat) (a : Nat → Nat) (i k : Nat) (h : k < l.length) :
    storeList a i l (i + k) = l.getD k 0 := by
  induction l generalizing a i k with
  | nil => simp at h
  | cons b l ih =>
    cases k with
    | zero =>
      rw [storeList, storeList_below _ _ _ _ (by omega)]
      simp [store]
    | succ k =>
      simp only [List.length_cons] at h
      rw [storeList, show i + (k + 1) = i + 1 + k by omega, ih _ _ _ (by omega)]
      simp

theorem storeList_map_range_head (l m : List Nat) (a : Nat → Nat) (i : Nat) :
    (List.range' i l.length).map (storeList a i (l ++ m)) = l := by
  rw [storeList_append]
  have h : ∀ j ∈ List.range' i l.length,
      storeList (storeList a i l) (i + l.length) m j = storeList a i l j := by
    intro j hj
    simp only [List.mem_range'_1] at hj
    exact storeList_below _ _ _ _ hj.2
  rw [List.map_congr_left h, storeList_map_range]

theorem xorRange_eq (buf : Nat → Nat) (start len : Nat) :
    xorRange buf start len = xorBytes ((List.range' start len).map buf) := by
  simp [xorRange, xorBytes, List.foldl_map]

theorem foldl_xor (l : List Nat) (c : Nat) :
    l.foldl (fun c b => c ^^^ b) c = c ^^^ xorBytes l := by
  induction l generalizing c with
  | nil => simp [xorBytes]
  | cons b l ih =>
    rw [xorBytes, List.foldl_cons, List.foldl_cons, ih, ih (0 ^^^ b), Nat.zero_xor,
      Nat.xor_assoc]

theorem xorBytes_split (a b : List Nat) (x : Nat) :
    xorBytes (a ++ x :: b) = xorBytes a ^^^ (x ^^^ xorBytes b) := by
  rw [xorBytes, List.foldl_append, List.foldl_cons, foldl_xor, foldl_xor, Nat.zero_xor,
    Nat.xor_assoc]

/-- Replacing one byte of a list by a different byte changes the XOR of the list. -/
theorem xorBytes_set_ne (p : List Nat) (i y : Nat) (hi : i < p.length) (hy : y ≠ p.getD i 0) :
    xorBytes (p.set i y) ≠ xorBytes p := by
  have hp : p = p.take i ++ p[i] :: p.drop (i + 1) := by
    rw [List.getElem_cons_drop, List.take_append_drop]
  have hget : p.getD i 0 = p[i] := by
    rw [List.getD_eq_getElem?_getD, List.getElem?_eq_getElem hi]
    rfl
  rw [List.set_eq_take_append_cons_drop, if_pos hi]
  intro h
  rw [xorBytes_split] at h
  conv at h => rhs; rw [hp, xorBytes_split]
  have h1 := Nat.xor_right_injective h
  have h2 := Nat.xor_left_injective h1
  exact hy (h2.trans hget.symm)

/-! ## Lemmas on the decoder -/

theorem processUART_nil (now : Nat) (st : State) : processUART now st [] = st := rfl

theorem processUART_cons (now : Nat) (st : State) (b : Nat) (l : List Nat) :
    processUART now st (b :: l) = processUART now (processByte now st b) l := rfl

theorem processUART_append (now : Nat) (st : State) (l m : List Nat) :
    processUART now st (l ++ m) = processUART now (processUART now st l) m := by
  simp [processUART, List.foldl_append]

/-- The start byte 0xAA restarts full-packet capture, in every state. -/
theorem processByte_start (now : Nat) (st : State) :
    processByte now st 0xAA =
      { st with
        receivingPacket := true
        uartBuffer := store st.uartBuffer 0 0xAA
        bufferIndex := 1 } := by
  simp [processByte]

/-- The start byte 0xCC starts stream capture when no full packet is being captured. -/
theorem processByte_stream_start (now : Nat) (st : State) (hrp : st.receivingPacket = false) :
    processByte now st 0xCC =
      { st with
        receivingStream := true
        streamBuffer := store st.streamBuffer 0 0xCC
        streamIndex := 1 } := by
  simp [processByte, hrp]

/-- A byte other than 0xAA that does not complete the packet is stored. -/
theorem processByte_packet_store (now : Nat) (st : State) (b : Nat) (hb : b ≠ 0xAA)
    (hrp : st.receivingPacket = true) (h : st.bufferIndex + 1 ≤ 33) :
    processByte now st b =
      { st with
        uartBuffer := store st.uartBuffer st.bufferIndex b
        bufferIndex := st.bufferIndex + 1 } := by
  have h1 : (st.bufferIndex + 1) % 256 = st.bufferIndex + 1 := Nat.mod_eq_of_lt (by omega)
  have h2 : ¬ (34 ≤ st.bufferIndex + 1) := by omega
  simp [processByte, hb, hrp, h1, h2, sizeofSensorData]

/-- Bytes other than 0xAA that do not complete the packet are stored one after the other. -/
theorem processUART_packet_store (now : Nat) (l : List Nat) (st : State)
    (hrp : st.receivingPacket = true) (hl : ∀ b ∈ l, b ≠ 0xAA)
    (hlen : st.bufferIndex + l.length ≤ 33) :
    processUART now st l =
      { st with
        uartBuffer := storeList st.uartBuffer st.bufferIndex l
        bufferIndex := st.bufferIndex + l.length } := by
  induction l generalizing st with
  | nil => rfl
  | cons b l ih =>
    simp only [List.length_cons] at hlen
    rw [processUART_cons, processByte_packet_store now st b (hl b (by simp)) hrp (by omega),
      ih _ (by exact hrp) (fun x hx => hl x (by simp [hx])) (by simp only; omega)]
    simp only [storeList, List.length_cons]
    congr 1
    omega

/-- The 34th byte of a capture runs the validation of `parseUARTPacket`. -/
theorem processByte_packet_complete (now : Nat) (st : State) (b : Nat) (hb : b ≠ 0xAA)
    (hrp : st.receivingPacket = true) (h : st.bufferIndex = 33) :
    processByte now st b =
      if store st.uartBuffer 33 b 0 = 0xAA ∧ store st.uartBuffer 33 b 33 = 0x55 ∧
          xorRange (store st.uartBuffer 33 b) 1 31 = store st.uartBuffer 33 b 32 then
        acceptedState now st (store st.uartBuffer 33 b)
      else rejectedState st (store st.uartBuffer 33 b) := by
  by_cases h0 : store st.uartBuffer 33 b 0 = 0xAA
  · by_cases h33 : store st.uartBuffer 33 b 33 = 0x55
    · by_cases hx : xorRange (store st.uartBuffer 33 b) 1 31 = store st.uartBuffer 33 b 32
      · simp [processByte, parseUARTPacket, hb, hrp, h, sizeofSensorData, h0, h33, hx,
          acceptedState]
      · simp [processByte, parseUARTPacket, hb, hrp, h, sizeofSensorData, h0, h33, hx,
          rejectedState]
    · simp [processByte, parseUARTPacket, hb, hrp, h, sizeofSensorData, h0, h33,
        rejectedState]
  · simp [processByte, parseUARTPacket, hb, hrp, h, sizeofSensorData, h0, rejectedState]

theorem frameBuf_payload (st : State) (p : List Nat) (c e : Nat) (hp : p.length = 31) :
    (List.range' 1 sizeofSensorData).map (frameBuf st p c e) = p := by
  have h := storeList_map_range_head p [c, e] (store st.uartBuffer 0 0xAA) 1
  rw [hp] at h
  exact h

theorem frameBuf_zero (st : State) (p : List Nat) (c e : Nat) : frameBuf st p c e 0 = 0xAA := by
  rw [frameBuf, storeList_below _ _ _ _ (by omega), store_same]

theorem frameBuf_checksum (st : State) (p : List Nat) (c e : Nat) (hp : p.length = 31) :
    frameBuf st p c e 32 = c := by
  have h := storeList_get (p ++ [c, e]) (store st.uartBuffer 0 0xAA) 1 31 (by simp [hp])
  rw [frameBuf, show (32 : Nat) = 1 + 31 from rfl, h]
  rw [List.getD_eq_getElem?_getD, List.getElem?_append_right (by omega), hp]
  rfl

theorem frameBuf_end (st : State) (p : List Nat) (c e : Nat) (hp : p.length = 31) :
    frameBuf st p c e 33 = e := by
  have h := storeList_get (p ++ [c, e]) (store st.uartBuffer 0 0xAA) 1 32 (by simp [hp])
  rw [frameBuf, show (33 : Nat) = 1 + 32 from rfl, h]
  rw [List.getD_eq_getElem?_getD, List.getElem?_append_right (by omega), hp]
  rfl

/-- A start byte followed by 33 bytes none of which is 0xAA: the decoder, whatever
its state was, captures exactly these bytes and validates them. -/
theorem processUART_frame (now : Nat) (st : State) (p : List Nat) (c e : Nat)
    (hp : p.length = 31) (hAA : ∀ b ∈ p, b ≠ 0xAA) (hc : c ≠ 0xAA) (he : e ≠ 0xAA) :
    processUART now st (0xAA :: (p ++ [c, e])) =
      if e = 0x55 ∧ xorBytes p = c then acceptedState now st (frameBuf st p c e)
      else rejectedState st (frameBuf st p c e) := by
  have hsplit : p ++ [c, e] = (p ++ [c]) ++ [e] := by simp
  have hbuf : store (storeList (store st.uartBuffer 0 0xAA) 1 (p ++ [c])) 33 e
      = frameBuf st p c e := by
    rw [frameBuf, storeList_append p [c], storeList_append p [c, e], hp]
    rfl
  have hmem : ∀ b ∈ p ++ [c], b ≠ 0xAA := by
    intro b hb
    rcases List.mem_append.1 hb with h | h
    · exact hAA b h
    · simp at h; rw [h]; exact hc
  rw [processUART_cons, processByte_start, hsplit, processUART_append,
    processUART_packet_store now (p ++ [c]) _ rfl hmem (by simp [hp]),
    processUART_cons, processUART_nil,
    processByte_packet_complete now _ e he rfl (by simp [hp])]
  simp only [hbuf, frameBuf_zero, frameBuf_end st p c e hp, frameBuf_checksum st p c e hp,
    xorRange_eq, true_and]
  have hpay := frameBuf_payload st p c e hp
  rw [sizeofSensorData] at hpay
  rw [hpay]
  by_cases h : e = 0x55 ∧ xorBytes p = c
  · rw [if_pos h, if_pos h]
    simp [acceptedState]
  · rw [if_neg h, if_neg h]
    simp [rejectedState]

/-- A byte other than the two start bytes is stored in a running stream capture. -/
theorem processByte_stream_store (now : Nat) (st : State) (b : Nat) (hA : b ≠ 0xAA)
    (hC : b ≠ 0xCC) (hrp : st.receivingPacket = false) (hrs : st.receivingStream = true)
    (h : st.streamIndex + 1 ≤ 11) :
    processByte now st b =
      { st with
        streamBuffer := store st.streamBuffer st.streamIndex b
        streamIndex := st.streamIndex + 1 } := by
  have h1 : (st.streamIndex + 1) % 256 = st.streamIndex + 1 := Nat.mod_eq_of_lt (by omega)
  have h2 : ¬ (12 ≤ st.streamIndex + 1) := by omega
  simp [processByte, hA, hC, hrp, hrs, h1, h2]

theorem processUART_stream_store (now : Nat) (l : List Nat) (st : State)
    (hrp : st.receivingPacket = false) (hrs : st.receivingStream = true)
    (hA : ∀ b ∈ l, b ≠ 0xAA) (hC : ∀ b ∈ l, b ≠ 0xCC)
    (hlen : st.streamIndex + l.length ≤ 11) :
    processUART now st l =
      { st with
        streamBuffer := storeList st.streamBuffer st.streamIndex l
        streamIndex := st.streamIndex + l.length } := by
  induction l generalizing st with
  | nil => rfl
  | cons b l ih =>
    simp only [List.length_cons] at hlen
    rw [processUART_cons,
      processByte_stream_store now st b (hA b (by simp)) (hC b (by simp)) hrp hrs (by omega),
      ih _ (by exact hrp) (by exact hrs) (fun x hx => hA x (by simp [hx]))
        (fun x hx => hC x (by simp [hx])) (by simp only; omega)]
    simp only [storeList, List.length_cons]
    congr 1
    omega

/-- The 12th byte of a stream capture runs the validation. -/
theorem processByte_stream_complete (now : Nat) (st : State) (b : Nat) (hA : b ≠ 0xAA)
    (hC : b ≠ 0xCC) (hrp : st.receivingPacket = false) (hrs : st.receivingStream = true)
    (h : st.streamIndex = 11) :
    processByte now st b =
      if xorRange (store st.streamBuffer 11 b) 1 9 = store st.streamBuffer 11 b 10 ∧
          store st.streamBuffer 11 b 11 = 0x55 then
        sampleState st (store st.streamBuffer 11 b)
      else discardedState st (store st.streamBuffer 11 b) := by
  by_cases hv : xorRange (store st.streamBuffer 11 b) 1 9 = store st.streamBuffer 11 b 10 ∧
      store st.streamBuffer 11 b 11 = 0x55
  · rw [if_pos hv]
    simp [processByte, hA, hC, hrp, hrs, h, hv.1, hv.2, sampleState]
  · rw [if_neg hv]
    simp only [not_and] at hv
    by_cases hx : xorRange (store st.streamBuffer 11 b) 1 9 = store st.streamBuffer 11 b 10
    · simp [processByte, hA, hC, hrp, hrs, h, hx, hv hx, discardedState]
    · simp [processByte, hA, hC, hrp, hrs, h, hx, discardedState]

/-- A start byte 0xCC followed by 11 bytes none of which is a start byte, received
while no full packet is being captured: the decoder captures exactly these bytes and
validates them. -/
theorem processUART_streamFrame (now : Nat) (st : State) (l : List Nat) (e : Nat)
    (hrp : st.receivingPacket = false) (hl : l.length = 10)
    (hA : ∀ b ∈ l, b ≠ 0xAA) (hC : ∀ b ∈ l, b ≠ 0xCC) (heA : e ≠ 0xAA) (heC : e ≠ 0xCC) :
    processUART now st (0xCC :: (l ++ [e])) =
      if xorRange (streamBuf st (l ++ [e])) 1 9 = streamBuf st (l ++ [e]) 10 ∧
          streamBuf st (l ++ [e]) 11 = 0x55 then
        sampleState st (streamBuf st (l ++ [e]))
      else discardedState st (streamBuf st (l ++ [e])) := by
  have hbuf : store (storeList (store st.streamBuffer 0 0xCC) 1 l) 11 e
      = streamBuf st (l ++ [e]) := by
    rw [streamBuf, storeList_append, hl]
    rfl
  rw [processUART_cons, processByte_stream_start now st hrp, processUART_append,
    processUART_stream_store now l _ (by exact hrp) rfl hA hC (by simp [hl]),
    processUART_cons, processUART_nil,
    processByte_stream_complete now _ e heA heC (by exact hrp) rfl (by simp [hl])]
  simp only [hbuf]
  split_ifs <;> simp [sampleState, discardedState]

theorem NoEvent.refl (a : State) : NoEvent a a := by
  simp [NoEvent]

theorem NoEvent.trans {a b c : State} (h1 : NoEvent a b) (h2 : NoEvent b c) : NoEvent a c := by
  obtain ⟨a1, a2, a3, a4, a5, a6, a7, a8, a9⟩ := h1
  obtain ⟨b1, b2, b3, b4, b5, b6, b7, b8, b9⟩ := h2
  exact ⟨b1.trans a1, b2.trans a2, b3.trans a3, b4.trans a4, b5.trans a5, b6.trans a6,
    b7.trans a7, b8.trans a8, b9.trans a9⟩

/-- One byte completes no frame when the decoder needs at least two more bytes; the
distance to the next event shrinks by at most one and a packet capture stays on. -/
theorem processByte_quiet (now : Nat) (st : State) (b : Nat) (h : 1 < bytesToEvent st) :
    NoEvent st (processByte now st b) ∧
    bytesToEvent st ≤ bytesToEvent (processByte now st b) + 1 ∧
    (st.receivingPacket = true → (processByte now st b).receivingPacket = true) := by
  by_cases hAA : b = 0xAA
  · subst hAA
    rw [processByte_start]
    refine ⟨by simp [NoEvent], ?_, fun _ => rfl⟩
    simp only [bytesToEvent]
    split_ifs
    all_goals omega
  · by_cases hrp : st.receivingPacket = true
    · have hbi : st.bufferIndex + 1 ≤ 33 := by
        simp only [bytesToEvent, hrp, if_true] at h
        omega
      rw [processByte_packet_store now st b hAA hrp hbi]
      refine ⟨by simp [NoEvent], ?_, fun _ => hrp⟩
      simp only [bytesToEvent, hrp, if_true]
      omega
    · have hrp' : st.receivingPacket = false := by simpa using hrp
      by_cases hCC : b = 0xCC
      · subst hCC
        rw [processByte_stream_start now st hrp']
        refine ⟨by simp [NoEvent], ?_, fun h' => absurd h' hrp⟩
        simp only [bytesToEvent, hrp']
        split_ifs
        all_goals omega
      · by_cases hrs : st.receivingStream = true
        · have hsi : st.streamIndex + 1 ≤ 11 := by
            simp [bytesToEvent, hrp', hrs] at h
            omega
          have h1 : (st.streamIndex + 1) % 256 = st.streamIndex + 1 :=
            Nat.mod_eq_of_lt (by omega)
          have h2 : ¬ (12 ≤ st.streamIndex + 1) := by omega
          refine ⟨by simp [processByte, hAA, hrp', hCC, hrs, h1, h2, NoEvent], ?_,
            fun h' => absurd h' hrp⟩
          simp [bytesToEvent, hrp', processByte, hAA, hCC, hrs, h1, h2]
          omega
        · have hrs' : st.receivingStream = false := by simpa using hrs
          refine ⟨by simp [processByte, hAA, hrp', hCC, hrs', NoEvent], ?_,
            fun h' => absurd h' hrp⟩
          simp [processByte, hAA, hrp', hCC, hrs']

/-- Fewer bytes than the decoder needs complete no frame. -/
theorem processUART_quiet (now : Nat) (l : List Nat) (st : State)
    (h : l.length < bytesToEvent st) :
    NoEvent st (processUART now st l) ∧
    bytesToEvent st ≤ bytesToEvent (processUART now st l) + l.length ∧
    (st.receivingPacket = true → (processUART now st l).receivingPacket = true) := by
  induction l generalizing st with
  | nil => exact ⟨NoEvent.refl st, by simp [processUART_nil], fun h => h⟩
  | cons b l ih =>
    simp only [List.length_cons] at h
    obtain ⟨q1, q2, q3⟩ := processByte_quiet now st b (by omega)
    obtain ⟨r1, r2, r3⟩ := ih (processByte now st b) (by omega)
    rw [processUART_cons]
    refine ⟨q1.trans r1, ?_, fun h => r3 (q3 h)⟩
    simp only [List.length_cons]
    omega

theorem processByte_start_noEvent (now : Nat) (st : State) :
    NoEvent st (processByte now st 0xAA) := by
  rw [processByte_start]
  simp [NoEvent]

theorem processByte_start_bytesToEvent (now : Nat) (st : State) :
    bytesToEvent (processByte now st 0xAA) = 33 := by
  rw [processByte_start]
  simp [bytesToEvent]

theorem processByte_start_receiving (now : Nat) (st : State) :
    (processByte now st 0xAA).receivingPacket = true := by
  rw [processByte_start]

/-- A frame that holds a further start byte 0xAA among the at most 33 bytes after its
own start byte completes no packet, and the decoder is left capturing a packet. -/
theorem processUART_inner_start (now : Nat) (st : State) (l : List Nat)
    (hlen : l.length ≤ 33) (hmem : 0xAA ∈ l) :
    NoEvent st (processUART now st (0xAA :: l)) ∧
    (processUART now st (0xAA :: l)).receivingPacket = true := by
  obtain ⟨a, b, hab⟩ := List.append_of_mem hmem
  subst hab
  simp only [List.length_append, List.length_cons] at hlen
  rw [processUART_cons, processUART_append, processUART_cons]
  obtain ⟨q1, -, -⟩ := processUART_quiet now a (processByte now st 0xAA)
    (by rw [processByte_start_bytesToEvent]; omega)
  obtain ⟨q2, -, q3⟩ := processUART_quiet now b
    (processByte now (processUART now (processByte now st 0xAA) a) 0xAA)
    (by rw [processByte_start_bytesToEvent]; omega)
  exact ⟨((processByte_start_noEvent now st).trans q1).trans
    ((processByte_start_noEvent now _).trans q2), q3 (processByte_start_receiving now _)⟩

/-- A stream frame with a correct checksum and no start byte among its bytes 1..10,
received while no full packet is being captured, is decoded. -/
theorem processUART_streamFrame_clean (now : Nat) (st : State)
    (t v0 v1 v2 v3 r0 r1 r2 r3 : Nat) (hrp : st.receivingPacket = false)
    (hclean : ∀ b ∈ [t, v0, v1, v2, v3, r0, r1, r2, r3,
      xorBytes [t, v0, v1, v2, v3, r0, r1, r2, r3]], b ≠ 0xAA ∧ b ≠ 0xCC) :
    processUART now st (streamFrame t v0 v1 v2 v3 r0 r1 r2 r3) =
      { st with
        streamBuffer := streamBuf st [t, v0, v1, v2, v3, r0, r1, r2, r3,
          xorBytes [t, v0, v1, v2, v3, r0, r1, r2, r3], 0x55]
        streamIndex := 12
        receivingStream := false
        latestStreamValue := le32 v0 v1 v2 v3
        currentStreamSensor := (t : Int) } := by
  have h := processUART_streamFrame now st
    [t, v0, v1, v2, v3, r0, r1, r2, r3, xorBytes [t, v0, v1, v2, v3, r0, r1, r2, r3]] 0x55
    hrp rfl (fun b hb => (hclean b hb).1) (fun b hb => (hclean b hb).2)
    (by decide) (by decide)
  have hx : xorRange (streamBuf st [t, v0, v1, v2, v3, r0, r1, r2, r3,
      xorBytes [t, v0, v1, v2, v3, r0, r1, r2, r3], 0x55]) 1 9
      = xorBytes [t, v0, v1, v2, v3, r0, r1, r2, r3] := by
    rw [xorRange_eq]
    exact congrArg xorBytes (storeList_map_range_head [t, v0, v1, v2, v3, r0, r1, r2, r3]
      [xorBytes [t, v0, v1, v2, v3, r0, r1, r2, r3], 0x55] (store st.streamBuffer 0 0xCC) 1)
  have h10 : streamBuf st [t, v0, v1, v2, v3, r0, r1, r2, r3,
      xorBytes [t, v0, v1, v2, v3, r0, r1, r2, r3], 0x55] 10
      = xorBytes [t, v0, v1, v2, v3, r0, r1, r2, r3] := by
    simp [streamBuf, storeList, store]
  have h11 : streamBuf st [t, v0, v1, v2, v3, r0, r1, r2, r3,
      xorBytes [t, v0, v1, v2, v3, r0, r1, r2, r3], 0x55] 11 = 0x55 := by
    simp [streamBuf, storeList, store]
  rw [streamFrame]
  simp only [List.cons_append, List.nil_append] at h
  rw [h, if_pos ⟨hx.trans h10.symm, h11⟩]
  simp [sampleState, streamBuf, storeList, store]

/-- A float above zero is not at most zero. -/
theorem f32_le_zero_of_gt_zero (x : Nat) (h : f32_gt_zero x = true) : f32_le_zero x = false := by
  simp only [f32_gt_zero, Bool.and_eq_true, Bool.not_eq_true', beq_iff_eq] at h
  obtain ⟨⟨-, hs⟩, hz⟩ := h
  simp [f32_le_zero, hs, hz]

theorem capturedValue_of_gt_zero (st : State) (h : f32_gt_zero st.latestStreamValue = true) :
    capturedValue st = st.latestStreamValue := by
  simp [capturedValue, f32_le_zero_of_gt_zero _ h]

theorem capturedValue_of_le_zero (st : State) (h : f32_le_zero st.latestStreamValue = true) :
    capturedValue st = 0 := by
  simp [capturedValue, h]

theorem f32_toInt_zero (ovf : Nat → Int) : f32_toInt ovf 0 = 0 := by
  simp [f32_toInt, f32_exp, f32_trunc, f32_sign, f32_truncMag, f32_sig, f32_frac]

/-- The conversion `(int)x` of a finite float that is not negative and whose truncation
fits an `int` is that truncation. -/
theorem f32_toInt_of_small (ovf : Nat → Int) (x : Nat) (hs : f32_sign x = 0)
    (he : f32_exp x ≠ 255) (hm : f32_truncMag x < 2 ^ 31) :
    f32_toInt ovf x = (f32_truncMag x : Int) := by
  have h1 : f32_trunc x = (f32_truncMag x : Int) := by simp [f32_trunc, hs]
  have h2 : -(2 ^ 31 : Int) ≤ f32_trunc x := by rw [h1]; omega
  have h3 : f32_trunc x < (2 ^ 31 : Int) := by rw [h1]; exact_mod_cast hm
  rw [f32_toInt, if_pos ⟨he, h2, h3⟩, h1]

/-- What the CAPTURE callback does, field by field. -/
theorem captureButtonClicked_tx (ovf : Nat → Int) (s : Int) (st : State) :
    (captureButtonClicked ovf s st).tx = st.tx ++ [0x06] := rfl

theorem captureButtonClicked_done (ovf : Nat → Int) (s : Int) (st : State) :
    (captureButtonClicked ovf s st).measurements_done s.toNat = true := by
  simp [captureButtonClicked, store]

theorem captureButtonClicked_height (ovf : Nat → Int) (st : State) :
    (captureButtonClicked ovf 1 st).healthData.height = capturedValue st ∧
    (captureButtonClicked ovf 1 st).healthData.height_measured = true := by
  simp [captureButtonClicked, capturedValue, sendStopStreamCommand]

theorem captureButtonClicked_weight (ovf : Nat → Int) (st : State) :
    (captureButtonClicked ovf 2 st).healthData.weight = capturedValue st ∧
    (captureButtonClicked ovf 2 st).healthData.weight_measured = true := by
  simp only [captureButtonClicked, capturedValue, sendStopStreamCommand]
  split_ifs <;> simp_all

theorem captureButtonClicked_temperature (ovf : Nat → Int) (st : State) :
    (captureButtonClicked ovf 3 st).healthData.temperature = capturedValue st ∧
    (captureButtonClicked ovf 3 st).healthData.temp_measured = true := by
  simp [captureButtonClicked, capturedValue, sendStopStreamCommand]

theorem captureButtonClicked_heart_rate (ovf : Nat → Int) (st : State) :
    (captureButtonClicked ovf 4 st).healthData.heart_rate = f32_toInt ovf (capturedValue st) ∧
    (captureButtonClicked ovf 4 st).healthData.hr_measured = true := by
  simp [captureButtonClicked, capturedValue, sendStopStreamCommand]

/-- A list with an element that satisfies `P` splits at the first such element. -/
theorem exists_first_split (P : Nat → Prop) (l : List Nat) (h : ∃ x ∈ l, P x) :
    ∃ a x b, l = a ++ x :: b ∧ P x ∧ ∀ y ∈ a, ¬ P y := by
  induction l with
  | nil => simp at h
  | cons c l ih =>
    by_cases hc : P c
    · exact ⟨[], c, l, rfl, hc, by simp⟩
    · obtain ⟨x, hx, hPx⟩ := h
      have hx' : x ∈ l := by
        rcases List.mem_cons.1 hx with h1 | h1
        · exact absurd (h1 ▸ hPx) hc
        · exact h1
      obtain ⟨a, y, b, hl, hy, ha⟩ := ih ⟨x, hx', hPx⟩
      refine ⟨c :: a, y, b, by rw [hl]; rfl, hy, ?_⟩
      intro z hz
      rcases List.mem_cons.1 hz with h1 | h1
      · rw [h1]; exact hc
      · exact ha z h1

/-- A stream frame that holds a start byte (0xAA or 0xCC) among the at most 10 bytes
after its own start byte, received while no full packet is being captured, completes
no frame: no StreamSample and no FullPacket event. -/
theorem processUART_stream_inner_start (now : Nat) (st : State) (l : List Nat) (e : Nat)
    (hrp : st.receivingPacket = false) (hlen : l.length ≤ 10)
    (hmem : ∃ x ∈ l, x = 0xAA ∨ x = 0xCC) :
    NoEvent st (processUART now st (0xCC :: (l ++ [e]))) := by
  obtain ⟨a, x, b, hl, hx, ha⟩ := exists_first_split (fun x => x = 0xAA ∨ x = 0xCC) l hmem
  subst hl
  simp only [List.length_append, List.length_cons] at hlen
  have hA : ∀ y ∈ a, y ≠ 0xAA := fun y hy h => ha y hy (Or.inl h)
  have hC : ∀ y ∈ a, y ≠ 0xCC := fun y hy h => ha y hy (Or.inr h)
  rw [processUART_cons, processByte_stream_start now st hrp, List.append_assoc,
    processUART_append,
    processUART_stream_store now a _ (by exact hrp) rfl hA hC (by simp only; omega),
    List.cons_append, processUART_cons]
  rcases hx with hx | hx
  · subst hx
    obtain ⟨q, -, -⟩ := processUART_quiet now (b ++ [e]) (processByte now
      { st with
        receivingStream := true
        streamBuffer := storeList (store st.streamBuffer 0 0xCC) 1 a
        streamIndex := 1 + a.length } 0xAA)
      (by rw [processByte_start_bytesToEvent]; simp; omega)
    refine NoEvent.trans ?_ ((processByte_start_noEvent now _).trans q)
    simp [NoEvent]
  · subst hx
    rw [processByte_stream_start now _ (by exact hrp)]
    obtain ⟨q, -, -⟩ := processUART_quiet now (b ++ [e])
      { st with
        receivingStream := true
        streamBuffer := store (storeList (store st.streamBuffer 0 0xCC) 1 a) 0 0xCC
        streamIndex := 1 }
      (by simp [bytesToEvent, hrp]; omega)
    refine NoEvent.trans ?_ q
    simp [NoEvent]

theorem xorRange_congr (A B : Nat → Nat) (start len : Nat)
    (h : ∀ j, j < start + len → A j = B j) : xorRange A start len = xorRange B start len := by
  rw [xorRange_eq, xorRange_eq]
  congr 1
  apply List.map_congr_left
  intro j hj
  simp only [List.mem_range'_1] at hj
  exact h j hj.2

/-- One step of the decoder does not depend on the cells of `uartBuffer` at or above
`bufferIndex`, nor on any cell when no packet is being captured: two states that differ
only there step to two states that differ only there. -/
theorem processByte_stale_cells (now : Nat) (a : State) (B : Nat → Nat) (x : Nat)
    (h : a.receivingPacket = true →
      a.bufferIndex ≤ 33 ∧ ∀ j, j < a.bufferIndex → a.uartBuffer j = B j) :
    ∃ B', processByte now { a with uartBuffer := B } x
        = { processByte now a x with uartBuffer := B' } ∧
      ((processByte now a x).receivingPacket = true →
        (processByte now a x).bufferIndex ≤ 33 ∧
        ∀ j, j < (processByte now a x).bufferIndex → (processByte now a x).uartBuffer j = B' j) := by
  by_cases hA : x = 0xAA
  · subst hA
    refine ⟨store B 0 0xAA, by rw [processByte_start, processByte_start], ?_⟩
    rw [processByte_start]
    intro _
    refine ⟨by simp, ?_⟩
    intro j hj
    have hj0 : j = 0 := by simp only at hj; omega
    subst hj0
    simp [store]
  · by_cases hrp : a.receivingPacket = true
    · obtain ⟨hbi, hag⟩ := h hrp
      by_cases hlt : a.bufferIndex + 1 ≤ 33
      · refine ⟨store B a.bufferIndex x, ?_, ?_⟩
        · rw [processByte_packet_store now a x hA hrp hlt,
            processByte_packet_store now _ x hA (by exact hrp) (by exact hlt)]
        · rw [processByte_packet_store now a x hA hrp hlt]
          intro _
          refine ⟨hlt, ?_⟩
          intro j hj
          simp only at hj
          by_cases hje : j = a.bufferIndex
          · simp [store, hje]
          · simp only [store, hje, if_false]
            exact hag j (by omega)
      · have h33 : a.bufferIndex = 33 := by omega
        have hall : ∀ j, j < 34 → store a.uartBuffer 33 x j = store B 33 x j := by
          intro j hj
          by_cases hje : j = 33
          · simp [store, hje]
          · simp only [store, hje, if_false]
            exact hag j (by omega)
        have hmap : (List.range' 1 31).map (store a.uartBuffer 33 x)
            = (List.range' 1 31).map (store B 33 x) := by
          apply List.map_congr_left
          intro j hj
          simp only [List.mem_range'_1] at hj
          exact hall j (by omega)
        refine ⟨store B 33 x, ?_, ?_⟩
        · rw [processByte_packet_complete now a x hA hrp h33,
            processByte_packet_complete now _ x hA (by exact hrp) (by exact h33)]
          simp only [← hall 0 (by omega), ← hall 33 (by omega), ← hall 32 (by omega),
            ← xorRange_congr _ _ 1 31 (fun j hj => hall j (by omega))]
          split_ifs
          · simp [acceptedState, sizeofSensorData, hmap]
          · simp [rejectedState]
        · rw [processByte_packet_complete now a x hA hrp h33]
          split_ifs <;> simp [acceptedState, rejectedState]
    · have hrp' : a.receivingPacket = false := by simpa using hrp
      refine ⟨B, ?_, ?_⟩
      · simp only [processByte, hA, hrp', if_false, Bool.false_eq_true]
        split_ifs <;> simp [hrp']
      · intro hr
        exfalso
        simp only [processByte, hA, hrp', if_false, Bool.false_eq_true] at hr
        split_ifs at hr
        simp [hrp'] at hr

theorem processUART_stale_cells (now : Nat) (l : List Nat) (a : State) (B : Nat → Nat)
    (h : a.receivingPacket = true →
      a.bufferIndex ≤ 33 ∧ ∀ j, j < a.bufferIndex → a.uartBuffer j = B j) :
    ∃ B', processUART now { a with uartBuffer := B } l
        = { processUART now a l with uartBuffer := B' } := by
  induction l generalizing a B with
  | nil => exact ⟨B, rfl⟩
  | cons x l ih =>
    obtain ⟨B1, h1, h2⟩ := processByte_stale_cells now a B x h
    obtain ⟨B2, h3⟩ := ih (processByte now a x) B1 h2
    exact ⟨B2, by rw [processUART_cons, processUART_cons, h1, h3]⟩

/-! ## Lemmas on the label code -/

theorem decimalDigitsAux_pos (fuel n : Nat) : 1 ≤ decimalDigitsAux fuel n := by
  cases fuel with
  | zero => exact Nat.le_refl 1
  | succ fuel =>
    rw [decimalDigitsAux]
    split_ifs
    all_goals omega

theorem decimalDigitsAux_le_iff (fuel : Nat) :
    ∀ n k, n ≤ fuel → 1 ≤ k → (decimalDigitsAux fuel n ≤ k ↔ n < 10 ^ k) := by
  induction fuel with
  | zero =>
    intro n k hn hk
    have h0 : n = 0 := by omega
    subst h0
    simp only [decimalDigitsAux]
    exact ⟨fun _ => Nat.pow_pos (by decide), fun _ => hk⟩
  | succ fuel ih =>
    intro n k hn hk
    have h10 : 10 ≤ 10 ^ k := by
      calc 10 = 10 ^ 1 := rfl
        _ ≤ 10 ^ k := Nat.pow_le_pow_right (by decide) hk
    rw [decimalDigitsAux]
    by_cases hlt : n < 10
    · rw [if_pos hlt]
      exact ⟨fun _ => by omega, fun _ => hk⟩
    · rw [if_neg hlt]
      obtain ⟨j, rfl⟩ : ∃ j, k = j + 1 := ⟨k - 1, by omega⟩
      have hpos := decimalDigitsAux_pos fuel (n / 10)
      by_cases hj : j = 0
      · subst hj
        constructor
        · intro h
          omega
        · intro h
          simp only [Nat.zero_add, Nat.pow_one] at h
          omega
      · have hiff := ih (n / 10) j (by omega) (by omega)
        rw [Nat.pow_succ]
        constructor
        · intro h
          have := hiff.1 (by omega)
          omega
        · intro h
          have := hiff.2 (by omega)
          omega

/-- A number has at most `k` decimal digits exactly when it is below `10 ^ k`. -/
theorem decimalDigits_le_iff (n k : Nat) (hk : 1 ≤ k) :
    decimalDigits n ≤ k ↔ n < 10 ^ k :=
  decimalDigitsAux_le_iff n n k (Nat.le_refl n) hk

/-- The text of a finite float fits `char buf[32]` exactly when the value, rounded at
the first decimal, is below `10 ^ 29`, or below `10 ^ 28` in magnitude for a negative
value: the condition is `|x| + 1/20 < 10 ^ 29` (or `10 ^ 28`), written without
division. -/
theorem dtostrf_fits_iff (x : Nat) (hnan : f32_isNaN x = false) (hinf : f32_isInf x = false) :
    dtostrf_fits x 5 = true ↔
      20 * f32_num x + f32_den x
        < (if f32_sign x = 1 ∧ f32_isZero x = false then 10 ^ 28 else 10 ^ 29)
          * (20 * f32_den x) := by
  have hden : 0 < 20 * f32_den x := by
    have : 0 < f32_den x := Nat.pow_pos (by decide)
    omega
  simp only [dtostrf_fits, dtostrf_size, hnan, hinf, Bool.or_self, Bool.false_eq_true,
    if_false, decide_eq_true_eq]
  by_cases hneg : f32_sign x = 1 ∧ f32_isZero x = false
  · rw [if_pos hneg, if_pos hneg, ← Nat.div_lt_iff_lt_mul hden,
      ← decimalDigits_le_iff _ 28 (by decide)]
    omega
  · rw [if_neg hneg, if_neg hneg, ← Nat.div_lt_iff_lt_mul hden,
      ← decimalDigits_le_iff _ 29 (by decide)]
    omega

theorem processUARTUB_nil (now : Nat) (st : State) : processUARTUB now st [] = some st := rfl

theorem processUARTUB_cons (now : Nat) (st : State) (b : Nat) (l : List Nat) :
    processUARTUB now st (b :: l)
      = (processByteUB now st b).bind (fun st1 => processUARTUB now st1 l) := rfl

theorem processUARTUB_append (now : Nat) (l m : List Nat) (st : State) :
    processUARTUB now st (l ++ m)
      = (processUARTUB now st l).bind (fun st1 => processUARTUB now st1 m) := by
  induction l generalizing st with
  | nil => simp [processUARTUB]
  | cons b l ih =>
    rw [List.cons_append, processUARTUB_cons, processUARTUB_cons]
    cases h : processByteUB now st b with
    | none => rfl
    | some st1 => simp [ih]

/-- Where the body with the label code is defined, it leaves the state of
`processByte`. -/
theorem processByteUB_eq (now : Nat) (st : State) (b : Nat) :
    processByteUB now st b = some (processByte now st b) ∨ processByteUB now st b = none := by
  simp only [processByteUB, processByte]
  split_ifs <;> simp

/-- A byte that cannot complete a stream frame has a defined effect. -/
theorem processByteUB_of_no_sample (now : Nat) (st : State) (b : Nat)
    (h : b = 0xAA ∨ st.receivingPacket = true ∨ b = 0xCC ∨ st.receivingStream = false ∨
      st.streamIndex + 1 < 12) :
    processByteUB now st b = some (processByte now st b) := by
  by_cases hA : b = 0xAA
  · simp [processByteUB, processByte, hA]
  · by_cases hrp : st.receivingPacket = true
    · simp only [processByteUB, processByte, hA, hrp, if_true, if_false]
      split_ifs <;> rfl
    · have hrp' : st.receivingPacket = false := by simpa using hrp
      by_cases hC : b = 0xCC
      · simp [processByteUB, processByte, hC, hrp']
      · by_cases hrs : st.receivingStream = true
        · have hlt : st.streamIndex + 1 < 12 := by
            rcases h with h | h | h | h | h
            · exact absurd h hA
            · exact absurd h hrp
            · exact absurd h hC
            · rw [hrs] at h
              exact absurd h (by decide)
            · exact h
          have h1 : (st.streamIndex + 1) % 256 = st.streamIndex + 1 :=
            Nat.mod_eq_of_lt (by omega)
          have h2 : ¬ (12 ≤ st.streamIndex + 1) := by omega
          simp [processByteUB, processByte, hA, hC, hrp', hrs, h1, h2]
        · have hrs' : st.receivingStream = false := by simpa using hrs
          simp [processByteUB, processByte, hA, hC, hrp', hrs']

theorem processByteUB_quiet (now : Nat) (st : State) (b : Nat) (h : 1 < bytesToEvent st) :
    processByteUB now st b = some (processByte now st b) := by
  apply processByteUB_of_no_sample
  by_cases hrp : st.receivingPacket = true
  · exact Or.inr (Or.inl hrp)
  · by_cases hrs : st.receivingStream = true
    · have hrp' : st.receivingPacket = false := by simpa using hrp
      simp only [bytesToEvent, hrp', hrs, if_true] at h
      exact Or.inr (Or.inr (Or.inr (Or.inr (by
        simp only [Bool.false_eq_true, if_false] at h
        omega))))
    · exact Or.inr (Or.inr (Or.inr (Or.inl (by simpa using hrs))))

/-- Fewer bytes than the decoder needs to complete a frame have a defined effect. -/
theorem processUARTUB_quiet (now : Nat) (l : List Nat) (st : State)
    (h : l.length < bytesToEvent st) :
    processUARTUB now st l = some (processUART now st l) := by
  induction l generalizing st with
  | nil => rfl
  | cons b l ih =>
    simp only [List.length_cons] at h
    obtain ⟨-, q2, -⟩ := processByte_quiet now st b (by omega)
    rw [processUARTUB_cons, processByteUB_quiet now st b (by omega), Option.some_bind,
      ih (processByte now st b) (by omega), processUART_cons]

/-- The 12th byte of a stream capture with the label code: the effect is undefined
exactly when the frame passes validation and its value does not fit the label. -/
theorem processByteUB_stream_complete (now : Nat) (st : State) (b : Nat) (hA : b ≠ 0xAA)
    (hC : b ≠ 0xCC) (hrp : st.receivingPacket = false) (hrs : st.receivingStream = true)
    (h : st.streamIndex = 11) :
    processByteUB now st b =
      if (xorRange (store st.streamBuffer 11 b) 1 9 = store st.streamBuffer 11 b 10 ∧
          store st.streamBuffer 11 b 11 = 0x55) ∧
          updateLiveLabel_defined (store st.streamBuffer 11 b 1)
            (le32 (store st.streamBuffer 11 b 2) (store st.streamBuffer 11 b 3)
              (store st.streamBuffer 11 b 4) (store st.streamBuffer 11 b 5)) = false then
        none
      else some (processByte now st b) := by
  by_cases hv : xorRange (store st.streamBuffer 11 b) 1 9 = store st.streamBuffer 11 b 10 ∧
      store st.streamBuffer 11 b 11 = 0x55
  · cases hd : updateLiveLabel_defined (store st.streamBuffer 11 b 1)
        (le32 (store st.streamBuffer 11 b 2) (store st.streamBuffer 11 b 3)
          (store st.streamBuffer 11 b 4) (store st.streamBuffer 11 b 5))
    · simp [processByteUB, hA, hC, hrp, hrs, h, hv.1, hv.2, hd]
    · simp [processByteUB, processByte, hA, hC, hrp, hrs, h, hv.1, hv.2, hd]
  · rw [if_neg (fun hh => hv hh.1)]
    simp only [not_and] at hv
    by_cases hx : xorRange (store st.streamBuffer 11 b) 1 9 = store st.streamBuffer 11 b 10
    · simp [processByteUB, processByte, hA, hC, hrp, hrs, h, hx, hv hx]
    · simp [processByteUB, processByte, hA, hC, hrp, hrs, h, hx]

/-- A stream frame with a correct checksum and no start byte among its bytes 1..10,
received while no full packet is being captured: the decoder with the label code
decodes it when the label can show the value, and has no defined effect otherwise. -/
theorem processUARTUB_streamFrame_clean (now : Nat) (st : State)
    (t v0 v1 v2 v3 r0 r1 r2 r3 : Nat) (hrp : st.receivingPacket = false)
    (hclean : ∀ b ∈ [t, v0, v1, v2, v3, r0, r1, r2, r3,
      xorBytes [t, v0, v1, v2, v3, r0, r1, r2, r3]], b ≠ 0xAA ∧ b ≠ 0xCC) :
    processUARTUB now st (streamFrame t v0 v1 v2 v3 r0 r1 r2 r3) =
      if updateLiveLabel_defined t (le32 v0 v1 v2 v3) then
        some (processUART now st (streamFrame t v0 v1 v2 v3 r0 r1 r2 r3))
      else none := by
  have hsplit : streamFrame t v0 v1 v2 v3 r0 r1 r2 r3
      = 0xCC :: ([t, v0, v1, v2, v3, r0, r1, r2, r3,
          xorBytes [t, v0, v1, v2, v3, r0, r1, r2, r3]] ++ [0x55]) := rfl
  have hA : ∀ b ∈ [t, v0, v1, v2, v3, r0, r1, r2, r3,
      xorBytes [t, v0, v1, v2, v3, r0, r1, r2, r3]], b ≠ 0xAA := fun b hb => (hclean b hb).1
  have hC : ∀ b ∈ [t, v0, v1, v2, v3, r0, r1, r2, r3,
      xorBytes [t, v0, v1, v2, v3, r0, r1, r2, r3]], b ≠ 0xCC := fun b hb => (hclean b hb).2
  have h1 : processByte now st 0xCC
      = { st with
          receivingStream := true
          streamBuffer := store st.streamBuffer 0 0xCC
          streamIndex := 1 } := processByte_stream_start now st hrp
  have hs10 : processUART now (processByte now st 0xCC)
        [t, v0, v1, v2, v3, r0, r1, r2, r3, xorBytes [t, v0, v1, v2, v3, r0, r1, r2, r3]]
      = { st with
          receivingStream := true
          streamBuffer := storeList (store st.streamBuffer 0 0xCC) 1
            [t, v0, v1, v2, v3, r0, r1, r2, r3, xorBytes [t, v0, v1, v2, v3, r0, r1, r2, r3]]
          streamIndex := 11 } := by
    rw [h1, processUART_stream_store now _ _ (by exact hrp) rfl hA hC (by simp)]
    rfl
  have hq := processUARTUB_quiet now [t, v0, v1, v2, v3, r0, r1, r2, r3,
      xorBytes [t, v0, v1, v2, v3, r0, r1, r2, r3]] (processByte now st 0xCC)
    (by rw [h1]; simp [bytesToEvent, hrp])
  have hx : xorRange (streamBuf st [t, v0, v1, v2, v3, r0, r1, r2, r3,
      xorBytes [t, v0, v1, v2, v3, r0, r1, r2, r3], 0x55]) 1 9
      = xorBytes [t, v0, v1, v2, v3, r0, r1, r2, r3] := by
    rw [xorRange_eq]
    exact congrArg xorBytes (storeList_map_range_head [t, v0, v1, v2, v3, r0, r1, r2, r3]
      [xorBytes [t, v0, v1, v2, v3, r0, r1, r2, r3], 0x55] (store st.streamBuffer 0 0xCC) 1)
  have hbuf : store (storeList (store st.streamBuffer 0 0xCC) 1
        [t, v0, v1, v2, v3, r0, r1, r2, r3,
          xorBytes [t, v0, v1, v2, v3, r0, r1, r2, r3]]) 11 0x55
      = streamBuf st [t, v0, v1, v2, v3, r0, r1, r2, r3,
          xorBytes [t, v0, v1, v2, v3, r0, r1, r2, r3], 0x55] := by
    funext j
    simp [streamBuf, storeList, store]
  have e1 : streamBuf st [t, v0, v1, v2, v3, r0, r1, r2, r3,
      xorBytes [t, v0, v1, v2, v3, r0, r1, r2, r3], 0x55] 1 = t := by
    simp [streamBuf, storeList, store]
  have e2 : streamBuf st [t, v0, v1, v2, v3, r0, r1, r2, r3,
      xorBytes [t, v0, v1, v2, v3, r0, r1, r2, r3], 0x55] 2 = v0 := by
    simp [streamBuf, storeList, store]
  have e3 : streamBuf st [t, v0, v1, v2, v3, r0, r1, r2, r3,
      xorBytes [t, v0, v1, v2, v3, r0, r1, r2, r3], 0x55] 3 = v1 := by
    simp [streamBuf, storeList, store]
  have e4 : streamBuf st [t, v0, v1, v2, v3, r0, r1, r2, r3,
      xorBytes [t, v0, v1, v2, v3, r0, r1, r2, r3], 0x55] 4 = v2 := by
    simp [streamBuf, storeList, store]
  have e5 : streamBuf st [t, v0, v1, v2, v3, r0, r1, r2, r3,
      xorBytes [t, v0, v1, v2, v3, r0, r1, r2, r3], 0x55] 5 = v3 := by
    simp [streamBuf, storeList, store]
  have e10 : streamBuf st [t, v0, v1, v2, v3, r0, r1, r2, r3,
      xorBytes [t, v0, v1, v2, v3, r0, r1, r2, r3], 0x55] 10
      = xorBytes [t, v0, v1, v2, v3, r0, r1, r2, r3] := by
    simp [streamBuf, storeList, store]
  have e11 : streamBuf st [t, v0, v1, v2, v3, r0, r1, r2, r3,
      xorBytes [t, v0, v1, v2, v3, r0, r1, r2, r3], 0x55] 11 = 0x55 := by
    simp [streamBuf, storeList, store]
  have hfin : processUART now st (0xCC :: ([t, v0, v1, v2, v3, r0, r1, r2, r3,
        xorBytes [t, v0, v1, v2, v3, r0, r1, r2, r3]] ++ [0x55]))
      = processByte now (processUART now (processByte now st 0xCC)
          [t, v0, v1, v2, v3, r0, r1, r2, r3,
            xorBytes [t, v0, v1, v2, v3, r0, r1, r2, r3]]) 0x55 := by
    rw [processUART_cons now st 0xCC, processUART_append now (processByte now st 0xCC)]
    rfl
  rw [hsplit, hfin, processUARTUB_cons,
    processByteUB_of_no_sample now st 0xCC (Or.inr (Or.inr (Or.inl rfl))), Option.some_bind,
    processUARTUB_append, hq, Option.some_bind, processUARTUB_cons, hs10,
    processByteUB_stream_complete now _ 0x55 (by decide) (by decide) (by exact hrp) rfl rfl]
  simp only [hbuf, e1, e2, e3, e4, e5, e10, e11, hx, true_and]
  cases hd : updateLiveLabel_defined t (le32 v0 v1 v2 v3) <;> simp [processUARTUB]

/-- Where the decoder with the label code is defined, it ends in the state of
`processUART`. -/
theorem processUARTUB_eq_some (now : Nat) (l : List Nat) (st st1 : State)
    (h : processUARTUB now st l = some st1) : st1 = processUART now st l := by
  induction l generalizing st with
  | nil =>
    rw [processUARTUB_nil] at h
    exact (Option.some.inj h).symm
  | cons b l ih =>
    rw [processUARTUB_cons] at h
    rcases processByteUB_eq now st b with hb | hb
    · rw [hb, Option.some_bind] at h
      rw [processUART_cons]
      exact ih _ h
    · rw [hb] at h
      exact absurd h (by simp)

/-- Where the CAPTURE callback with its label code is defined, it ends in the state of
`captureButtonClicked`, whatever an out-of-range conversion would give. -/
theorem captureButtonClickedUB_eq_some (ovf : Nat → Int) (s : Int) (st st1 : State)
    (h : captureButtonClickedUB s st = some st1) : st1 = captureButtonClicked ovf s st := by
  simp only [captureButtonClickedUB] at h
  by_cases h4 : s = 4 ∧ f32_toInt_defined (capturedValue (sendStopStreamCommand st)) = false
  · rw [if_pos h4] at h
    exact absurd h (by simp)
  · rw [if_neg h4] at h
    by_cases hov : f32_gt_zero (capturedValue (sendStopStreamCommand st)) = true ∧ s ≠ 4 ∧
        dtostrf_fits (capturedValue (sendStopStreamCommand st)) 5 = false
    · rw [if_pos hov] at h
      exact absurd h (by simp)
    · rw [if_neg hov] at h
      have hst := (Option.some.inj h).symm
      by_cases hs4 : s = 4
      · have hdef : f32_toInt_defined (capturedValue (sendStopStreamCommand st)) = true := by
          by_contra hc
          exact h4 ⟨hs4, by simpa using hc⟩
        have htr : f32_toInt ovf (capturedValue (sendStopStreamCommand st))
            = f32_trunc (capturedValue (sendStopStreamCommand st)) := by
          simp only [f32_toInt_defined, decide_eq_true_eq] at hdef
          rw [f32_toInt, if_pos hdef]
        rw [hst]
        simp only [captureButtonClicked, htr]
      · rw [hst]
        simp only [captureButtonClicked, hs4, if_false]

/-! ## The claims -/

/-- C1, as stated, fails: a frame with a correct checksum whose payload holds the byte
0xAA (here a heart rate of 170 BPM) is not accepted by the idle decoder, which is left
capturing a packet. -/
theorem C1_counterexample :
    payloadHeartRate170.length = 31 ∧
    (fullFrame payloadHeartRate170).length = 34 ∧
    initState.receivingPacket = false ∧ initState.receivingStream = false ∧
    (processUART 0 initState (fullFrame payloadHeartRate170)).packetCount
      = initState.packetCount ∧
    (processUART 0 initState (fullFrame payloadHeartRate170)).dataReceived = false ∧
    (processUART 0 initState (fullFrame payloadHeartRate170)).sensorData
      ≠ payloadHeartRate170 ∧
    (processUART 0 initState (fullFrame payloadHeartRate170)).receivingPacket = true := by
  decide

/-- C1, amended: every 34-byte frame `0xAA, p1..p31, c, 0x55` with `c` the XOR of the
payload and with no byte 0xAA among `p1..p31, c`, fed to the idle decoder, is accepted
once: `packetCount` is incremented (a `uint32_t`, so modulo `2 ^ 32`), `dataReceived` is
true, `sensorData` holds the payload bytes (heart rate little-endian at offsets 16..17,
status at offset 26), and the decoder is idle again. -/
theorem C1_frame_accepted (now : Nat) (st : State) (p : List Nat)
    (hrs : st.receivingStream = false)
    (hp : p.length = 31) (hAA : ∀ b ∈ p, b ≠ 0xAA) (hc : xorBytes p ≠ 0xAA) :
    (processUART now st (fullFrame p)).packetCount = (st.packetCount + 1) % 2 ^ 32 ∧
    (processUART now st (fullFrame p)).dataReceived = true ∧
    (processUART now st (fullFrame p)).sensorData = p ∧
    SensorData_heart_rate (processUART now st (fullFrame p)).sensorData
      = p.getD 16 0 + 256 * p.getD 17 0 ∧
    SensorData_sensor_status (processUART now st (fullFrame p)).sensorData = p.getD 26 0 ∧
    (processUART now st (fullFrame p)).receivingPacket = false ∧
    (processUART now st (fullFrame p)).receivingStream = false := by
  have hpay := frameBuf_payload st p (xorBytes p) 0x55 hp
  rw [fullFrame, processUART_frame now st p (xorBytes p) 0x55 hp hAA hc (by decide),
    if_pos ⟨rfl, rfl⟩]
  simp only [acceptedState, hpay, hrs]
  simp [SensorData_heart_rate, SensorData_sensor_status, byteAt, le16]

/-- The witness of C1: the all-zero payload. -/
theorem C1_frame_accepted_witness :
    (processUART 5 initState (fullFrame (List.replicate 31 0))).packetCount
      = (initState.packetCount + 1) % 2 ^ 32 ∧
    (processUART 5 initState (fullFrame (List.replicate 31 0))).dataReceived = true ∧
    (processUART 5 initState (fullFrame (List.replicate 31 0))).sensorData
      = List.replicate 31 0 ∧
    SensorData_heart_rate (processUART 5 initState (fullFrame (List.replicate 31 0))).sensorData
      = (List.replicate 31 0).getD 16 0 + 256 * (List.replicate 31 0).getD 17 0 ∧
    SensorData_sensor_status
        (processUART 5 initState (fullFrame (List.replicate 31 0))).sensorData
      = (List.replicate 31 0).getD 26 0 ∧
    (processUART 5 initState (fullFrame (List.replicate 31 0))).receivingPacket = false ∧
    (processUART 5 initState (fullFrame (List.replicate 31 0))).receivingStream = false :=
  C1_frame_accepted 5 initState (List.replicate 31 0) rfl rfl (by decide) (by decide)

/-- C2: resynchronisation. In every decoder state, whatever bytes came before, a frame
`0xAA, p1..p31, c, 0x55` with `c` the XOR of the payload and no byte 0xAA among
`p1..p31, c` is accepted exactly once: `packetCount` is incremented (a `uint32_t`, so
modulo `2 ^ 32`) and `sensorData` holds the payload. -/
theorem C2_resynchronisation (now : Nat) (st : State) (p : List Nat)
    (hp : p.length = 31) (hAA : ∀ b ∈ p, b ≠ 0xAA) (hc : xorBytes p ≠ 0xAA) :
    (processUART now st (fullFrame p)).packetCount = (st.packetCount + 1) % 2 ^ 32 ∧
    (processUART now st (fullFrame p)).sensorData = p ∧
    (processUART now st (fullFrame p)).dataReceived = true ∧
    (processUART now st (fullFrame p)).receivingPacket = false := by
  have hpay := frameBuf_payload st p (xorBytes p) 0x55 hp
  rw [fullFrame, processUART_frame now st p (xorBytes p) 0x55 hp hAA hc (by decide),
    if_pos ⟨rfl, rfl⟩]
  simp only [acceptedState, hpay]
  simp

/-- The witness of C2: the frame arrives after a partial stream frame and a partial
full packet. -/
theorem C2_resynchronisation_witness :
    (processUART 3 (processUART 0 initState [0xCC, 1, 0xAA, 7, 7])
        (fullFrame (List.replicate 31 1))).packetCount
      = ((processUART 0 initState [0xCC, 1, 0xAA, 7, 7]).packetCount + 1) % 2 ^ 32 ∧
    (processUART 3 (processUART 0 initState [0xCC, 1, 0xAA, 7, 7])
        (fullFrame (List.replicate 31 1))).sensorData = List.replicate 31 1 ∧
    (processUART 3 (processUART 0 initState [0xCC, 1, 0xAA, 7, 7])
        (fullFrame (List.replicate 31 1))).dataReceived = true ∧
    (processUART 3 (processUART 0 initState [0xCC, 1, 0xAA, 7, 7])
        (fullFrame (List.replicate 31 1))).receivingPacket = false :=
  C2_resynchronisation 3 (processUART 0 initState [0xCC, 1, 0xAA, 7, 7])
    (List.replicate 31 1) rfl (by decide) (by decide)

/-- C3: in a valid frame, replace the payload byte at offset `i` (frame position
`i + 1`) by a different byte `y`; feeding the 34 bytes to the decoder emits no
FullPacket event: `packetCount`, `dataReceived`, `sensorData` and `healthData` are
unchanged. This holds in every decoder state, the idle one included. -/
theorem C3_corrupted_payload_rejected (now : Nat) (st : State) (p : List Nat) (i y : Nat)
    (hp : p.length = 31) (hi : i < 31) (hy : y ≠ p.getD i 0) :
    (processUART now st (0xAA :: (p.set i y ++ [xorBytes p, 0x55]))).packetCount
      = st.packetCount ∧
    (processUART now st (0xAA :: (p.set i y ++ [xorBytes p, 0x55]))).dataReceived
      = st.dataReceived ∧
    (processUART now st (0xAA :: (p.set i y ++ [xorBytes p, 0x55]))).sensorData
      = st.sensorData ∧
    (processUART now st (0xAA :: (p.set i y ++ [xorBytes p, 0x55]))).healthData
      = st.healthData := by
  have hlen : (p.set i y).length = 31 := by rw [List.length_set, hp]
  by_cases hin : 0xAA ∈ p.set i y ++ [xorBytes p, 0x55]
  · obtain ⟨⟨h1, h2, -, h4, h5, -⟩, -⟩ := processUART_inner_start now st
      (p.set i y ++ [xorBytes p, 0x55]) (by simp [hlen]) hin
    exact ⟨h4, h2, h1, h5⟩
  · have hAA : ∀ b ∈ p.set i y, b ≠ 0xAA := by
      intro b hb hb'
      exact hin (List.mem_append_left _ (hb' ▸ hb))
    have hc : xorBytes p ≠ 0xAA := by
      intro h
      exact hin (List.mem_append_right _ (by simp [h]))
    have hx : ¬ ((0x55 : Nat) = 0x55 ∧ xorBytes (p.set i y) = xorBytes p) := by
      intro h
      exact xorBytes_set_ne p i y (by omega) hy h.2
    rw [processUART_frame now st (p.set i y) (xorBytes p) 0x55 hlen hAA hc (by decide),
      if_neg hx]
    simp [rejectedState]

/-- The witness of C3: the first payload byte of the all-zero frame is replaced by 1. -/
theorem C3_corrupted_payload_rejected_witness :
    (processUART 0 initState
      (0xAA :: ((List.replicate 31 0).set 0 1 ++ [xorBytes (List.replicate 31 0), 0x55]))).packetCount
      = initState.packetCount ∧
    (processUART 0 initState
      (0xAA :: ((List.replicate 31 0).set 0 1 ++ [xorBytes (List.replicate 31 0), 0x55]))).dataReceived
      = initState.dataReceived ∧
    (processUART 0 initState
      (0xAA :: ((List.replicate 31 0).set 0 1 ++ [xorBytes (List.replicate 31 0), 0x55]))).sensorData
      = initState.sensorData ∧
    (processUART 0 initState
      (0xAA :: ((List.replicate 31 0).set 0 1 ++ [xorBytes (List.replicate 31 0), 0x55]))).healthData
      = initState.healthData :=
  C3_corrupted_payload_rejected 0 initState (List.replicate 31 0) 0 1 rfl
    (by decide) (by decide)

/-- C5, as stated, fails: the stream frame of a pulse sample of 85.0 BPM (float bits
0x42AA0000, so the value holds the byte 0xAA) has a correct checksum, yet the idle
decoder emits no StreamSample and is left with both capture flags set. -/
theorem C5_counterexample :
    (streamFrame 4 0 0 0xAA 0x42 0 0 0 0).length = 12 ∧
    initState.receivingPacket = false ∧ initState.receivingStream = false ∧
    (processUART 0 initState (streamFrame 4 0 0 0xAA 0x42 0 0 0 0)).currentStreamSensor ≠ 4 ∧
    (processUART 0 initState (streamFrame 4 0 0 0xAA 0x42 0 0 0 0)).latestStreamValue
      ≠ le32 0 0 0xAA 0x42 ∧
    (processUART 0 initState (streamFrame 4 0 0 0xAA 0x42 0 0 0 0)).receivingStream = true := by
  decide

/-- C5, amended: every 12-byte stream frame `0xCC, t, v0..v3, r0..r3, c, 0x55` with `c`
the XOR of the nine bytes before it, with neither 0xAA nor 0xCC among
`t, v0..v3, r0..r3, c` and with a value that the live label of the sensor type can show
(`updateLiveLabel_defined`), fed to the idle decoder (it is enough that no full packet
is being captured), emits one StreamSample: the decoder with its label code has a
defined effect, and afterwards `currentStreamSensor = t`, `latestStreamValue` is the
float with the little-endian bytes `v0..v3` and `receivingStream = false`. -/
theorem C5_stream_frame_decoded (now : Nat) (st : State)
    (t v0 v1 v2 v3 r0 r1 r2 r3 : Nat) (hrp : st.receivingPacket = false)
    (hclean : ∀ b ∈ [t, v0, v1, v2, v3, r0, r1, r2, r3,
      xorBytes [t, v0, v1, v2, v3, r0, r1, r2, r3]], b ≠ 0xAA ∧ b ≠ 0xCC)
    (hlabel : updateLiveLabel_defined t (le32 v0 v1 v2 v3) = true) :
    ∃ st1, processUARTUB now st (streamFrame t v0 v1 v2 v3 r0 r1 r2 r3) = some st1 ∧
      st1.currentStreamSensor = (t : Int) ∧
      st1.latestStreamValue = le32 v0 v1 v2 v3 ∧
      st1.receivingStream = false := by
  refine ⟨processUART now st (streamFrame t v0 v1 v2 v3 r0 r1 r2 r3), ?_, ?_⟩
  · rw [processUARTUB_streamFrame_clean now st t v0 v1 v2 v3 r0 r1 r2 r3 hrp hclean, hlabel]
    rfl
  · rw [processUART_streamFrame_clean now st t v0 v1 v2 v3 r0 r1 r2 r3 hrp hclean]
    exact ⟨rfl, rfl, rfl⟩

/-- The witness of C5: a weight sample of 70.5 kg (float bits 0x428D0000). -/
theorem C5_stream_frame_decoded_witness :
    ∃ st1, processUARTUB 0 initState (streamFrame 2 0 0 0x8D 0x42 0 0 0 0) = some st1 ∧
      st1.currentStreamSensor = ((2 : Nat) : Int) ∧
      st1.latestStreamValue = le32 0 0 0x8D 0x42 ∧
      st1.receivingStream = false :=
  C5_stream_frame_decoded 0 initState 2 0 0 0x8D 0x42 0 0 0 0 rfl (by decide) (by decide)

/-- C6 at its failing input, the test case of the specification: StreamSample(2, 70.5)
must not affect the height session, yet after the frame of this weight sample is
decoded (`currentStreamSensor = 2`), the CAPTURE callback of the height session stores
70.5 (float bits 0x428D0000) as the height, where it stores 0 without the sample. The
callback never reads `currentStreamSensor`. -/
theorem C6_failing_input :
    (captureButtonClickedUB 1 initState).map (fun st => st.healthData.height)
      = some 0 ∧
    (processUARTUB 0 initState (streamFrame 2 0 0 0x8D 0x42 0 0 0 0)).map
      (fun st => (st.currentStreamSensor, st.latestStreamValue)) = some (2, 0x428D0000) ∧
    ((processUARTUB 0 initState (streamFrame 2 0 0 0x8D 0x42 0 0 0 0)).bind
      (captureButtonClickedUB 1)).map (fun st => st.healthData.height)
      = some 0x428D0000 := by
  decide

/-- C7 at its failing input: s = 1 and v = 2 ^ 120 (float bits 0x7B800000). After
begin() on the idle height session has written 0x05, 1, the valid stream frame of the
sample (1, v) is received; its last byte makes `updateLiveLabel` render v with
`dtostrf(v, 5, 1, buf)`, 40 bytes into `char buf[32]`: the effect is undefined, and the
capture that should store v is not reached in a defined state. -/
theorem C7_failing_input :
    (startButtonClicked 1 initState).tx = [0x05, 1] ∧
    streamFrame 1 0 0 0x80 0x7B 0 0 0 0
      = [0xCC, 1, 0, 0, 0x80, 0x7B, 0, 0, 0, 0, 0xFA, 0x55] ∧
    f32_gt_zero 0x7B800000 = true ∧
    dtostrf_size 0x7B800000 5 = 40 ∧
    (processUARTUB 0 (startButtonClicked 1 initState)
      (streamFrame 1 0 0 0x80 0x7B 0 0 0 0)).isNone = true := by
  decide

/-- C8: when the latest-value slot holds no valid sample (it is zero, as after start-up,
or any value that is at most zero), capture() on each session s in 1..4 stores 0 in the
field of s, sets the measured flag of s and sets `measurements_done[s]`. -/
theorem C8_capture_without_sample (ovf : Nat → Int) (st : State)
    (h : f32_le_zero st.latestStreamValue = true) :
    ((captureButtonClicked ovf 1 st).healthData.height = 0 ∧
      (captureButtonClicked ovf 1 st).healthData.height_measured = true ∧
      (captureButtonClicked ovf 1 st).measurements_done 1 = true) ∧
    ((captureButtonClicked ovf 2 st).healthData.weight = 0 ∧
      (captureButtonClicked ovf 2 st).healthData.weight_measured = true ∧
      (captureButtonClicked ovf 2 st).measurements_done 2 = true) ∧
    ((captureButtonClicked ovf 3 st).healthData.temperature = 0 ∧
      (captureButtonClicked ovf 3 st).healthData.temp_measured = true ∧
      (captureButtonClicked ovf 3 st).measurements_done 3 = true) ∧
    ((captureButtonClicked ovf 4 st).healthData.heart_rate = 0 ∧
      (captureButtonClicked ovf 4 st).healthData.hr_measured = true ∧
      (captureButtonClicked ovf 4 st).measurements_done 4 = true) := by
  have hc := capturedValue_of_le_zero st h
  have h1 := captureButtonClicked_height ovf st
  have h2 := captureButtonClicked_weight ovf st
  have h3 := captureButtonClicked_temperature ovf st
  have h4 := captureButtonClicked_heart_rate ovf st
  rw [hc] at h1 h2 h3
  rw [hc, f32_toInt_zero] at h4
  exact ⟨⟨h1.1, h1.2, captureButtonClicked_done ovf 1 st⟩,
    ⟨h2.1, h2.2, captureButtonClicked_done ovf 2 st⟩,
    ⟨h3.1, h3.2, captureButtonClicked_done ovf 3 st⟩,
    ⟨h4.1, h4.2, captureButtonClicked_done ovf 4 st⟩⟩

/-- The witness of C8: the state after start-up, where no sample was ever decoded. -/
theorem C8_capture_without_sample_witness :
    f32_le_zero initState.latestStreamValue = true ∧
    ((captureButtonClicked ovfZero 2 initState).healthData.weight = 0 ∧
      (captureButtonClicked ovfZero 2 initState).healthData.weight_measured = true ∧
      (captureButtonClicked ovfZero 2 initState).measurements_done 2 = true) :=
  ⟨by decide, (C8_capture_without_sample ovfZero initState (by decide)).2.1⟩

/-- C9: there is no escaping. A full-packet frame with a correct checksum in which a
payload byte or the checksum byte is 0xAA, fed to the decoder, emits no FullPacket
event and leaves `receivingPacket` true; a stream frame with a correct checksum in which
one of the bytes 1..10 is 0xAA or 0xCC, fed to the idle decoder, emits no StreamSample:
`latestStreamValue` and `currentStreamSensor` are unchanged. -/
theorem C9_no_escaping (now : Nat) (st : State) :
    (∀ p : List Nat, p.length = 31 → (0xAA ∈ p ∨ xorBytes p = 0xAA) →
      (processUART now st (fullFrame p)).packetCount = st.packetCount ∧
      (processUART now st (fullFrame p)).dataReceived = st.dataReceived ∧
      (processUART now st (fullFrame p)).sensorData = st.sensorData ∧
      (processUART now st (fullFrame p)).healthData = st.healthData ∧
      (processUART now st (fullFrame p)).receivingPacket = true) ∧
    (∀ t v0 v1 v2 v3 r0 r1 r2 r3 : Nat, st.receivingPacket = false →
      (∃ b ∈ [t, v0, v1, v2, v3, r0, r1, r2, r3,
        xorBytes [t, v0, v1, v2, v3, r0, r1, r2, r3]], b = 0xAA ∨ b = 0xCC) →
      (processUART now st (streamFrame t v0 v1 v2 v3 r0 r1 r2 r3)).latestStreamValue
        = st.latestStreamValue ∧
      (processUART now st (streamFrame t v0 v1 v2 v3 r0 r1 r2 r3)).currentStreamSensor
        = st.currentStreamSensor) := by
  constructor
  · intro p hp hin
    have hmem : 0xAA ∈ p ++ [xorBytes p, 0x55] := by
      rcases hin with h | h
      · exact List.mem_append_left _ h
      · exact List.mem_append_right _ (by simp [h])
    obtain ⟨⟨h1, h2, -, h4, h5, -⟩, hr⟩ := processUART_inner_start now st
      (p ++ [xorBytes p, 0x55]) (by simp [hp]) hmem
    exact ⟨h4, h2, h1, h5, hr⟩
  · intro t v0 v1 v2 v3 r0 r1 r2 r3 hrp hex
    obtain ⟨-, -, -, -, -, h6, h7, -⟩ := processUART_stream_inner_start now st
      [t, v0, v1, v2, v3, r0, r1, r2, r3, xorBytes [t, v0, v1, v2, v3, r0, r1, r2, r3]] 0x55
      hrp (by simp) hex
    exact ⟨h6, h7⟩

/-- The witness of C9: a packet whose heart rate is 170 BPM and a pulse sample of
85.0 BPM, both holding the byte 0xAA. -/
theorem C9_no_escaping_witness :
    ((processUART 0 initState (fullFrame payloadHeartRate170)).packetCount
        = initState.packetCount ∧
      (processUART 0 initState (fullFrame payloadHeartRate170)).receivingPacket = true) ∧
    ((processUART 0 initState (streamFrame 4 0 0 0xAA 0x42 0 0 0 0)).latestStreamValue
        = initState.latestStreamValue ∧
      (processUART 0 initState (streamFrame 4 0 0 0xAA 0x42 0 0 0 0)).currentStreamSensor
        = initState.currentStreamSensor) := by
  have h1 := (C9_no_escaping 0 initState).1 payloadHeartRate170 rfl (by decide)
  have h2 := (C9_no_escaping 0 initState).2 4 0 0 0xAA 0x42 0 0 0 0 rfl (by decide)
  exact ⟨⟨h1.1, h1.2.2.2.2⟩, h2⟩

/-- C10: in every decoder state a byte 0xAA emits no event and restarts full-packet
capture from that byte: afterwards `receivingPacket` is true, `bufferIndex` is 1 and
`uartBuffer[0]` is 0xAA, while whatever a FullPacket or a StreamSample event writes is
unchanged. The abandoned capture has no influence on what follows: had `uartBuffer`,
`bufferIndex` and `receivingPacket` been any others, the state after the byte 0xAA and
any further bytes would be the same in every variable but `uartBuffer`. -/
theorem C10_start_byte_restarts (now : Nat) (st : State) :
    (processByte now st 0xAA).receivingPacket = true ∧
    (processByte now st 0xAA).bufferIndex = 1 ∧
    (processByte now st 0xAA).uartBuffer 0 = 0xAA ∧
    (processByte now st 0xAA).packetCount = st.packetCount ∧
    (processByte now st 0xAA).dataReceived = st.dataReceived ∧
    (processByte now st 0xAA).lastDataTime = st.lastDataTime ∧
    (processByte now st 0xAA).sensorData = st.sensorData ∧
    (processByte now st 0xAA).healthData = st.healthData ∧
    (processByte now st 0xAA).latestStreamValue = st.latestStreamValue ∧
    (processByte now st 0xAA).currentStreamSensor = st.currentStreamSensor ∧
    (∀ (buf : Nat → Nat) (idx : Nat) (rp : Bool) (l : List Nat), ∃ B,
      processUART now
          { st with uartBuffer := buf, bufferIndex := idx, receivingPacket := rp } (0xAA :: l)
        = { processUART now st (0xAA :: l) with uartBuffer := B }) := by
  have hstep : (processByte now st 0xAA).uartBuffer 0 = 0xAA := by
    rw [processByte_start]
    simp [store]
  obtain ⟨e1, e2, e3, e4, e5, e6, e7, -, -⟩ := processByte_start_noEvent now st
  refine ⟨processByte_start_receiving now st, by rw [processByte_start], hstep,
    e4, e2, e3, e1, e5, e6, e7, ?_⟩
  intro buf idx rp l
  rw [processUART_cons, processUART_cons, processByte_start, processByte_start]
  refine processUART_stale_cells now l
    { st with receivingPacket := true, uartBuffer := store st.uartBuffer 0 0xAA, bufferIndex := 1 }
    (store buf 0 0xAA) ?_
  intro _
  refine ⟨by simp, ?_⟩
  intro j hj
  have hj0 : j = 0 := by simp only at hj; omega
  subst hj0
  simp [store]

/-! ## Lemmas on the float model -/

theorem floorLog2Aux_spec (fuel n : Nat) (h : n ≤ fuel) (hn : 1 ≤ n) :
    2 ^ floorLog2Aux fuel n ≤ n ∧ n < 2 ^ (floorLog2Aux fuel n + 1) := by
  induction fuel generalizing n with
  | zero => omega
  | succ fuel ih =>
    rw [floorLog2Aux]
    by_cases h2 : 2 ≤ n
    · rw [if_pos h2]
      obtain ⟨a, b⟩ := ih (n / 2) (by omega) (by omega)
      rw [Nat.pow_succ, Nat.pow_succ]
      constructor <;> omega
    · rw [if_neg h2]
      have : n = 1 := by omega
      subst this
      simp

/-- The function `floorLog2` is the integer binary logarithm: `2 ^ floorLog2 n ≤ n` and
`n < 2 ^ (floorLog2 n + 1)` for a positive `n`. -/
theorem floorLog2_spec (n : Nat) (hn : 1 ≤ n) :
    2 ^ floorLog2 n ≤ n ∧ n < 2 ^ (floorLog2 n + 1) :=
  floorLog2Aux_spec n n (Nat.le_refl n) hn

/-- The quantum of the result of `roundNearestEven` does not depend on the rounding
direction. -/
theorem roundNearestEven_snd (p : Nat) (qmin : Int) (n d : Nat) :
    (roundNearestEven p qmin n d).2 =
      max ((if d * 2 ^ ((floorLog2 n : Int) - (floorLog2 d : Int)).toNat
              ≤ n * 2 ^ (-((floorLog2 n : Int) - (floorLog2 d : Int))).toNat
            then (floorLog2 n : Int) - (floorLog2 d : Int)
            else (floorLog2 n : Int) - (floorLog2 d : Int) - 1) - ((p : Int) - 1)) qmin := by
  simp only [roundNearestEven]
  split_ifs <;> rfl

/-- The shape of the result of `roundNearestEven`: the quotient of the scaled numerator
by the scaled denominator, or one more, at the quantum `q`. -/
theorem roundNearestEven_shape (p : Nat) (qmin : Int) (n d : Nat) :
    ∃ q : Int,
      roundNearestEven p qmin n d =
        (if d * 2 ^ q.toNat < 2 * ((n * 2 ^ (-q).toNat) % (d * 2 ^ q.toNat)) ∨
            (2 * ((n * 2 ^ (-q).toNat) % (d * 2 ^ q.toNat)) = d * 2 ^ q.toNat ∧
              ((n * 2 ^ (-q).toNat) / (d * 2 ^ q.toNat)) % 2 = 1)
          then ((n * 2 ^ (-q).toNat) / (d * 2 ^ q.toNat) + 1, q)
          else ((n * 2 ^ (-q).toNat) / (d * 2 ^ q.toNat), q)) :=
  ⟨_, rfl⟩

/-- Rounding a quotient of natural numbers to the nearest integer, ties to even, is off
by at most one half. -/
theorem nearest_quotient (N D : Nat) (hD : 0 < D) :
    2 * ((if D < 2 * (N % D) ∨ (2 * (N % D) = D ∧ (N / D) % 2 = 1) then N / D + 1
        else N / D) * D) ≤ 2 * N + D ∧
    2 * N ≤ 2 * ((if D < 2 * (N % D) ∨ (2 * (N % D) = D ∧ (N / D) % 2 = 1) then N / D + 1
        else N / D) * D) + D := by
  have hdiv : D * (N / D) + N % D = N := Nat.div_add_mod N D
  have hmod : N % D < D := Nat.mod_lt N hD
  have hcomm : N / D * D = D * (N / D) := Nat.mul_comm _ _
  have hsucc : (N / D + 1) * D = D * (N / D) + D := by rw [Nat.add_mul, hcomm, Nat.one_mul]
  split_ifs with h
  · rw [hsucc]
    rcases h with h | h
    · constructor <;> omega
    · constructor <;> omega
  · rw [hcomm]
    have h' : ¬ D < 2 * (N % D) := fun hlt => h (Or.inl hlt)
    constructor <;> omega

/-- The result `m * 2 ^ q` of `roundNearestEven` is within half a quantum `2 ^ q` of the
rational `n / d`: with both sides multiplied by the common denominator,
`|m * den - num| ≤ den / 2`. -/
theorem roundNearestEven_half_quantum (p : Nat) (qmin : Int) (n d : Nat) (hd : 0 < d) :
    2 * ((roundNearestEven p qmin n d).1 * (d * 2 ^ (roundNearestEven p qmin n d).2.toNat))
      ≤ 2 * (n * 2 ^ (-(roundNearestEven p qmin n d).2).toNat)
        + d * 2 ^ (roundNearestEven p qmin n d).2.toNat ∧
    2 * (n * 2 ^ (-(roundNearestEven p qmin n d).2).toNat)
      ≤ 2 * ((roundNearestEven p qmin n d).1 * (d * 2 ^ (roundNearestEven p qmin n d).2.toNat))
        + d * 2 ^ (roundNearestEven p qmin n d).2.toNat := by
  obtain ⟨q, hq⟩ := roundNearestEven_shape p qmin n d
  have hD : 0 < d * 2 ^ q.toNat := Nat.mul_pos hd (Nat.pow_pos (by decide))
  have key := nearest_quotient (n * 2 ^ (-q).toNat) (d * 2 ^ q.toNat) hD
  rw [hq]
  split_ifs with h
  · rw [if_pos h] at key
    exact key
  · rw [if_neg h] at key
    exact key

/-- The exponent that `roundNearestEven` derives from the leading bits of `n` and `d`
is the one of the quotient: `2 ^ e ≤ n / d < 2 ^ (e + 1)`, written without division; the
quantum of the result is `2 ^ (e - (p - 1))`, or `2 ^ qmin` if that is larger. -/
theorem roundNearestEven_quantum (p : Nat) (qmin : Int) (n d : Nat) (hn : 0 < n)
    (hd : 0 < d) :
    ∃ e : Int, (roundNearestEven p qmin n d).2 = max (e - ((p : Int) - 1)) qmin ∧
      d * 2 ^ e.toNat ≤ n * 2 ^ (-e).toNat ∧
      n * 2 ^ (-(e + 1)).toNat < d * 2 ^ (e + 1).toNat := by
  obtain ⟨hn1, hn2⟩ := floorLog2_spec n hn
  obtain ⟨hd1, hd2⟩ := floorLog2_spec d hd
  rw [roundNearestEven_snd]
  generalize floorLog2 n = ln at hn1 hn2 ⊢
  generalize floorLog2 d = ld at hd1 hd2 ⊢
  rcases Nat.le_total ld ln with hle | hle
  · obtain ⟨k, rfl⟩ := Nat.exists_eq_add_of_le hle
    have e0 : ((ld + k : Nat) : Int) - (ld : Int) = (k : Int) := by omega
    rw [e0]
    have hk1 : ((k : Int)).toNat = k := by omega
    have hk2 : (-(k : Int)).toNat = 0 := by omega
    have hp : 2 ^ (ld + k) = 2 ^ ld * 2 ^ k := Nat.pow_add 2 ld k
    have hp1 : 2 ^ (ld + k + 1) = 2 ^ ld * (2 ^ k * 2) := by
      rw [Nat.pow_succ, hp, Nat.mul_assoc]
    rw [hk1, hk2, Nat.pow_zero, Nat.mul_one]
    by_cases ht : d * 2 ^ k ≤ n
    · refine ⟨(k : Int), by rw [if_pos ht], ?_, ?_⟩
      · rw [hk1, hk2, Nat.pow_zero, Nat.mul_one]
        exact ht
      · have a1 : (-((k : Int) + 1)).toNat = 0 := by omega
        have a2 : ((k : Int) + 1).toNat = k + 1 := by omega
        rw [a1, a2, Nat.pow_zero, Nat.mul_one, Nat.pow_succ]
        calc n < 2 ^ (ld + k + 1) := hn2
          _ = 2 ^ ld * (2 ^ k * 2) := hp1
          _ ≤ d * (2 ^ k * 2) := Nat.mul_le_mul_right _ hd1
    · refine ⟨(k : Int) - 1, by rw [if_neg ht], ?_, ?_⟩
      · cases k with
        | zero =>
          have a1 : (((0 : Nat) : Int) - 1).toNat = 0 := by omega
          have a2 : (-(((0 : Nat) : Int) - 1)).toNat = 1 := by omega
          rw [a1, a2, Nat.pow_zero, Nat.mul_one, Nat.pow_one]
          rw [Nat.add_zero] at hn1
          rw [Nat.pow_succ] at hd2
          omega
        | succ k =>
          have a1 : (((k + 1 : Nat) : Int) - 1).toNat = k := by omega
          have a2 : (-(((k + 1 : Nat) : Int) - 1)).toNat = 0 := by omega
          rw [a1, a2, Nat.pow_zero, Nat.mul_one]
          have hq : 2 ^ (ld + (k + 1)) = 2 ^ (ld + 1) * 2 ^ k := by
            rw [← Nat.pow_add]
            congr 1
            omega
          calc d * 2 ^ k ≤ 2 ^ (ld + 1) * 2 ^ k := Nat.mul_le_mul_right _ (Nat.le_of_lt hd2)
            _ = 2 ^ (ld + (k + 1)) := hq.symm
            _ ≤ n := hn1
      · have a1 : (-((k : Int) - 1 + 1)).toNat = 0 := by omega
        have a2 : ((k : Int) - 1 + 1).toNat = k := by omega
        rw [a1, a2, Nat.pow_zero, Nat.mul_one]
        omega
  · obtain ⟨k, rfl⟩ := Nat.exists_eq_add_of_le hle
    have e0 : ((ln : Nat) : Int) - ((ln + k : Nat) : Int) = -(k : Int) := by omega
    rw [e0]
    have hk1 : (-(k : Int)).toNat = 0 := by omega
    have hk2 : (- -(k : Int)).toNat = k := by omega
    have hp : 2 ^ (ln + k) = 2 ^ ln * 2 ^ k := Nat.pow_add 2 ln k
    rw [hk1, hk2, Nat.pow_zero, Nat.mul_one]
    by_cases ht : d ≤ n * 2 ^ k
    · refine ⟨-(k : Int), by rw [if_pos ht], ?_, ?_⟩
      · rw [hk1, hk2, Nat.pow_zero, Nat.mul_one]
        exact ht
      · cases k with
        | zero =>
          have a1 : (-(-((0 : Nat) : Int) + 1)).toNat = 0 := by omega
          have a2 : (-((0 : Nat) : Int) + 1).toNat = 1 := by omega
          rw [a1, a2, Nat.pow_zero, Nat.mul_one, Nat.pow_one]
          rw [Nat.add_zero] at hd1
          rw [Nat.pow_succ] at hn2
          omega
        | succ k =>
          have a1 : (-(-((k + 1 : Nat) : Int) + 1)).toNat = k := by omega
          have a2 : (-((k + 1 : Nat) : Int) + 1).toNat = 0 := by omega
          rw [a1, a2, Nat.pow_zero, Nat.mul_one]
          have hq : 2 ^ (ln + (k + 1)) = 2 ^ (ln + 1) * 2 ^ k := by
            rw [← Nat.pow_add]
            congr 1
            omega
          calc n * 2 ^ k < 2 ^ (ln + 1) * 2 ^ k :=
                Nat.mul_lt_mul_of_pos_right hn2 (Nat.pow_pos (by decide))
            _ = 2 ^ (ln + (k + 1)) := hq.symm
            _ ≤ d := hd1
    · refine ⟨-(k : Int) - 1, by rw [if_neg ht], ?_, ?_⟩
      · have a1 : (-(k : Int) - 1).toNat = 0 := by omega
        have a2 : (-(-(k : Int) - 1)).toNat = k + 1 := by omega
        rw [a1, a2, Nat.pow_zero, Nat.mul_one, Nat.pow_succ]
        have hq : 2 ^ (ln + k + 1) = 2 ^ ln * (2 ^ k * 2) := by
          rw [Nat.pow_succ, hp, Nat.mul_assoc]
        calc d ≤ 2 ^ (ln + k + 1) := Nat.le_of_lt hd2
          _ = 2 ^ ln * (2 ^ k * 2) := hq
          _ ≤ n * (2 ^ k * 2) := Nat.mul_le_mul_right _ hn1
      · have a1 : (-(-(k : Int) - 1 + 1)).toNat = k := by omega
        have a2 : (-(k : Int) - 1 + 1).toNat = 0 := by omega
        rw [a1, a2, Nat.pow_zero, Nat.mul_one]
        omega

/-! ## Lemmas on comma-separated rows -/

theorem splitComma_length (l : List Char) : (splitComma l).length = l.count ',' + 1 := by
  induction l with
  | nil => rfl
  | cons c cs ih =>
    by_cases hc : c = ','
    · subst hc
      simp [splitComma, ih]
    · have hcount : (c :: cs).count ',' = cs.count ',' := by
        rw [List.count_cons]
        simp [hc]
      rw [hcount, ← ih]
      simp only [splitComma, hc, if_false]
      cases h : splitComma cs with
      | nil => rw [h] at ih; simp at ih
      | cons f fs => simp

theorem splitComma_field (f rest : List Char) (hf : ',' ∉ f) :
    splitComma (f ++ ',' :: rest) = f :: splitComma rest := by
  induction f with
  | nil => simp [splitComma]
  | cons c f ih =>
    have hc : c ≠ ',' := fun h => hf (by simp [h])
    have hf' : ',' ∉ f := fun h => hf (by simp [h])
    rw [List.cons_append, splitComma, if_neg hc, ih hf']

theorem splitComma_last (f : List Char) (hf : ',' ∉ f) : splitComma f = [f] := by
  induction f with
  | nil => rfl
  | cons c f ih =>
    have hc : c ≠ ',' := fun h => hf (by simp [h])
    have hf' : ',' ∉ f := fun h => hf (by simp [h])
    rw [splitComma, if_neg hc, ih hf']

/-- Splitting at commas undoes joining with commas when no field holds a comma. -/
theorem splitComma_joinComma (fs : List (List Char)) (hne : fs ≠ [])
    (hf : ∀ f ∈ fs, ',' ∉ f) : splitComma (joinComma fs) = fs := by
  induction fs with
  | nil => exact absurd rfl hne
  | cons f fs ih =>
    cases fs with
    | nil => exact splitComma_last f (hf f (by simp))
    | cons g gs =>
      rw [joinComma, splitComma_field f _ (hf f (by simp)),
        ih (by simp) (fun x hx => hf x (by simp [hx]))]

/-- The row of `toCSV` is its twelve fields joined with commas. -/
theorem toCSV_data (fmtF : Nat → String) (fmtI : Int → String) (hd : HealthData) :
    (toCSV fmtF fmtI hd).data = joinComma (csvFields fmtF fmtI hd) := by
  simp [toCSV, csvFields, joinComma, String.data_append]

theorem fieldLoop_field (line seg rest : List Char) (i start idx : Nat)
    (f : Nat → List Char) (hseg : ',' ∉ seg) :
    fieldLoop line (seg ++ rest) i start idx f
      = fieldLoop line rest (i + seg.length) start idx f := by
  induction seg generalizing i with
  | nil => rfl
  | cons c seg ih =>
    have hc : c ≠ ',' := fun h => hseg (by simp [h])
    have hs : ',' ∉ seg := fun h => hseg (by simp [h])
    rw [List.cons_append, fieldLoop, if_neg hc, ih (i + 1) hs, List.length_cons,
      show i + 1 + seg.length = i + (seg.length + 1) by omega]

theorem fieldLoop_comma (line rest : List Char) (i start idx : Nat) (f : Nat → List Char) :
    fieldLoop line (',' :: rest) i start idx f =
      if idx + 1 ≥ 11 then (i + 1, idx + 1, store f idx (substring line start i))
      else fieldLoop line rest (i + 1) (i + 1) (idx + 1)
        (store f idx (substring line start i)) := by
  rw [fieldLoop, if_pos rfl]

theorem substring_middle (pre g rest : List Char) :
    substring (pre ++ (g ++ rest)) pre.length (pre.length + g.length) = g := by
  rw [substring, List.drop_left, Nat.add_sub_cancel_left, List.take_left]

/-- The field loop of the data view, run on fields joined with commas none of which
holds a comma, the first of them to be stored at `idx` and the last one at 11: the
fields end up in the cells `idx .. 11`. -/
theorem fieldLoop_join (gs : List (List Char)) :
    ∀ (g pre : List Char) (idx : Nat) (f : Nat → List Char),
      (∀ x ∈ g :: gs, ',' ∉ x) → idx + gs.length = 11 →
      store (fieldLoop (pre ++ joinComma (g :: gs)) (joinComma (g :: gs))
          pre.length pre.length idx f).2.2
        (fieldLoop (pre ++ joinComma (g :: gs)) (joinComma (g :: gs))
          pre.length pre.length idx f).2.1
        ((pre ++ joinComma (g :: gs)).drop
          (fieldLoop (pre ++ joinComma (g :: gs)) (joinComma (g :: gs))
            pre.length pre.length idx f).1)
        = storeSeq f idx (g :: gs) := by
  induction gs with
  | nil =>
    intro g pre idx f hx hidx
    have hg : ',' ∉ g := hx g (by simp)
    have h := fieldLoop_field (pre ++ g) g [] pre.length pre.length idx f hg
    rw [List.append_nil] at h
    simp only [joinComma, h, fieldLoop, List.drop_left]
    rfl
  | cons g' gs ih =>
    intro g pre idx f hx hidx
    have hg : ',' ∉ g := hx g (by simp)
    simp only [List.length_cons] at hidx
    have hjoin : joinComma (g :: g' :: gs) = g ++ ',' :: joinComma (g' :: gs) := rfl
    have hsub : substring (pre ++ (g ++ ',' :: joinComma (g' :: gs))) pre.length
        (pre.length + g.length) = g := substring_middle pre g _
    have hline : pre ++ (g ++ ',' :: joinComma (g' :: gs))
        = (pre ++ g ++ [',']) ++ joinComma (g' :: gs) := by simp
    have hlen : (pre ++ g ++ [',']).length = pre.length + g.length + 1 := by
      simp only [List.length_append, List.length_cons, List.length_nil]
    rw [hjoin, fieldLoop_field _ g _ pre.length pre.length idx f hg, fieldLoop_comma, hsub]
    by_cases hbreak : idx + 1 ≥ 11
    · have hgs : gs = [] := by
        cases gs with
        | nil => rfl
        | cons a b => simp only [List.length_cons] at hidx; omega
      subst hgs
      rw [if_pos hbreak]
      have hd : List.drop (pre.length + g.length + 1) (pre ++ (g ++ ',' :: g')) = g' := by
        rw [← hlen, show pre ++ (g ++ ',' :: g') = (pre ++ g ++ [',']) ++ g' by simp,
          List.drop_left]
      show store (store f idx g) (idx + 1)
        (List.drop (pre.length + g.length + 1) (pre ++ (g ++ ',' :: g'))) = _
      rw [hd]
      rfl
    · rw [if_neg hbreak]
      have := ih g' (pre ++ g ++ [',']) (idx + 1) (store f idx g)
        (fun x hx' => hx x (by simp only [List.mem_cons] at hx' ⊢; tauto)) (by omega)
      rw [hlen, ← hline] at this
      rw [this]
      rfl

theorem storeSeq_below {α : Type} (l : List α) (a : Nat → α) (i j : Nat) (h : j < i) :
    storeSeq a i l j = a j := by
  induction l generalizing a i with
  | nil => rfl
  | cons b l ih =>
    rw [storeSeq, ih _ _ (by omega), store_other _ _ _ _ (by omega)]

theorem storeSeq_get {α : Type} (l : List α) (a : Nat → α) (i k : Nat) (d : α)
    (h : k < l.length) : storeSeq a i l (i + k) = l.getD k d := by
  induction l generalizing a i k with
  | nil => simp at h
  | cons b l ih =>
    cases k with
    | zero =>
      rw [storeSeq, storeSeq_below _ _ _ _ (by omega)]
      simp [store]
    | succ k =>
      simp only [List.length_cons] at h
      rw [storeSeq, show i + (k + 1) = i + 1 + k by omega, ih _ _ _ (by omega)]
      simp

/-- The data view recovers twelve comma-free fields from their row. -/
theorem splitFields_joinComma (fs : List (List Char)) (hlen : fs.length = 12)
    (hf : ∀ x ∈ fs, ',' ∉ x) (k : Nat) (hk : k < 12) :
    splitFields (joinComma fs) k = fs.getD k [] := by
  cases fs with
  | nil => simp at hlen
  | cons g gs =>
    have h := fieldLoop_join gs g [] 0 (fun _ => []) hf
      (by simp only [List.length_cons] at hlen; omega)
    simp only [List.nil_append, List.length_nil] at h
    rw [splitFields, h]
    have := storeSeq_get (g :: gs) (fun _ => []) 0 k [] (by rw [hlen]; exact hk)
    rw [Nat.zero_add] at this
    exact this

/-! ## Lemmas for validation failures and accepted packets -/

theorem xorRange_store_above (buf : Nat → Nat) (start len i v : Nat) (h : start + len ≤ i) :
    xorRange (store buf i v) start len = xorRange buf start len := by
  apply xorRange_congr
  intro j hj
  exact store_other _ _ _ _ (by omega)

/-- The mask test `x & 2^k != 0` reads bit `k`. -/
theorem and_two_pow_ne_zero (x k : Nat) : decide (x &&& 2 ^ k ≠ 0) = x.testBit k := by
  by_cases h : x.testBit k = true
  · rw [h]
    simp only [decide_eq_true_eq]
    intro h0
    have h1 : (x &&& 2 ^ k).testBit k = true := by
      rw [Nat.testBit_and, h, Nat.testBit_two_pow_self]
      rfl
    rw [h0, Nat.zero_testBit] at h1
    exact Bool.false_ne_true h1
  · have hf : x.testBit k = false := by simpa using h
    rw [hf]
    simp only [ne_eq, decide_not, Bool.not_eq_false', decide_eq_true_eq]
    apply Nat.eq_of_testBit_eq
    intro i
    rw [Nat.testBit_and, Nat.zero_testBit, Nat.testBit_two_pow]
    by_cases hik : k = i
    · subst hik
      simp [hf]
    · simp [hik]

theorem streamBuf_get (st : State) (l : List Nat) (k : Nat) (h : k < l.length) :
    streamBuf st l (1 + k) = l.getD k 0 :=
  storeList_get l (store st.streamBuffer 0 0xCC) 1 k h

theorem getD_append_left (l m : List Nat) (k : Nat) (h : k < l.length) :
    (l ++ m).getD k 0 = l.getD k 0 := by
  rw [List.getD_eq_getElem?_getD, List.getD_eq_getElem?_getD, List.getElem?_append_left h]

/-- A start byte 0xCC, nine bytes, a checksum byte and the end marker, none of the ten
inner bytes a start byte, received while no full packet is being captured: the frame is
decoded when the checksum byte is the XOR of the nine bytes and discarded otherwise. -/
theorem processUART_stream_body (now : Nat) (st : State) (body : List Nat) (c : Nat)
    (hrp : st.receivingPacket = false) (hlen : body.length = 9)
    (hA : ∀ b ∈ body ++ [c], b ≠ 0xAA) (hC : ∀ b ∈ body ++ [c], b ≠ 0xCC) :
    processUART now st (0xCC :: (body ++ [c, 0x55])) =
      if xorBytes body = c then
        { st with
          streamBuffer := streamBuf st (body ++ [c, 0x55])
          streamIndex := 12
          receivingStream := false
          latestStreamValue := sampleValue body
          currentStreamSensor := (body.getD 0 0 : Int) }
      else discardedState st (streamBuf st (body ++ [c, 0x55])) := by
  have hl : (body ++ [c]).length = 10 := by simp [hlen]
  have h := processUART_streamFrame now st (body ++ [c]) 0x55 hrp hl hA hC
    (by decide) (by decide)
  have happ : body ++ [c] ++ [0x55] = body ++ [c, 0x55] := by simp
  rw [happ] at h
  have hx : xorRange (streamBuf st (body ++ [c, 0x55])) 1 9 = xorBytes body := by
    rw [xorRange_eq]
    have hm := storeList_map_range_head body [c, 0x55] (store st.streamBuffer 0 0xCC) 1
    rw [hlen] at hm
    exact congrArg xorBytes hm
  have hget : ∀ k, k < 9 → streamBuf st (body ++ [c, 0x55]) (1 + k) = body.getD k 0 := by
    intro k hk
    rw [streamBuf_get st _ k (by simp [hlen]; omega), getD_append_left _ _ _ (by omega)]
  have h10 : streamBuf st (body ++ [c, 0x55]) 10 = c := by
    have := streamBuf_get st (body ++ [c, 0x55]) 9 (by simp [hlen])
    rw [show (1 + 9 : Nat) = 10 from rfl] at this
    rw [this, List.getD_eq_getElem?_getD, List.getElem?_append_right (by omega), hlen]
    rfl
  have h11 : streamBuf st (body ++ [c, 0x55]) 11 = 0x55 := by
    have := streamBuf_get st (body ++ [c, 0x55]) 10 (by simp [hlen])
    rw [show (1 + 10 : Nat) = 11 from rfl] at this
    rw [this, List.getD_eq_getElem?_getD, List.getElem?_append_right (by omega), hlen]
    rfl
  rw [h, hx, h10, h11]
  by_cases hc : xorBytes body = c
  · rw [if_pos ⟨hc, rfl⟩, if_pos hc]
    have e1 := hget 0 (by omega)
    have e2 := hget 1 (by omega)
    have e3 := hget 2 (by omega)
    have e4 := hget 3 (by omega)
    have e5 := hget 4 (by omega)
    simp only [show (1 + 0 : Nat) = 1 from rfl, show (1 + 1 : Nat) = 2 from rfl,
      show (1 + 2 : Nat) = 3 from rfl, show (1 + 3 : Nat) = 4 from rfl,
      show (1 + 4 : Nat) = 5 from rfl] at e1 e2 e3 e4 e5
    simp only [sampleState, sampleValue, e1, e2, e3, e4, e5]
  · rw [if_neg (fun h' => hc h'.1), if_neg hc]

/-! ## The claims C11 to C20 -/

/-- C11: validation failure is silent and atomic. When the 34th byte of a full-packet
capture arrives and the buffered frame fails validation (the end marker at index 33 is
not 0x55, or the XOR of the cells 1..31 differs from the cell 32, or the cell 0 is not
0xAA), `parseUARTPacket`
returns false, `sensorData`, `healthData`, `dataReceived`, `lastDataTime` and
`packetCount` are unchanged and the capture has ended. -/
theorem C11_validation_failure_silent (now : Nat) (st : State) (b : Nat)
    (hrp : st.receivingPacket = true) (hbi : st.bufferIndex = 33) (hb : b ≠ 0xAA)
    (hfail : store st.uartBuffer 33 b 0 ≠ 0xAA ∨ store st.uartBuffer 33 b 33 ≠ 0x55 ∨
      xorRange (store st.uartBuffer 33 b) 1 31 ≠ store st.uartBuffer 33 b 32) :
    (parseUARTPacket
      { st with
        uartBuffer := store st.uartBuffer 33 b
        bufferIndex := 34
        receivingPacket := false }).1 = false ∧
    (processByte now st b).sensorData = st.sensorData ∧
    (processByte now st b).healthData = st.healthData ∧
    (processByte now st b).dataReceived = st.dataReceived ∧
    (processByte now st b).lastDataTime = st.lastDataTime ∧
    (processByte now st b).packetCount = st.packetCount ∧
    (processByte now st b).receivingPacket = false := by
  have hcond : ¬ (store st.uartBuffer 33 b 0 = 0xAA ∧ store st.uartBuffer 33 b 33 = 0x55 ∧
      xorRange (store st.uartBuffer 33 b) 1 31 = store st.uartBuffer 33 b 32) := by
    intro h
    rcases hfail with h1 | h1 | h1
    · exact h1 h.1
    · exact h1 h.2.1
    · exact h1 h.2.2
  constructor
  · rcases hfail with h1 | h1 | h1
    · simp [parseUARTPacket, sizeofSensorData, h1]
    · simp [parseUARTPacket, sizeofSensorData, h1]
    · by_cases h0 : store st.uartBuffer 33 b 0 ≠ 0xAA ∨ store st.uartBuffer 33 b 33 ≠ 0x55
      · simp only [parseUARTPacket, sizeofSensorData]
        rw [if_pos h0]
      · simp only [parseUARTPacket, sizeofSensorData]
        rw [if_neg h0, if_pos h1]
  · rw [processByte_packet_complete now st b hb hrp hbi, if_neg hcond]
    simp [rejectedState]

/-- The witness of C11: after 0xAA and 32 zero bytes, the byte 0x54 arrives where the
end marker 0x55 is due. -/
theorem C11_validation_failure_silent_witness :
    (processByte 0 (processUART 0 initState (0xAA :: List.replicate 32 0)) 0x54).packetCount
      = (processUART 0 initState (0xAA :: List.replicate 32 0)).packetCount ∧
    (processByte 0 (processUART 0 initState (0xAA :: List.replicate 32 0)) 0x54).healthData
      = (processUART 0 initState (0xAA :: List.replicate 32 0)).healthData ∧
    (processByte 0 (processUART 0 initState (0xAA :: List.replicate 32 0)) 0x54).receivingPacket
      = false := by
  have h := C11_validation_failure_silent 0
    (processUART 0 initState (0xAA :: List.replicate 32 0)) 0x54 (by decide) (by decide)
    (by decide) (Or.inr (Or.inl (by decide)))
  exact ⟨h.2.2.2.2.2.1, h.2.2.1, h.2.2.2.2.2.2⟩

/-- C12: a stream capture that completes with a wrong checksum or a wrong end marker
is discarded silently: `latestStreamValue`, `currentStreamSensor` and `healthData` are
unchanged and `receivingStream` is false. In particular, when one of the nine
checksummed bytes of a valid stream frame is replaced by a different byte (0xAA and
0xCC included), the frame emits no StreamSample. -/
theorem C12_stream_failure_silent (now : Nat) (st : State)
    (hrp : st.receivingPacket = false) :
    (∀ b : Nat, st.receivingStream = true → st.streamIndex = 11 → b ≠ 0xAA → b ≠ 0xCC →
      (xorRange (store st.streamBuffer 11 b) 1 9 ≠ store st.streamBuffer 11 b 10 ∨
        store st.streamBuffer 11 b 11 ≠ 0x55) →
      (processByte now st b).latestStreamValue = st.latestStreamValue ∧
      (processByte now st b).currentStreamSensor = st.currentStreamSensor ∧
      (processByte now st b).healthData = st.healthData ∧
      (processByte now st b).receivingStream = false) ∧
    (∀ (body : List Nat) (i y : Nat), body.length = 9 → i < 9 → y ≠ body.getD i 0 →
      (processUART now st (0xCC :: (body.set i y ++ [xorBytes body, 0x55]))).latestStreamValue
        = st.latestStreamValue ∧
      (processUART now st (0xCC :: (body.set i y ++ [xorBytes body, 0x55]))).currentStreamSensor
        = st.currentStreamSensor ∧
      (processUART now st (0xCC :: (body.set i y ++ [xorBytes body, 0x55]))).healthData
        = st.healthData) := by
  constructor
  · intro b hrs hsi hA hC hfail
    have hcond : ¬ (xorRange (store st.streamBuffer 11 b) 1 9 = store st.streamBuffer 11 b 10 ∧
        store st.streamBuffer 11 b 11 = 0x55) := by
      intro h
      rcases hfail with h1 | h1
      · exact h1 h.1
      · exact h1 h.2
    rw [processByte_stream_complete now st b hA hC hrp hrs hsi, if_neg hcond]
    simp [discardedState]
  · intro body i y hlen hi hy
    have hlen' : (body.set i y).length = 9 := by rw [List.length_set, hlen]
    by_cases hin : ∃ x ∈ body.set i y ++ [xorBytes body], x = 0xAA ∨ x = 0xCC
    · have happ : body.set i y ++ [xorBytes body, 0x55]
          = (body.set i y ++ [xorBytes body]) ++ [0x55] := by simp
      obtain ⟨-, -, -, -, h5, h6, h7, -⟩ := processUART_stream_inner_start now st
        (body.set i y ++ [xorBytes body]) 0x55 hrp (by simp [hlen']) hin
      rw [happ]
      exact ⟨h6, h7, h5⟩
    · have hA : ∀ b ∈ body.set i y ++ [xorBytes body], b ≠ 0xAA :=
        fun b hb h => hin ⟨b, hb, Or.inl h⟩
      have hC : ∀ b ∈ body.set i y ++ [xorBytes body], b ≠ 0xCC :=
        fun b hb h => hin ⟨b, hb, Or.inr h⟩
      rw [processUART_stream_body now st (body.set i y) (xorBytes body) hrp hlen' hA hC,
        if_neg (xorBytes_set_ne body i y (by omega) hy)]
      simp [discardedState]

/-- The witness of C12: a capture whose 12th byte is not the end marker, and the frame of
a weight sample of 70.5 whose sensor type byte 2 is replaced by 3. -/
theorem C12_stream_failure_silent_witness :
    ((processByte 0 (processUART 0 initState (0xCC :: List.replicate 10 0)) 0x54).latestStreamValue
        = (processUART 0 initState (0xCC :: List.replicate 10 0)).latestStreamValue ∧
      (processByte 0 (processUART 0 initState (0xCC :: List.replicate 10 0)) 0x54).receivingStream
        = false) ∧
    ((processUART 0 initState
        (0xCC :: ([2, 0, 0, 0x8D, 0x42, 0, 0, 0, 0].set 0 3 ++
          [xorBytes [2, 0, 0, 0x8D, 0x42, 0, 0, 0, 0], 0x55]))).latestStreamValue
        = initState.latestStreamValue ∧
      (processUART 0 initState
        (0xCC :: ([2, 0, 0, 0x8D, 0x42, 0, 0, 0, 0].set 0 3 ++
          [xorBytes [2, 0, 0, 0x8D, 0x42, 0, 0, 0, 0], 0x55]))).currentStreamSensor
        = initState.currentStreamSensor) := by
  have h1 := (C12_stream_failure_silent 0
    (processUART 0 initState (0xCC :: List.replicate 10 0)) (by decide)).1 0x54
    (by decide) (by decide) (by decide) (by decide) (Or.inr (by decide))
  have h2 := (C12_stream_failure_silent 0 initState rfl).2
    [2, 0, 0, 0x8D, 0x42, 0, 0, 0, 0] 0 3 rfl (by decide) (by decide)
  exact ⟨⟨h1.1, h1.2.2.2⟩, ⟨h2.1, h2.2.1⟩⟩

/-- C13: on every accepted FullPacket the HealthRecord is overwritten from the packet in
one step. With the bytes of the frame counted from the start byte (byte 0), so that the
packed payload occupies the bytes 1..31: height is the float in the bytes 5..8
(`height_cm`), temperature the float in the bytes 9..12 (`temperature_c`), heart_rate
the 16-bit number in the bytes 17..18, weight the float in the bytes 19..22
(`weight_kg`) and bmi the float in the bytes 23..26 (the bmi of the packet, not
recomputed), all little-endian and stored whatever the status bits are; the four
measured flags are the bits 0..3 of the byte 27 (`sensor_status`: height, temperature,
heart rate, weight), each true exactly when its bit is set; every other field of the
record keeps its value. No label is written on this path, so the step is defined. -/
theorem C13_full_packet_overwrites (now : Nat) (st : State) (b : Nat)
    (hrp : st.receivingPacket = true) (hbi : st.bufferIndex = 33) (hb : b ≠ 0xAA)
    (hok : (parseUARTPacket
      { st with
        uartBuffer := store st.uartBuffer 33 b
        bufferIndex := 34
        receivingPacket := false }).1 = true) :
    processByteUB now st b = some (processByte now st b) ∧
    (processByte now st b).sensorData = (List.range' 1 31).map (store st.uartBuffer 33 b) ∧
    (processByte now st b).healthData =
      { st.healthData with
        height := st.uartBuffer 5 + 256 * st.uartBuffer 6 + 65536 * st.uartBuffer 7
          + 16777216 * st.uartBuffer 8
        temperature := st.uartBuffer 9 + 256 * st.uartBuffer 10 + 65536 * st.uartBuffer 11
          + 16777216 * st.uartBuffer 12
        heart_rate := ((st.uartBuffer 17 + 256 * st.uartBuffer 18 : Nat) : Int)
        weight := st.uartBuffer 19 + 256 * st.uartBuffer 20 + 65536 * st.uartBuffer 21
          + 16777216 * st.uartBuffer 22
        bmi := st.uartBuffer 23 + 256 * st.uartBuffer 24 + 65536 * st.uartBuffer 25
          + 16777216 * st.uartBuffer 26
        height_measured := decide (st.uartBuffer 27 % 2 = 1)
        temp_measured := decide (st.uartBuffer 27 / 2 % 2 = 1)
        hr_measured := decide (st.uartBuffer 27 / 4 % 2 = 1)
        weight_measured := decide (st.uartBuffer 27 / 8 % 2 = 1) } := by
  have hcond : store st.uartBuffer 33 b 0 = 0xAA ∧ store st.uartBuffer 33 b 33 = 0x55 ∧
      xorRange (store st.uartBuffer 33 b) 1 31 = store st.uartBuffer 33 b 32 := by
    by_cases h0 : store st.uartBuffer 33 b 0 = 0xAA
    · by_cases h33 : store st.uartBuffer 33 b 33 = 0x55
      · by_cases hx : xorRange (store st.uartBuffer 33 b) 1 31 = store st.uartBuffer 33 b 32
        · exact ⟨h0, h33, hx⟩
        · simp [parseUARTPacket, sizeofSensorData, h0, h33, hx] at hok
      · simp [parseUARTPacket, sizeofSensorData, h0, h33] at hok
    · simp [parseUARTPacket, sizeofSensorData, h0] at hok
  have hcell : ∀ i, i < 31 →
      byteAt ((List.range' 1 31).map (store st.uartBuffer 33 b)) i = st.uartBuffer (1 + i) := by
    intro i hi
    have hlen : i < ((List.range' 1 31).map (store st.uartBuffer 33 b)).length := by
      simp only [List.length_map, List.length_range']
      exact hi
    rw [byteAt, List.getD_eq_getElem _ _ hlen, List.getElem_map, List.getElem_range',
      Nat.one_mul, store_other _ _ _ _ (by omega)]
  have hbit : ∀ k, decide (st.uartBuffer 27 &&& 2 ^ k ≠ 0)
      = decide (st.uartBuffer 27 / 2 ^ k % 2 = 1) := by
    intro k
    rw [and_two_pow_ne_zero, Nat.testBit_to_div_mod]
  have hb0 := hbit 0
  have hb1 := hbit 1
  have hb2 := hbit 2
  have hb3 := hbit 3
  simp only [Nat.pow_zero, Nat.div_one, Nat.pow_one, Nat.reducePow] at hb0 hb1 hb2 hb3
  refine ⟨processByteUB_of_no_sample now st b (Or.inr (Or.inl hrp)), ?_⟩
  rw [processByte_packet_complete now st b hb hrp hbi, if_pos hcond]
  refine ⟨rfl, ?_⟩
  have c4 := hcell 4 (by omega)
  have c5 := hcell 5 (by omega)
  have c6 := hcell 6 (by omega)
  have c7 := hcell 7 (by omega)
  have c8 := hcell 8 (by omega)
  have c9 := hcell 9 (by omega)
  have c10 := hcell 10 (by omega)
  have c11 := hcell 11 (by omega)
  have c16 := hcell 16 (by omega)
  have c17 := hcell 17 (by omega)
  have c18 := hcell 18 (by omega)
  have c19 := hcell 19 (by omega)
  have c20 := hcell 20 (by omega)
  have c21 := hcell 21 (by omega)
  have c22 := hcell 22 (by omega)
  have c23 := hcell 23 (by omega)
  have c24 := hcell 24 (by omega)
  have c25 := hcell 25 (by omega)
  have c26 := hcell 26 (by omega)
  simp only [Nat.reduceAdd] at c4 c5 c6 c7 c8 c9 c10 c11 c16 c17 c18
  simp only [Nat.reduceAdd] at c19 c20 c21 c22 c23 c24 c25 c26
  simp only [acceptedState, sizeofSensorData, Nat.reduceAdd, SensorData_height_cm,
    SensorData_temperature_c, SensorData_heart_rate, SensorData_weight_kg, SensorData_bmi,
    SensorData_sensor_status, le32, le16, c4, c5, c6, c7, c8, c9, c10, c11, c16, c17, c18,
    c19, c20, c21, c22, c23, c24, c25, c26, hb0, hb1, hb2, hb3]

/-- The witness of C13: the frame of a packet with height 172.3, temperature 36.6,
heart rate 72, weight 70.5, bmi 23.7 and the status byte 0x05 (bits 0 and 2): the
numeric fields are the ones of the packet, the flags of height and heart rate are set
and the other two cleared. -/
theorem C13_full_packet_overwrites_witness :
    (processByte 0 (processUART 0 initState
      (0xAA :: ([0x66, 0x66, 0x9B, 0x42, 0xCD, 0x4C, 0x2C, 0x43, 0x66, 0x66, 0x12, 0x42, 0x00, 0x00, 0xC8, 0x41, 0x48, 0x00, 0x00, 0x00, 0x8D, 0x42, 0x9A, 0x99, 0xBD, 0x41, 0x05, 0xE8, 0x03, 0x00, 0x00] ++ [0x78]))) 0x55).healthData =
      { initHealthData with
        height := 0x432C4CCD
        temperature := 0x42126666
        heart_rate := 72
        weight := 0x428D0000
        bmi := 0x41BD999A
        height_measured := true
        temp_measured := false
        hr_measured := true
        weight_measured := false } := by
  have h := (C13_full_packet_overwrites 0 (processUART 0 initState
      (0xAA :: ([0x66, 0x66, 0x9B, 0x42, 0xCD, 0x4C, 0x2C, 0x43, 0x66, 0x66, 0x12, 0x42, 0x00, 0x00, 0xC8, 0x41, 0x48, 0x00, 0x00, 0x00, 0x8D, 0x42, 0x9A, 0x99, 0xBD, 0x41, 0x05, 0xE8, 0x03, 0x00, 0x00] ++ [0x78]))) 0x55 (by decide) (by decide) (by decide) (by decide)).2.2
  rw [h]
  decide

/-- C14: the three commands. `sendMeasureCommand` writes the byte 0x01,
`sendStartStreamCommand` the two bytes 0x05 and `sensorType` modulo 256,
`sendStopStreamCommand` the byte 0x06; nothing else is written and nothing else
changes, and for a sensor type in 1..4 the second byte of StartStream is the type. -/
theorem C14_command_encoding (st : State) (sensorType : Int) :
    sendMeasureCommand st = { st with tx := st.tx ++ [0x01] } ∧
    sendStartStreamCommand sensorType st
      = { st with tx := st.tx ++ [0x05, (sensorType % 256).toNat] } ∧
    sendStopStreamCommand st = { st with tx := st.tx ++ [0x06] } ∧
    (1 ≤ sensorType → sensorType ≤ 4 →
      (sendStartStreamCommand sensorType st).tx = st.tx ++ [0x05, sensorType.toNat]) := by
  refine ⟨rfl, rfl, rfl, ?_⟩
  intro h1 h4
  have h : (sensorType % 256).toNat = sensorType.toNat := by omega
  simp [sendStartStreamCommand, h]

/-- The witness of C14: StartStream for the weight sensor. -/
theorem C14_command_encoding_witness :
    (sendStartStreamCommand 2 initState).tx = initState.tx ++ [0x05, (2 : Int).toNat] :=
  (C14_command_encoding initState 2).2.2.2 (by decide) (by decide)

/-- C16 at its failing input: the height 170.0 is captured, then the weight sample
w = 2 ^ 120 (float bits 0x7B800000) arrives in a valid stream frame. Its last byte makes
`updateLiveLabel` render w with `dtostrf(w, 5, 1, buf)`, 40 bytes into `char buf[32]`,
so the effect is undefined and no bmi is stored in a defined state. -/
theorem C16_failing_input :
    ((processUARTUB 0 initState (streamFrame 1 0 0 0x2A 0x43 0 0 0 0)).bind
      (captureButtonClickedUB 1)).map (fun st => st.healthData.height)
      = some 0x432A0000 ∧
    f32_gt_zero 0x432A0000 = true ∧ f32_gt_zero 0x7B800000 = true ∧
    streamFrame 2 0 0 0x80 0x7B 0 0 0 0
      = [0xCC, 2, 0, 0, 0x80, 0x7B, 0, 0, 0, 0, 0xF9, 0x55] ∧
    dtostrf_size 0x7B800000 5 = 40 ∧
    (((processUARTUB 0 initState (streamFrame 1 0 0 0x2A 0x43 0 0 0 0)).bind
      (captureButtonClickedUB 1)).bind
        (fun st => processUARTUB 1 st (streamFrame 2 0 0 0x80 0x7B 0 0 0 0))).isNone
      = true := by
  decide

/-- C17 at its failing input: from the freshly reset record the weight 70.5 is
captured first, then the height sample h = 2 ^ 120 (float bits 0x7B800000) arrives in a
valid stream frame. Its last byte makes `updateLiveLabel` render h with
`dtostrf(h, 5, 1, buf)` past `char buf[32]`: the effect is undefined, so the scenario
does not end in a defined state with bmi = 0. -/
theorem C17_failing_input :
    ((processUARTUB 0 (infoNextClicked "Ann" "30" "Female" "Main St" initState)
      (streamFrame 2 0 0 0x8D 0x42 0 0 0 0)).bind
      (captureButtonClickedUB 2)).map
        (fun st => (st.healthData.weight, st.healthData.bmi)) = some (0x428D0000, 0) ∧
    f32_gt_zero 0x7B800000 = true ∧
    streamFrame 1 0 0 0x80 0x7B 0 0 0 0
      = [0xCC, 1, 0, 0, 0x80, 0x7B, 0, 0, 0, 0, 0xFA, 0x55] ∧
    (((processUARTUB 0 (infoNextClicked "Ann" "30" "Female" "Main St" initState)
      (streamFrame 2 0 0 0x8D 0x42 0 0 0 0)).bind
      (captureButtonClickedUB 2)).bind
        (fun st => processUARTUB 1 st (streamFrame 1 0 0 0x80 0x7B 0 0 0 0))).isNone
      = true := by
  decide

/-- C18, as stated, fails: a record whose name is "Doe, John" has a row that no
rendering of the numbers makes split into 12 fields; with the stand-in renderings the
row splits into 13 fields, the field splitter of the data view puts "Doe" in column 1
and the last two fields together in column 11, and the data view, run on the data file
that holds the header and this row, shows "Doe" in column 1. For a record without any
comma the data view, which parses the line as `println` stored it, shows in column 11
the rendering of bp_dia followed by a carriage return. -/
theorem C18_counterexample :
    (¬ ∃ (fmtF : Nat → String) (fmtI : Int → String),
      (splitComma (toCSV fmtF fmtI recordWithComma).data).length = 12) ∧
    (splitComma (toCSV fmtFloatStub fmtIntStub recordWithComma).data).length = 13 ∧
    splitFields (toCSV fmtFloatStub fmtIntStub recordWithComma).data 1 = "Doe".data ∧
    splitFields (toCSV fmtFloatStub fmtIntStub recordWithComma).data 1
      ≠ recordWithComma.name.data ∧
    splitFields (toCSV fmtFloatStub fmtIntStub recordWithComma).data 11 = "0,0".data ∧
    splitFields (toCSV fmtFloatStub fmtIntStub recordWithComma).data 11
      ≠ (fmtIntStub recordWithComma.bp_dia).data ∧
    (dataViewRow
      (readHealthData true
        (fileWithRows headerLine [(toCSV fmtFloatStub fmtIntStub recordWithComma).data]))
      1).map (fun fields => fields 1) = some "Doe".data ∧
    (dataViewRow
      (readHealthData true
        (fileWithRows headerLine [(toCSV fmtFloatStub fmtIntStub recordAnn).data]))
      1).map (fun fields => fields 11) = some ['0', '\r'] := by
  refine ⟨?_, by decide, by decide, by decide, by decide, by decide, by decide, by decide⟩
  rintro ⟨fmtF, fmtI, h⟩
  rw [splitComma_length, toCSV_data] at h
  have hn : recordWithComma.name.data.count ',' = 1 := by decide
  simp only [csvFields, joinComma, List.count_append, List.count_cons, hn] at h
  simp at h
  omega

/-- C19: session reset. After the NEXT handler of the patient-information screen all
five `measurements_done` flags are false, all five measured flags are false, the numeric
fields height, weight, temperature, heart_rate, bp_sys, bp_dia and bmi are zero, name,
age, gender and address hold the values just entered, and the timestamp is unchanged
(`resetMeasurements` leaves the five strings alone). -/
theorem C19_session_reset (name age selected address : String) (st : State)
    (hsel : selected ∈ genderOptions) :
    (∀ i, i < 5 → (infoNextClicked name age selected address st).measurements_done i = false) ∧
    ((infoNextClicked name age selected address st).healthData.height_measured = false ∧
      (infoNextClicked name age selected address st).healthData.weight_measured = false ∧
      (infoNextClicked name age selected address st).healthData.temp_measured = false ∧
      (infoNextClicked name age selected address st).healthData.hr_measured = false ∧
      (infoNextClicked name age selected address st).healthData.bp_measured = false) ∧
    ((infoNextClicked name age selected address st).healthData.height = 0 ∧
      (infoNextClicked name age selected address st).healthData.weight = 0 ∧
      (infoNextClicked name age selected address st).healthData.temperature = 0 ∧
      (infoNextClicked name age selected address st).healthData.heart_rate = 0 ∧
      (infoNextClicked name age selected address st).healthData.bp_sys = 0 ∧
      (infoNextClicked name age selected address st).healthData.bp_dia = 0 ∧
      (infoNextClicked name age selected address st).healthData.bmi = 0) ∧
    ((infoNextClicked name age selected address st).healthData.name = name ∧
      (infoNextClicked name age selected address st).healthData.age = age ∧
      (infoNextClicked name age selected address st).healthData.gender = selected ∧
      (infoNextClicked name age selected address st).healthData.address = address ∧
      (infoNextClicked name age selected address st).healthData.timestamp
        = st.healthData.timestamp) ∧
    (∀ hd : HealthData, (resetMeasurements hd).timestamp = hd.timestamp ∧
      (resetMeasurements hd).name = hd.name ∧ (resetMeasurements hd).age = hd.age ∧
      (resetMeasurements hd).gender = hd.gender ∧
      (resetMeasurements hd).address = hd.address) := by
  have hg : String.mk (selected.data.take 19) = selected := by
    simp only [genderOptions, List.mem_cons, List.mem_singleton, List.not_mem_nil,
      or_false] at hsel
    rcases hsel with h | h | h | h <;> subst h <;> rfl
  refine ⟨?_, ⟨rfl, rfl, rfl, rfl, rfl⟩, ⟨rfl, rfl, rfl, rfl, rfl, rfl, rfl⟩,
    ⟨rfl, rfl, ?_, rfl, rfl⟩, fun hd => ⟨rfl, rfl, rfl, rfl, rfl⟩⟩
  · intro i hi
    simp [infoNextClicked, hi]
  · exact hg

/-- The witness of C19: the handler runs after a height capture. -/
theorem C19_session_reset_witness :
    (infoNextClicked "Ann Lee" "41" "Prefer not to say" "12 Main St"
      (captureButtonClicked ovfZero 1 initState)).measurements_done 1 = false ∧
    (infoNextClicked "Ann Lee" "41" "Prefer not to say" "12 Main St"
      (captureButtonClicked ovfZero 1 initState)).healthData.height_measured = false ∧
    (infoNextClicked "Ann Lee" "41" "Prefer not to say" "12 Main St"
      (captureButtonClicked ovfZero 1 initState)).healthData.gender = "Prefer not to say" := by
  have h := C19_session_reset "Ann Lee" "41" "Prefer not to say" "12 Main St"
    (captureButtonClicked ovfZero 1 initState) (by decide)
  exact ⟨h.1 1 (by decide), h.2.1.1, h.2.2.2.1.2.2.1⟩

/-- C20 at its failing input: two valid stream frames back to back, the height sample
2 ^ 120 (float bits 0x7B800000) and the weight sample 70.5, neither with a byte 0xAA or
0xCC at the positions 1..10. The last byte of the first frame makes `updateLiveLabel`
render its value with `dtostrf` past `char buf[32]`: the effect is undefined, so the
decoder does not end in a defined state that holds the value and type of the last
frame. -/
theorem C20_failing_input :
    framesBytes [[1, 0, 0, 0x80, 0x7B, 0, 0, 0, 0], [2, 0, 0, 0x8D, 0x42, 0, 0, 0, 0]]
      = [0xCC, 1, 0, 0, 0x80, 0x7B, 0, 0, 0, 0, 0xFA, 0x55,
          0xCC, 2, 0, 0, 0x8D, 0x42, 0, 0, 0, 0, 0xCD, 0x55] ∧
    (processUARTUB 0 initState
      (framesBytes [[1, 0, 0, 0x80, 0x7B, 0, 0, 0, 0],
        [2, 0, 0, 0x8D, 0x42, 0, 0, 0, 0]])).isNone = true ∧
    (processUARTUB 0 initState
      (framesBytes [[2, 0, 0, 0x8D, 0x42, 0, 0, 0, 0]])).map
        (fun st => (st.currentStreamSensor, st.latestStreamValue))
      = some (2, 0x428D0000) := by
  decide

/-! ## Lemmas for the claims C21 to C30 -/

/-- While a full packet is being captured, a step of the decoder leaves the stream
capture untouched. -/
theorem processByte_packet_keeps_stream (now : Nat) (st : State) (b : Nat)
    (hrp : st.receivingPacket = true) :
    (processByte now st b).receivingStream = st.receivingStream ∧
    (processByte now st b).streamIndex = st.streamIndex ∧
    (processByte now st b).streamBuffer = st.streamBuffer ∧
    (processByte now st b).latestStreamValue = st.latestStreamValue ∧
    (processByte now st b).currentStreamSensor = st.currentStreamSensor := by
  by_cases hA : b = 0xAA
  · simp [processByte, hA]
  · simp only [processByte, hA, hrp, if_true, if_false, parseUARTPacket]
    split_ifs <;> simp

theorem readStringUntil_line (l rest : List Char) (hl : '\n' ∉ l) :
    readStringUntil '\n' (l ++ '\n' :: rest) = (l, rest) := by
  induction l with
  | nil => simp [readStringUntil]
  | cons c l ih =>
    have hc : c ≠ '\n' := fun h => hl (by simp [h])
    have hs : '\n' ∉ l := fun h => hl (by simp [h])
    rw [List.cons_append, readStringUntil, if_neg hc, ih hs]

theorem joinLines_append (a b : List (List Char)) :
    joinLines (a ++ b) = joinLines a ++ joinLines b := by
  induction a with
  | nil => rfl
  | cons l a ih => simp [joinLines, ih]

/-- The reading loop returns the lines that its budget allows, each ended by a line
feed. -/
theorem readLoop_joinLines (k : Nat) (ls : List (List Char)) (content : List Char)
    (hls : ∀ l ∈ ls, '\n' ∉ l) :
    readLoop k (joinLines ls) content = content ++ joinLines (ls.take k) := by
  induction k generalizing ls content with
  | zero => simp [readLoop, joinLines]
  | succ k ih =>
    cases ls with
    | nil => simp [readLoop, joinLines]
    | cons l ls =>
      have hne : l ++ '\n' :: joinLines ls ≠ [] := by simp
      rw [joinLines, readLoop, if_neg hne, readStringUntil_line l _ (hls l (by simp)),
        ih ls _ (fun x hx => hls x (by simp [hx]))]
      simp [joinLines]

/-- Appending a row with `println` adds one line, which ends in a carriage return. -/
theorem saveHealthData_joinLines (ls : List (List Char)) (data : List Char) :
    saveHealthData true (some (joinLines ls)) data
      = (true, some (joinLines (ls ++ [data ++ ['\r']]))) := by
  simp [saveHealthData, println, joinLines_append, joinLines]

theorem readHealthData_joinLines (ls : List (List Char)) (hls : ∀ l ∈ ls, '\n' ∉ l) :
    readHealthData true (some (joinLines ls)) = joinLines (ls.take 50) := by
  simp [readHealthData, readLoop_joinLines 50 ls [] hls]

theorem foldl_saveHealthData (rows : List (List Char)) (ls : List (List Char)) :
    rows.foldl (fun f row => (saveHealthData true f row).2) (some (joinLines ls))
      = some (joinLines (ls ++ rows.map (fun row => row ++ ['\r']))) := by
  induction rows generalizing ls with
  | nil => simp
  | cons row rows ih =>
    rw [List.foldl_cons, saveHealthData_joinLines, ih]
    simp

/-- The data file written by `initSDCard` and `saveHealthData`, as its lines. -/
theorem fileWithRows_joinLines (header : List Char) (rows : List (List Char)) :
    fileWithRows header rows
      = some (joinLines ((header ++ ['\r']) :: rows.map (fun row => row ++ ['\r']))) := by
  have h : println header = joinLines [header ++ ['\r']] := by simp [println, joinLines]
  rw [fileWithRows, h, foldl_saveHealthData]
  rfl

/-- Once the data file holds 50 lines, an appended row does not show in what
`readHealthData` returns. -/
theorem readHealthData_full_file (header row : List Char) (rows : List (List Char))
    (hlen : rows.length = 49) (hh : '\n' ∉ header) (hrows : ∀ r ∈ rows, '\n' ∉ r)
    (hrow : '\n' ∉ row) :
    readHealthData true (saveHealthData true (fileWithRows header rows) row).2
      = (fileWithRows header rows).getD [] ∧
    readHealthData true (saveHealthData true (fileWithRows header rows) row).2
      ≠ (saveHealthData true (fileWithRows header rows) row).2.getD [] := by
  have hnl : ∀ x : List Char, '\n' ∉ x → '\n' ∉ x ++ ['\r'] := by
    intro x hx hmem
    rcases List.mem_append.1 hmem with h | h
    · exact hx h
    · simp at h
  have hls : ∀ l ∈ ((header ++ ['\r']) :: rows.map (fun r => r ++ ['\r'])) ++ [row ++ ['\r']],
      '\n' ∉ l := by
    intro l hl
    simp only [List.mem_append, List.mem_cons, List.mem_map, List.mem_singleton,
      List.not_mem_nil, or_false] at hl
    rcases hl with (rfl | ⟨r, hr, rfl⟩) | rfl
    · exact hnl _ hh
    · exact hnl _ (hrows r hr)
    · exact hnl _ hrow
  have h50 : ((header ++ ['\r']) :: rows.map (fun r => r ++ ['\r'])).length = 50 := by
    simp [hlen]
  have htake : (((header ++ ['\r']) :: rows.map (fun r => r ++ ['\r']))
      ++ [row ++ ['\r']]).take 50
      = (header ++ ['\r']) :: rows.map (fun r => r ++ ['\r']) := by
    rw [List.take_append_of_le_length (by omega), List.take_of_length_le (by omega)]
  rw [fileWithRows_joinLines, saveHealthData_joinLines, readHealthData_joinLines _ hls, htake]
  refine ⟨rfl, ?_⟩
  simp [joinLines_append, joinLines]

theorem storeSeq_above {α : Type} (l : List α) (a : Nat → α) (i j : Nat)
    (h : i + l.length ≤ j) : storeSeq a i l j = a j := by
  induction l generalizing a i with
  | nil => rfl
  | cons b l ih =>
    simp only [List.length_cons] at h
    rw [storeSeq, ih _ _ (by omega), store_other _ _ _ _ (by omega)]

/-- The field loop never moves `fieldIdx` beyond 11 and writes no cell from the final
`fieldIdx` on. -/
theorem fieldLoop_bounds (line rest : List Char) (i start idx : Nat) (f : Nat → List Char)
    (hidx : idx < 11) :
    (fieldLoop line rest i start idx f).2.1 ≤ 11 ∧
    idx ≤ (fieldLoop line rest i start idx f).2.1 ∧
    ∀ j, (fieldLoop line rest i start idx f).2.1 ≤ j →
      (fieldLoop line rest i start idx f).2.2 j = f j := by
  induction rest generalizing i start idx f with
  | nil => exact ⟨by simp only [fieldLoop]; omega, Nat.le_refl _, fun _ _ => rfl⟩
  | cons c rest ih =>
    by_cases hc : c = ','
    · by_cases hb : idx + 1 ≥ 11
      · simp only [fieldLoop, hc, if_true, hb]
        exact ⟨by omega, by omega, fun j hj => store_other _ _ _ _ (by omega)⟩
      · simp only [fieldLoop, hc, if_true, hb, if_false]
        obtain ⟨h1, h2, h3⟩ := ih (i + 1) (i + 1) (idx + 1)
          (store f idx (substring line start i)) (by omega)
        exact ⟨h1, by omega, fun j hj => by
          rw [h3 j hj, store_other _ _ _ _ (by omega)]⟩
    · simp only [fieldLoop, hc, if_false]
      exact ih (i + 1) start idx f hidx

/-- The line loop never moves `lineCount` beyond 49 and writes no cell from the final
`lineCount` on. -/
theorem lineLoop_bounds (data rest : List Char) (i start idx : Nat) (f : Nat → List Char)
    (hidx : idx < 49) :
    (lineLoop data rest i start idx f).2.1 ≤ 49 ∧
    idx ≤ (lineLoop data rest i start idx f).2.1 ∧
    ∀ j, (lineLoop data rest i start idx f).2.1 ≤ j →
      (lineLoop data rest i start idx f).2.2 j = f j := by
  induction rest generalizing i start idx f with
  | nil => exact ⟨by simp only [lineLoop]; omega, Nat.le_refl _, fun _ _ => rfl⟩
  | cons c rest ih =>
    by_cases hc : c = '\n'
    · by_cases hb : idx + 1 ≥ 49
      · simp only [lineLoop, hc, if_true, hb]
        exact ⟨by omega, by omega, fun j hj => store_other _ _ _ _ (by omega)⟩
      · simp only [lineLoop, hc, if_true, hb, if_false]
        obtain ⟨h1, h2, h3⟩ := ih (i + 1) (i + 1) (idx + 1)
          (store f idx (substring data start i)) (by omega)
        exact ⟨h1, by omega, fun j hj => by
          rw [h3 j hj, store_other _ _ _ _ (by omega)]⟩
    · simp only [lineLoop, hc, if_false]
      exact ih (i + 1) start idx f hidx

theorem lineLoop_line (data seg rest : List Char) (i start idx : Nat)
    (f : Nat → List Char) (hseg : '\n' ∉ seg) :
    lineLoop data (seg ++ rest) i start idx f
      = lineLoop data rest (i + seg.length) start idx f := by
  induction seg generalizing i with
  | nil => rfl
  | cons c seg ih =>
    have hc : c ≠ '\n' := fun h => hseg (by simp [h])
    have hs : '\n' ∉ seg := fun h => hseg (by simp [h])
    rw [List.cons_append, lineLoop, if_neg hc, ih (i + 1) hs, List.length_cons,
      show i + 1 + seg.length = i + (seg.length + 1) by omega]

/-- The field loop of the data view, run on fields joined with commas, the first of
them to be stored at `idx`: the fields end up in the cells from `idx` on. Only the
fields stored below cell 11 have to be free of commas. -/
theorem fieldLoop_join_le (gs : List (List Char)) :
    ∀ (g pre : List Char) (idx : Nat) (f : Nat → List Char),
      idx < 11 → idx + gs.length ≤ 11 →
      (∀ x ∈ (g :: gs).take (11 - idx), ',' ∉ x) →
      store (fieldLoop (pre ++ joinComma (g :: gs)) (joinComma (g :: gs))
          pre.length pre.length idx f).2.2
        (fieldLoop (pre ++ joinComma (g :: gs)) (joinComma (g :: gs))
          pre.length pre.length idx f).2.1
        ((pre ++ joinComma (g :: gs)).drop
          (fieldLoop (pre ++ joinComma (g :: gs)) (joinComma (g :: gs))
            pre.length pre.length idx f).1)
        = storeSeq f idx (g :: gs) := by
  induction gs with
  | nil =>
    intro g pre idx f hidx _ hx
    obtain ⟨n, hn⟩ : ∃ n, 11 - idx = n + 1 := ⟨10 - idx, by omega⟩
    have hg : ',' ∉ g := hx g (by rw [hn]; simp)
    have h := fieldLoop_field (pre ++ g) g [] pre.length pre.length idx f hg
    rw [List.append_nil] at h
    simp only [joinComma, h, fieldLoop, List.drop_left]
    rfl
  | cons g' gs ih =>
    intro g pre idx f hidx hlen hx
    obtain ⟨n, hn⟩ : ∃ n, 11 - idx = n + 1 := ⟨10 - idx, by omega⟩
    have hg : ',' ∉ g := hx g (by rw [hn]; simp)
    simp only [List.length_cons] at hlen
    have hjoin : joinComma (g :: g' :: gs) = g ++ ',' :: joinComma (g' :: gs) := rfl
    have hsub : substring (pre ++ (g ++ ',' :: joinComma (g' :: gs))) pre.length
        (pre.length + g.length) = g := substring_middle pre g _
    have hline : pre ++ (g ++ ',' :: joinComma (g' :: gs))
        = (pre ++ g ++ [',']) ++ joinComma (g' :: gs) := by simp
    have hlen2 : (pre ++ g ++ [',']).length = pre.length + g.length + 1 := by
      simp only [List.length_append, List.length_cons, List.length_nil]
    rw [hjoin, fieldLoop_field _ g _ pre.length pre.length idx f hg, fieldLoop_comma, hsub]
    by_cases hbreak : idx + 1 ≥ 11
    · have hgs : gs = [] := by
        cases gs with
        | nil => rfl
        | cons a b => simp only [List.length_cons] at hlen; omega
      subst hgs
      rw [if_pos hbreak]
      have hd : List.drop (pre.length + g.length + 1) (pre ++ (g ++ ',' :: g')) = g' := by
        rw [← hlen2, show pre ++ (g ++ ',' :: g') = (pre ++ g ++ [',']) ++ g' by simp,
          List.drop_left]
      show store (store f idx g) (idx + 1)
        (List.drop (pre.length + g.length + 1) (pre ++ (g ++ ',' :: g'))) = _
      rw [hd]
      rfl
    · rw [if_neg hbreak]
      have := ih g' (pre ++ g ++ [',']) (idx + 1) (store f idx g) (by omega) (by omega)
        (fun x hx' => hx x (by
          rw [hn, List.take_succ_cons]
          rw [show 11 - (idx + 1) = n by omega] at hx'
          exact List.mem_cons_of_mem _ hx'))
      rw [hlen2, ← hline] at this
      rw [this]
      rfl

/-- The line loop of the data view, run on lines that each end in a line feed, the first
of them to be stored at `idx`: it stores the lines that fit below cell 49. -/
theorem lineLoop_joinLines (ls : List (List Char)) :
    ∀ (pre : List Char) (idx : Nat) (f : Nat → List Char),
      idx < 49 → (∀ l ∈ ls, '\n' ∉ l) →
      (lineLoop (pre ++ joinLines ls) (joinLines ls) pre.length pre.length idx f).2.1
        = idx + min ls.length (49 - idx) ∧
      (lineLoop (pre ++ joinLines ls) (joinLines ls) pre.length pre.length idx f).2.2
        = storeSeq f idx (ls.take (49 - idx)) := by
  induction ls with
  | nil =>
    intro pre idx f _ _
    exact ⟨by simp [joinLines, lineLoop], by simp [joinLines, lineLoop, storeSeq]⟩
  | cons l ls ih =>
    intro pre idx f hidx hls
    obtain ⟨n, hn⟩ : ∃ n, 49 - idx = n + 1 := ⟨48 - idx, by omega⟩
    have hl : '\n' ∉ l := hls l (by simp)
    have hsub : substring (pre ++ (l ++ '\n' :: joinLines ls)) pre.length
        (pre.length + l.length) = l := substring_middle pre l _
    have hline : pre ++ (l ++ '\n' :: joinLines ls)
        = (pre ++ l ++ ['\n']) ++ joinLines ls := by simp
    have hlen2 : (pre ++ l ++ ['\n']).length = pre.length + l.length + 1 := by
      simp only [List.length_append, List.length_cons, List.length_nil]
    rw [joinLines, lineLoop_line _ l _ pre.length pre.length idx f hl, lineLoop,
      if_pos rfl, hsub, hn, List.take_succ_cons]
    by_cases hbreak : idx + 1 ≥ 49
    · have hn0 : n = 0 := by omega
      subst hn0
      rw [if_pos hbreak]
      exact ⟨by simp only [List.length_cons]; omega, rfl⟩
    · simp only [if_neg hbreak]
      have := ih (pre ++ l ++ ['\n']) (idx + 1) (store f idx l) (by omega)
        (fun x hx => hls x (List.mem_cons_of_mem _ hx))
      rw [hlen2, ← hline, show 49 - (idx + 1) = n by omega] at this
      rw [this.1, this.2]
      exact ⟨by simp only [List.length_cons]; omega, rfl⟩

theorem getD_map_append_cons {α β : Type} (f : α → β) (a b : List α) (x : α) (d : β) :
    ((a ++ x :: b).map f).getD a.length d = f x := by
  induction a with
  | nil => rfl
  | cons y a ih => exact ih

/-- The field splitter of the data view on at most 12 fields joined by commas, of which
the first 11 hold no comma: field `k` ends up in `fields[k]`, the other cells stay
empty. -/
theorem splitFields_joinComma_le (fs : List (List Char)) (hfs0 : fs ≠ [])
    (hfs : fs.length ≤ 12) (hcomma : ∀ x ∈ fs.take 11, ',' ∉ x) (k : Nat) :
    splitFields (joinComma fs) k = fs.getD k [] := by
  cases fs with
  | nil => exact absurd rfl hfs0
  | cons g gs =>
    simp only [List.length_cons] at hfs
    have h := fieldLoop_join_le gs g [] 0 (fun _ => []) (by omega) (by omega) hcomma
    simp only [List.nil_append, List.length_nil] at h
    rw [splitFields, h]
    by_cases hk : k < (g :: gs).length
    · have := storeSeq_get (g :: gs) (fun _ => []) 0 k [] hk
      rw [Nat.zero_add] at this
      exact this
    · rw [storeSeq_above _ _ _ _ (by omega), List.getD_eq_default _ _ (by omega)]

/-- The data view on a data file written by `initSDCard` and `saveHealthData`: the
table row `j + 1`, for `j < 7`, splits the line of the row `j` of the file, which is
the row followed by the carriage return of `println`. -/
theorem dataViewRow_fileWithRows (header : List Char) (rows : List (List Char)) (j : Nat)
    (hh : '\n' ∉ header) (hrows : ∀ r ∈ rows, '\n' ∉ r)
    (hj : j < rows.length) (hj7 : j < 7) :
    dataViewRow (readHealthData true (fileWithRows header rows)) (j + 1)
      = some (splitFields (rows.getD j [] ++ ['\r'])) := by
  have hnl : ∀ x : List Char, '\n' ∉ x → '\n' ∉ x ++ ['\r'] := by
    intro x hx hmem
    rcases List.mem_append.1 hmem with h | h
    · exact hx h
    · simp at h
  have hls : ∀ l ∈ ((header ++ ['\r']) :: rows.map (fun r => r ++ ['\r'])), '\n' ∉ l := by
    intro l hl
    simp only [List.mem_cons, List.mem_map] at hl
    rcases hl with rfl | ⟨r, hr, rfl⟩
    · exact hnl _ hh
    · exact hnl _ (hrows r hr)
  have hls50 : ∀ l ∈ ((header ++ ['\r']) :: rows.map (fun r => r ++ ['\r'])).take 50,
      '\n' ∉ l := fun l hl => hls l (List.mem_of_mem_take hl)
  have hlen : (((header ++ ['\r']) :: rows.map (fun r => r ++ ['\r'])).take 50).length
      = min 50 (rows.length + 1) := by
    rw [List.length_take, List.length_cons, List.length_map]
  have hloop := lineLoop_joinLines
    (((header ++ ['\r']) :: rows.map (fun r => r ++ ['\r'])).take 50) [] 0 (fun _ => [])
    (by omega) hls50
  simp only [List.nil_append, List.length_nil, Nat.zero_add, Nat.sub_zero, hlen] at hloop
  have hcell : storeSeq (fun _ => ([] : List Char)) 0
      ((((header ++ ['\r']) :: rows.map (fun r => r ++ ['\r'])).take 50).take 49) (j + 1)
      = rows.getD j [] ++ ['\r'] := by
    have hk : j + 1 < ((((header ++ ['\r']) :: rows.map (fun r => r ++ ['\r'])).take 50).take
        49).length := by
      rw [List.length_take, hlen]
      omega
    have := storeSeq_get _ (fun _ => ([] : List Char)) 0 (j + 1) [] hk
    rw [Nat.zero_add] at this
    rw [this, List.take_take, List.getD_eq_getElem?_getD,
      List.getElem?_take_of_lt (by omega), List.getElem?_cons_succ, List.getElem?_map,
      List.getD_eq_getElem?_getD, List.getElem?_eq_getElem hj]
    rfl
  rw [fileWithRows_joinLines, readHealthData_joinLines _ hls, dataViewRow, hloop.1, hloop.2,
    if_pos ⟨by omega, by omega, by omega⟩, hcell]

/-! ## The claims C21 to C30 -/

/-- C21, as stated, fails: the two frames of a weight sample of 70.0 with the reserved
bytes 0, 0, 0, 0 and 1, 0, 0, 0 both have a correct checksum and end marker and differ
only in the reserved bytes and the checksum, but the checksum of the first is the start
byte 0xCC: the idle decoder does not decode it and stays in stream capture, while it
decodes the second. -/
theorem C21_counterexample :
    streamFrame 2 0 0 0x8C 0x42 0 0 0 0 = [0xCC, 2, 0, 0, 0x8C, 0x42, 0, 0, 0, 0, 0xCC, 0x55] ∧
    streamFrame 2 0 0 0x8C 0x42 1 0 0 0 = [0xCC, 2, 0, 0, 0x8C, 0x42, 1, 0, 0, 0, 0xCD, 0x55] ∧
    (processUART 0 initState (streamFrame 2 0 0 0x8C 0x42 0 0 0 0)).latestStreamValue = 0 ∧
    (processUART 0 initState (streamFrame 2 0 0 0x8C 0x42 1 0 0 0)).latestStreamValue
      = 0x428C0000 ∧
    (processUART 0 initState (streamFrame 2 0 0 0x8C 0x42 0 0 0 0)).currentStreamSensor = 0 ∧
    (processUART 0 initState (streamFrame 2 0 0 0x8C 0x42 1 0 0 0)).currentStreamSensor = 2 ∧
    (processUART 0 initState (streamFrame 2 0 0 0x8C 0x42 0 0 0 0)).receivingStream = true ∧
    (processUART 0 initState (streamFrame 2 0 0 0x8C 0x42 1 0 0 0)).receivingStream
      = false := by
  decide

/-- C21, amended: two stream frames with the same sensor type and the same four value
bytes, each with a correct checksum and end marker and with neither 0xAA nor 0xCC among
its bytes 1..10, that differ only in the reserved bytes and the checksum, and whose
value the live label of the sensor type can show (`updateLiveLabel_defined`), both have
a defined effect on the idle decoder and leave it with the same `latestStreamValue`,
the same `currentStreamSensor` and the same mode. -/
theorem C21_reserved_bytes_ignored (now : Nat) (st : State)
    (t v0 v1 v2 v3 r0 r1 r2 r3 q0 q1 q2 q3 : Nat) (hrp : st.receivingPacket = false)
    (hr : ∀ b ∈ [t, v0, v1, v2, v3, r0, r1, r2, r3,
      xorBytes [t, v0, v1, v2, v3, r0, r1, r2, r3]], b ≠ 0xAA ∧ b ≠ 0xCC)
    (hq : ∀ b ∈ [t, v0, v1, v2, v3, q0, q1, q2, q3,
      xorBytes [t, v0, v1, v2, v3, q0, q1, q2, q3]], b ≠ 0xAA ∧ b ≠ 0xCC)
    (hlabel : updateLiveLabel_defined t (le32 v0 v1 v2 v3) = true) :
    ∃ st1 st2,
      processUARTUB now st (streamFrame t v0 v1 v2 v3 r0 r1 r2 r3) = some st1 ∧
      processUARTUB now st (streamFrame t v0 v1 v2 v3 q0 q1 q2 q3) = some st2 ∧
      st1.latestStreamValue = st2.latestStreamValue ∧
      st1.currentStreamSensor = st2.currentStreamSensor ∧
      st1.receivingPacket = st2.receivingPacket ∧
      st1.receivingStream = st2.receivingStream := by
  refine ⟨processUART now st (streamFrame t v0 v1 v2 v3 r0 r1 r2 r3),
    processUART now st (streamFrame t v0 v1 v2 v3 q0 q1 q2 q3), ?_, ?_, ?_⟩
  · rw [processUARTUB_streamFrame_clean now st t v0 v1 v2 v3 r0 r1 r2 r3 hrp hr, hlabel]
    rfl
  · rw [processUARTUB_streamFrame_clean now st t v0 v1 v2 v3 q0 q1 q2 q3 hrp hq, hlabel]
    rfl
  · rw [processUART_streamFrame_clean now st t v0 v1 v2 v3 r0 r1 r2 r3 hrp hr,
      processUART_streamFrame_clean now st t v0 v1 v2 v3 q0 q1 q2 q3 hrp hq]
    exact ⟨rfl, rfl, rfl, rfl⟩

/-- The witness of C21: a weight sample of 70.5 with the reserved bytes 0, 0, 0, 0 and
7, 8, 9, 10. -/
theorem C21_reserved_bytes_ignored_witness :
    ∃ st1 st2,
      processUARTUB 0 initState (streamFrame 2 0 0 0x8D 0x42 0 0 0 0) = some st1 ∧
      processUARTUB 0 initState (streamFrame 2 0 0 0x8D 0x42 7 8 9 10) = some st2 ∧
      st1.latestStreamValue = st2.latestStreamValue ∧
      st1.currentStreamSensor = st2.currentStreamSensor ∧
      st1.receivingPacket = st2.receivingPacket ∧
      st1.receivingStream = st2.receivingStream :=
  C21_reserved_bytes_ignored 0 initState 2 0 0 0x8D 0x42 0 0 0 0 7 8 9 10 rfl
    (by decide) (by decide) (by decide)

/-- C22: a byte 0xCC starts stream capture only when no full packet is being captured.
With `receivingPacket` false it sets `receivingStream`, `streamIndex = 1` and
`streamBuffer[0] = 0xCC` and leaves the full-packet capture alone; with
`receivingPacket` true it is stored as the next byte of the packet
(`uartBuffer[bufferIndex] = 0xCC`, no other cell changes, `bufferIndex` is incremented as
a `uint8_t`, which is `bufferIndex + 1` below 255) and the stream capture is left
alone. -/
theorem C22_stream_start_byte (now : Nat) (st : State) :
    (st.receivingPacket = false →
      (processByte now st 0xCC).receivingStream = true ∧
      (processByte now st 0xCC).streamIndex = 1 ∧
      (processByte now st 0xCC).streamBuffer 0 = 0xCC ∧
      (processByte now st 0xCC).uartBuffer = st.uartBuffer ∧
      (processByte now st 0xCC).bufferIndex = st.bufferIndex ∧
      (processByte now st 0xCC).receivingPacket = false) ∧
    (st.receivingPacket = true →
      (processByte now st 0xCC).uartBuffer st.bufferIndex = 0xCC ∧
      (processByte now st 0xCC).uartBuffer = store st.uartBuffer st.bufferIndex 0xCC ∧
      (processByte now st 0xCC).bufferIndex = (st.bufferIndex + 1) % 256 ∧
      (st.bufferIndex < 255 → (processByte now st 0xCC).bufferIndex = st.bufferIndex + 1) ∧
      (processByte now st 0xCC).receivingStream = st.receivingStream ∧
      (processByte now st 0xCC).streamIndex = st.streamIndex ∧
      (processByte now st 0xCC).streamBuffer = st.streamBuffer) := by
  constructor
  · intro hrp
    rw [processByte_stream_start now st hrp]
    exact ⟨rfl, rfl, by simp [store], rfl, rfl, hrp⟩
  · intro hrp
    have hne : (0xCC : Nat) ≠ 0xAA := by decide
    have hbuf : (processByte now st 0xCC).uartBuffer = store st.uartBuffer st.bufferIndex 0xCC := by
      simp only [processByte, hne, if_false, hrp, parseUARTPacket]
      split_ifs <;> simp
    have hidx : (processByte now st 0xCC).bufferIndex = (st.bufferIndex + 1) % 256 := by
      simp only [processByte, hne, if_false, hrp, parseUARTPacket]
      split_ifs <;> simp
    have hstream := processByte_packet_keeps_stream now st 0xCC hrp
    refine ⟨by rw [hbuf, store_same], hbuf, hidx, fun hlt => ?_, hstream.1, hstream.2.1,
      hstream.2.2.1⟩
    rw [hidx, Nat.mod_eq_of_lt (by omega)]

/-- The witness of C22: the byte 0xCC at start-up, and after the start of a packet. -/
theorem C22_stream_start_byte_witness :
    ((processByte 0 initState 0xCC).receivingStream = true ∧
      (processByte 0 initState 0xCC).streamIndex = 1) ∧
    ((processByte 0 (processUART 0 initState [0xAA]) 0xCC).uartBuffer 1 = 0xCC ∧
      (processByte 0 (processUART 0 initState [0xAA]) 0xCC).bufferIndex = 2 ∧
      (processByte 0 (processUART 0 initState [0xAA]) 0xCC).receivingStream = false) := by
  have h1 := (C22_stream_start_byte 0 initState).1 rfl
  have h2 := (C22_stream_start_byte 0 (processUART 0 initState [0xAA])).2 (by decide)
  exact ⟨⟨h1.1, h1.2.1⟩, ⟨h2.1, h2.2.2.2.1 (by decide), h2.2.2.2.2.1⟩⟩

/-- C27 at its failing input: the valid stream frame of the height sample 2 ^ 120
(float bits 0x7B800000), interrupted after its fifth byte (k = 5) by the valid
full-packet frame whose payload is all ones. The packet is accepted (`packetCount` is
1 before the last byte of the stream frame), but that last byte makes `updateLiveLabel`
render the value with `dtostrf` past `char buf[32]`: the effect is undefined and the
StreamSample is not accepted in a defined state. -/
theorem C27_failing_input :
    ((streamFrameOf [1, 0, 0, 0x80, 0x7B, 0, 0, 0, 0]).take 5 ++
        fullFrame (List.replicate 31 1) ++
        (streamFrameOf [1, 0, 0, 0x80, 0x7B, 0, 0, 0, 0]).drop 5).length = 46 ∧
    (processUARTUB 0 initState
      (((streamFrameOf [1, 0, 0, 0x80, 0x7B, 0, 0, 0, 0]).take 5 ++
        fullFrame (List.replicate 31 1) ++
        (streamFrameOf [1, 0, 0, 0x80, 0x7B, 0, 0, 0, 0]).drop 5).take 45)).map
        (fun st => (st.packetCount, st.receivingStream, st.streamIndex))
      = some (1, true, 11) ∧
    (processUARTUB 0 initState
      ((streamFrameOf [1, 0, 0, 0x80, 0x7B, 0, 0, 0, 0]).take 5 ++
        fullFrame (List.replicate 31 1) ++
        (streamFrameOf [1, 0, 0, 0x80, 0x7B, 0, 0, 0, 0]).drop 5)).isNone = true := by
  decide

/-- C28 at its failing input: the valid stream frame of the temperature sample 2 ^ 120
(float bits 0x7B800000) fed to the decoder at start-up. The first 11 bytes have a
defined effect; the step of the last byte makes `updateLiveLabel` write 40 bytes into
`char buf[32]`: the effect of this `processUART` step is undefined, so it has no
footprint that leaves the patient and blood-pressure data alone. The CAPTURE callback of
the height session overruns its own buffer the same way once such a value is in the
latest-value slot (here it got there through a valid frame with the sensor type 9, for
which there is no live label). -/
theorem C28_failing_input :
    streamFrame 3 0 0 0x80 0x7B 0 0 0 0
      = [0xCC, 3, 0, 0, 0x80, 0x7B, 0, 0, 0, 0, 0xF8, 0x55] ∧
    (processUARTUB 0 initState ((streamFrame 3 0 0 0x80 0x7B 0 0 0 0).take 11)).isSome
      = true ∧
    (processUARTUB 0 initState (streamFrame 3 0 0 0x80 0x7B 0 0 0 0)).isNone = true ∧
    (processUARTUB 0 initState (streamFrame 9 0 0 0x80 0x7B 0 0 0 0)).map
      (fun st => st.latestStreamValue) = some 0x7B800000 ∧
    ((processUARTUB 0 initState (streamFrame 9 0 0 0x80 0x7B 0 0 0 0)).bind
      (captureButtonClickedUB 1)).isNone = true := by
  decide

/-- C26 at its failing input: v = 2 ^ 120 (float bits 0x7B800000), which is above zero.
The valid stream frame of StreamSample(1, v) is not decoded in a defined state: its
last byte makes `updateLiveLabel` render v with `dtostrf` past `char buf[32]`. So the
scenario of the claim (capture of the height, reset by the NEXT callback, capture of the
weight) is not reached, where the claim has the weight capture store v. For v = 172.3
the scenario runs as the claim says. -/
theorem C26_failing_input :
    f32_gt_zero 0x7B800000 = true ∧
    (processUARTUB 0 initState (streamFrame 1 0 0 0x80 0x7B 0 0 0 0)).isNone = true ∧
    ((((processUARTUB 0 initState (streamFrame 1 0 0 0x80 0x7B 0 0 0 0)).bind
      (captureButtonClickedUB 1)).map
        (infoNextClicked "Ann" "30" "Female" "Main St")).bind
          (captureButtonClickedUB 2)).isNone = true ∧
    ((((processUARTUB 0 initState (streamFrame 1 0xCD 0x4C 0x2C 0x43 0 0 0 0)).bind
      (captureButtonClickedUB 1)).map
        (infoNextClicked "Ann" "30" "Female" "Main St")).bind
          (captureButtonClickedUB 2)).map
            (fun st => (st.healthData.weight, st.healthData.weight_measured))
      = some (0x432C4CCD, true) := by
  decide

/-- C23: the save of the blood pressure is unconditional. For every pair of texts
(systolic, diastolic), also empty or non-numeric, the SAVE callback sets
bp_measured = true and measurements_done[0] = true, sets bp_sys and bp_dia to the
integer parse of each text (`String::toInt` of the Arduino core, a parameter here)
with no range check, and leaves every other field of the health record unchanged. -/
theorem C23_bp_save_unconditional (toInt : String → Int) (sys_str dia_str : String)
    (st : State) :
    (bpSaveClicked toInt sys_str dia_str st).healthData.bp_measured = true ∧
    (bpSaveClicked toInt sys_str dia_str st).measurements_done 0 = true ∧
    (bpSaveClicked toInt sys_str dia_str st).healthData.bp_sys = toInt sys_str ∧
    (bpSaveClicked toInt sys_str dia_str st).healthData.bp_dia = toInt dia_str ∧
    (bpSaveClicked toInt sys_str dia_str st).healthData.timestamp = st.healthData.timestamp ∧
    (bpSaveClicked toInt sys_str dia_str st).healthData.name = st.healthData.name ∧
    (bpSaveClicked toInt sys_str dia_str st).healthData.age = st.healthData.age ∧
    (bpSaveClicked toInt sys_str dia_str st).healthData.gender = st.healthData.gender ∧
    (bpSaveClicked toInt sys_str dia_str st).healthData.address = st.healthData.address ∧
    (bpSaveClicked toInt sys_str dia_str st).healthData.weight = st.healthData.weight ∧
    (bpSaveClicked toInt sys_str dia_str st).healthData.height = st.healthData.height ∧
    (bpSaveClicked toInt sys_str dia_str st).healthData.temperature
      = st.healthData.temperature ∧
    (bpSaveClicked toInt sys_str dia_str st).healthData.bmi = st.healthData.bmi ∧
    (bpSaveClicked toInt sys_str dia_str st).healthData.heart_rate
      = st.healthData.heart_rate ∧
    (bpSaveClicked toInt sys_str dia_str st).healthData.height_measured
      = st.healthData.height_measured ∧
    (bpSaveClicked toInt sys_str dia_str st).healthData.weight_measured
      = st.healthData.weight_measured ∧
    (bpSaveClicked toInt sys_str dia_str st).healthData.temp_measured
      = st.healthData.temp_measured ∧
    (bpSaveClicked toInt sys_str dia_str st).healthData.hr_measured
      = st.healthData.hr_measured ∧
    (∀ i, i ≠ 0 →
      (bpSaveClicked toInt sys_str dia_str st).measurements_done i
        = st.measurements_done i) := by
  refine ⟨rfl, ?_, rfl, rfl, rfl, rfl, rfl, rfl, rfl, rfl, rfl, rfl, rfl, rfl, rfl, rfl,
    rfl, rfl, ?_⟩
  · simp [bpSaveClicked, store]
  · intro i hi
    simp [bpSaveClicked, store, hi]

/-- C24 at its failing input: the data file holds the header and 49 rows; a further row
is appended by `saveHealthData` with success, and the next `readHealthData` returns
exactly what the file held before, without the appended row: its loop, under the
comment "Read all lines", stops after 50 lines. -/
theorem C24_failing_input :
    (saveHealthData true
      (fileWithRows headerLine
        (List.replicate 49 (toCSV fmtFloatStub fmtIntStub recordAnn).data))
      (toCSV fmtFloatStub fmtIntStub recordWithComma).data).1 = true ∧
    readHealthData true
      (saveHealthData true
        (fileWithRows headerLine
          (List.replicate 49 (toCSV fmtFloatStub fmtIntStub recordAnn).data))
        (toCSV fmtFloatStub fmtIntStub recordWithComma).data).2
      = (fileWithRows headerLine
          (List.replicate 49 (toCSV fmtFloatStub fmtIntStub recordAnn).data)).getD [] ∧
    readHealthData true
      (saveHealthData true
        (fileWithRows headerLine
          (List.replicate 49 (toCSV fmtFloatStub fmtIntStub recordAnn).data))
        (toCSV fmtFloatStub fmtIntStub recordWithComma).data).2
      ≠ (saveHealthData true
        (fileWithRows headerLine
          (List.replicate 49 (toCSV fmtFloatStub fmtIntStub recordAnn).data))
        (toCSV fmtFloatStub fmtIntStub recordWithComma).data).2.getD [] := by
  have hA : '\n' ∉ (toCSV fmtFloatStub fmtIntStub recordAnn).data := by decide
  have h := readHealthData_full_file headerLine
    (toCSV fmtFloatStub fmtIntStub recordWithComma).data
    (List.replicate 49 (toCSV fmtFloatStub fmtIntStub recordAnn).data)
    (List.length_replicate _ _) (by decide)
    (fun r hr => by rw [List.eq_of_mem_replicate hr]; exact hA) (by decide)
  exact ⟨rfl, h.1, h.2⟩

/-- C29: the parsing of the data view never indexes out of bounds. For every string
`data` the line splitter leaves `lineCount` at most 49 and writes no cell of `lines`
from index 49 on (it stores the first 49 lines and stops); for every line the field
splitter leaves `fieldIdx` at most 11 and, with the final store
`fields[fieldIdx] = line.substring(start)`, writes no cell of `fields` from index 12
on. It stops splitting after the 11th comma: a line made of at most 12 fields joined
by commas, of which the first 11 hold no comma, gives its k-th field in `fields[k]`,
the last field taking the entire remainder (further commas included), and leaves the
remaining fields empty. -/
theorem C29_data_view_in_bounds (data line : List Char) (lines0 fields0 : Nat → List Char)
    (ls fs : List (List Char)) (hls : ∀ l ∈ ls, '\n' ∉ l)
    (hfs0 : fs ≠ []) (hfs : fs.length ≤ 12) (hcomma : ∀ x ∈ fs.take 11, ',' ∉ x) :
    (lineLoop data data 0 0 0 lines0).2.1 ≤ 49 ∧
    (∀ j, 49 ≤ j → (lineLoop data data 0 0 0 lines0).2.2 j = lines0 j) ∧
    (lineLoop (joinLines ls) (joinLines ls) 0 0 0 lines0).2.1 = min ls.length 49 ∧
    (lineLoop (joinLines ls) (joinLines ls) 0 0 0 lines0).2.2
      = storeSeq lines0 0 (ls.take 49) ∧
    (fieldLoop line line 0 0 0 fields0).2.1 ≤ 11 ∧
    (∀ j, 12 ≤ j →
      store (fieldLoop line line 0 0 0 fields0).2.2 (fieldLoop line line 0 0 0 fields0).2.1
        (line.drop (fieldLoop line line 0 0 0 fields0).1) j = fields0 j) ∧
    (∀ k, splitFields (joinComma fs) k = fs.getD k []) := by
  obtain ⟨l1, -, l3⟩ := lineLoop_bounds data data 0 0 0 lines0 (by omega)
  obtain ⟨f1, -, f3⟩ := fieldLoop_bounds line line 0 0 0 fields0 (by omega)
  have hj := lineLoop_joinLines ls [] 0 lines0 (by omega) hls
  simp only [List.nil_append, List.length_nil, Nat.zero_add, Nat.sub_zero] at hj
  refine ⟨l1, fun j hj49 => l3 j (by omega), hj.1, hj.2, f1, ?_, ?_⟩
  · intro j hj12
    rw [store_other _ _ _ _ (by omega)]
    exact f3 j (by omega)
  · intro k
    cases fs with
    | nil => exact absurd rfl hfs0
    | cons g gs =>
      simp only [List.length_cons] at hfs
      have h := fieldLoop_join_le gs g [] 0 (fun _ => []) (by omega) (by omega) hcomma
      simp only [List.nil_append, List.length_nil] at h
      rw [splitFields, h]
      by_cases hk : k < (g :: gs).length
      · have := storeSeq_get (g :: gs) (fun _ => []) 0 k [] hk
        rw [Nat.zero_add] at this
        exact this
      · rw [storeSeq_above _ _ _ _ (by omega), List.getD_eq_default _ _ (by omega)]

/-- The witness of C29: a line with 13 commas gives the remainder "l,m,n" as its last
field, and a line with one comma leaves the fields from 2 on empty. -/
theorem C29_data_view_in_bounds_witness :
    splitFields (joinComma ["a".data, "b".data, "c".data, "d".data, "e".data, "f".data,
      "g".data, "h".data, "i".data, "j".data, "k".data, "l,m,n".data]) 11 = "l,m,n".data ∧
    (lineLoop (joinLines ["x".data, "y".data]) (joinLines ["x".data, "y".data]) 0 0 0
      (fun _ => [])).2.1 = 2 :=
  ⟨(C29_data_view_in_bounds [] [] (fun _ => []) (fun _ => []) ["x".data, "y".data]
      ["a".data, "b".data, "c".data, "d".data, "e".data, "f".data,
        "g".data, "h".data, "i".data, "j".data, "k".data, "l,m,n".data]
      (by decide) (by decide) (by decide) (by decide)).2.2.2.2.2.2 11,
    (C29_data_view_in_bounds [] [] (fun _ => []) (fun _ => []) ["x".data, "y".data]
      ["a".data, "b".data, "c".data, "d".data, "e".data, "f".data,
        "g".data, "h".data, "i".data, "j".data, "k".data, "l,m,n".data]
      (by decide) (by decide) (by decide) (by decide)).2.2.1⟩

/-- C18, amended: for every record whose timestamp, name, age, gender and address hold
no comma (the renderings of the numbers hold none), the row of `toCSV` split at its
commas is exactly the 12 fields timestamp, name, age, gender, address and the
renderings of weight, height, temperature, bmi, heart_rate, bp_sys, bp_dia, in this
order. When, in addition, no row of the data file holds a line feed, the data view,
which parses the line that `saveHealthData` stored and `readHealthData` returned,
shows the record (one of the first seven of the file) in its table row and recovers
the first eleven fields in their columns, the name in column 1. -/
theorem C18_row_fields (fmtF : Nat → String) (fmtI : Int → String) (header : List Char)
    (before after : List HealthData) (hd : HealthData)
    (hcomma : ∀ x ∈ csvFields fmtF fmtI hd, ',' ∉ x)
    (hh : '\n' ∉ header)
    (hrows : ∀ r ∈ before ++ hd :: after, '\n' ∉ (toCSV fmtF fmtI r).data)
    (hseven : before.length < 7) :
    splitComma (toCSV fmtF fmtI hd).data =
      [hd.timestamp.data, hd.name.data, hd.age.data, hd.gender.data, hd.address.data,
        (fmtF hd.weight).data, (fmtF hd.height).data, (fmtF hd.temperature).data,
        (fmtF hd.bmi).data, (fmtI hd.heart_rate).data, (fmtI hd.bp_sys).data,
        (fmtI hd.bp_dia).data] ∧
    ∃ fields,
      dataViewRow
        (readHealthData true
          (fileWithRows header
            ((before ++ hd :: after).map (fun r => (toCSV fmtF fmtI r).data))))
        (before.length + 1) = some fields ∧
      (∀ k, k < 11 → fields k = (csvFields fmtF fmtI hd).getD k []) ∧
      fields 1 = hd.name.data := by
  constructor
  · rw [toCSV_data, splitComma_joinComma _ (by simp [csvFields]) hcomma]
    rfl
  · have hrow : ((before ++ hd :: after).map (fun r => (toCSV fmtF fmtI r).data)).getD
        before.length [] = (toCSV fmtF fmtI hd).data :=
      getD_map_append_cons (fun r => (toCSV fmtF fmtI r).data) before after hd []
    have hline : (toCSV fmtF fmtI hd).data ++ ['\r']
        = joinComma [hd.timestamp.data, hd.name.data, hd.age.data, hd.gender.data,
            hd.address.data, (fmtF hd.weight).data, (fmtF hd.height).data,
            (fmtF hd.temperature).data, (fmtF hd.bmi).data, (fmtI hd.heart_rate).data,
            (fmtI hd.bp_sys).data, (fmtI hd.bp_dia).data ++ ['\r']] := by
      rw [toCSV_data]
      simp [csvFields, joinComma]
    have hsplit : ∀ k, splitFields ((toCSV fmtF fmtI hd).data ++ ['\r']) k
        = [hd.timestamp.data, hd.name.data, hd.age.data, hd.gender.data,
            hd.address.data, (fmtF hd.weight).data, (fmtF hd.height).data,
            (fmtF hd.temperature).data, (fmtF hd.bmi).data, (fmtI hd.heart_rate).data,
            (fmtI hd.bp_sys).data, (fmtI hd.bp_dia).data ++ ['\r']].getD k [] := by
      intro k
      rw [hline]
      exact splitFields_joinComma_le
        [hd.timestamp.data, hd.name.data, hd.age.data, hd.gender.data,
          hd.address.data, (fmtF hd.weight).data, (fmtF hd.height).data,
          (fmtF hd.temperature).data, (fmtF hd.bmi).data, (fmtI hd.heart_rate).data,
          (fmtI hd.bp_sys).data, (fmtI hd.bp_dia).data ++ ['\r']]
        (List.cons_ne_nil _ _) (Nat.le_refl 12)
        (fun x hx => hcomma x
          (List.mem_of_mem_take (show x ∈ (csvFields fmtF fmtI hd).take 11 from hx))) k
    refine ⟨splitFields ((toCSV fmtF fmtI hd).data ++ ['\r']), ?_, ?_, ?_⟩
    · rw [dataViewRow_fileWithRows header _ before.length hh
        (fun r hr => by
          obtain ⟨x, hx, rfl⟩ := List.mem_map.1 hr
          exact hrows x hx)
        (by simp) hseven, hrow]
    · intro k hk
      rw [hsplit k]
      have h12 : k < 11 := hk
      interval_cases k <;> rfl
    · rw [hsplit 1]
      rfl

/-- The witness of C18: the data file holds the header and the row of one record
without commas, with the stand-in renderings. -/
theorem C18_row_fields_witness :
    (splitComma (toCSV fmtFloatStub fmtIntStub recordAnn).data).length = 12 ∧
    ∃ fields,
      dataViewRow
        (readHealthData true
          (fileWithRows headerLine
            (([] ++ recordAnn :: []).map (fun r => (toCSV fmtFloatStub fmtIntStub r).data))))
        (([] : List HealthData).length + 1) = some fields ∧
      fields 1 = "Ann Lee".data := by
  have h := C18_row_fields fmtFloatStub fmtIntStub headerLine [] [] recordAnn
    (by decide) (by decide) (by decide) (by decide)
  obtain ⟨h1, fields, h2, -, h4⟩ := h
  exact ⟨by rw [h1]; rfl, fields, h2, h4⟩

end HealthKiosk
